import Mathlib

/-!
# succinctrits: rank/select directories over base-3 packed trit vectors

A shallow embedding of `rs_support.hpp` and `rank_support.hpp`, together with
proofs relating `build`, `rank` and `select` to a naive count of the target trit.

Conventions of the embedding.
* `uint64_t` / `uint32_t` values are natural numbers; every addition and
  multiplication of the source is reduced modulo the word size `W`
  (`2 ^ 64` for `rs_support`, `2 ^ 32` for `rank_support`).
* A failing `assert`, an out-of-range array read and a loop that exhausts the
  iteration budget given to it are the three values of `Err`.
* `std::vector` is a `List`; `push_back x` is `· ++ [x]`.
-/

namespace succinctrits

/-- Ways in which an operation of the embedding can fail to return a value. -/
inductive Err where
  | assertion
  | out_of_bounds
  | out_of_fuel
  deriving DecidableEq

/-- Read `l[i]`; an index outside the vector is `Err.out_of_bounds`. -/
def rd (l : List Nat) (i : Nat) : Except Err Nat :=
  match l[i]? with
  | some x => Except.ok x
  | none => Except.error Err.out_of_bounds

/-- Modelled from the spec: `trit_vector` (trit_vector.hpp is not among the sources).
    The packed bytes `m_trytes`, five trits per byte in base 3, and the logical
    number of trits. -/
structure trit_vector where
  m_trytes : List Nat
  m_num_trits : Nat

/-- Modelled from the spec: `trit_vector::TRITS_PER_BYTE`, five trits per byte. -/
def trit_vector.TRITS_PER_BYTE : Nat := 5

/-- Modelled from the spec: `trit_vector::get_num_trits`. -/
def trit_vector.get_num_trits (v : trit_vector) : Nat := v.m_num_trits

/-- Modelled from the spec: `trit_vector::get(i)`, which computes `q = i/5`, `r = i%5`
    and returns `(bytes[q] / 3^r) mod 3`, failing for `i ≥ N`. -/
def trit_vector.get (v : trit_vector) (i : Nat) : Except Err Nat :=
  if i < v.m_num_trits then
    match v.m_trytes[i / 5]? with
    | some b => Except.ok (b / 3 ^ (i % 5) % 3)
    | none => Except.error Err.out_of_bounds
  else Except.error Err.assertion

def TRITS_PER_LB : Nat := 65550
def TRITS_PER_SB : Nat := 50
def TRITS_PER_BYTE : Nat := trit_vector.TRITS_PER_BYTE
def TRYTES_PER_LB : Nat := TRITS_PER_LB / TRITS_PER_BYTE
def TRYTES_PER_SB : Nat := TRITS_PER_SB / TRITS_PER_BYTE
def LB_PER_SB : Nat := TRITS_PER_LB / TRITS_PER_SB
def UINT16_MAX : Nat := 65535

/-- Table `rs_support<0>::LUT[5][243]` (rs_support.hpp), row `k` counting target trit 0
    among the first `k+1` trits of a tryte. -/
def rs_support.LUT_0 : List (List Nat) :=
  [
    [
      1, 0, 0, 1, 0, 0, 1, 0, 0, 1, 0, 0, 1, 0, 0, 1, 0, 0, 1, 0, 0, 1, 0, 0, 1, 0, 0, 1, 0, 0, 1, 0, 0, 1, 0,
      0, 1, 0, 0, 1, 0, 0, 1, 0, 0, 1, 0, 0, 1, 0, 0, 1, 0, 0, 1, 0, 0, 1, 0, 0, 1, 0, 0, 1, 0, 0, 1, 0, 0, 1,
      0, 0, 1, 0, 0, 1, 0, 0, 1, 0, 0, 1, 0, 0, 1, 0, 0, 1, 0, 0, 1, 0, 0, 1, 0, 0, 1, 0, 0, 1, 0, 0, 1, 0, 0,
      1, 0, 0, 1, 0, 0, 1, 0, 0, 1, 0, 0, 1, 0, 0, 1, 0, 0, 1, 0, 0, 1, 0, 0, 1, 0, 0, 1, 0, 0, 1, 0, 0, 1, 0,
      0, 1, 0, 0, 1, 0, 0, 1, 0, 0, 1, 0, 0, 1, 0, 0, 1, 0, 0, 1, 0, 0, 1, 0, 0, 1, 0, 0, 1, 0, 0, 1, 0, 0, 1,
      0, 0, 1, 0, 0, 1, 0, 0, 1, 0, 0, 1, 0, 0, 1, 0, 0, 1, 0, 0, 1, 0, 0, 1, 0, 0, 1, 0, 0, 1, 0, 0, 1, 0, 0,
      1, 0, 0, 1, 0, 0, 1, 0, 0, 1, 0, 0, 1, 0, 0, 1, 0, 0, 1, 0, 0, 1, 0, 0, 1, 0, 0, 1, 0, 0, 1, 0, 0
    ],
    [
      2, 1, 1, 1, 0, 0, 1, 0, 0, 2, 1, 1, 1, 0, 0, 1, 0, 0, 2, 1, 1, 1, 0, 0, 1, 0, 0, 2, 1, 1, 1, 0, 0, 1, 0,
      0, 2, 1, 1, 1, 0, 0, 1, 0, 0, 2, 1, 1, 1, 0, 0, 1, 0, 0, 2, 1, 1, 1, 0, 0, 1, 0, 0, 2, 1, 1, 1, 0, 0, 1,
      0, 0, 2, 1, 1, 1, 0, 0, 1, 0, 0, 2, 1, 1, 1, 0, 0, 1, 0, 0, 2, 1, 1, 1, 0, 0, 1, 0, 0, 2, 1, 1, 1, 0, 0,
      1, 0, 0, 2, 1, 1, 1, 0, 0, 1, 0, 0, 2, 1, 1, 1, 0, 0, 1, 0, 0, 2, 1, 1, 1, 0, 0, 1, 0, 0, 2, 1, 1, 1, 0,
      0, 1, 0, 0, 2, 1, 1, 1, 0, 0, 1, 0, 0, 2, 1, 1, 1, 0, 0, 1, 0, 0, 2, 1, 1, 1, 0, 0, 1, 0, 0, 2, 1, 1, 1,
      0, 0, 1, 0, 0, 2, 1, 1, 1, 0, 0, 1, 0, 0, 2, 1, 1, 1, 0, 0, 1, 0, 0, 2, 1, 1, 1, 0, 0, 1, 0, 0, 2, 1, 1,
      1, 0, 0, 1, 0, 0, 2, 1, 1, 1, 0, 0, 1, 0, 0, 2, 1, 1, 1, 0, 0, 1, 0, 0, 2, 1, 1, 1, 0, 0, 1, 0, 0
    ],
    [
      3, 2, 2, 2, 1, 1, 2, 1, 1, 2, 1, 1, 1, 0, 0, 1, 0, 0, 2, 1, 1, 1, 0, 0, 1, 0, 0, 3, 2, 2, 2, 1, 1, 2, 1,
      1, 2, 1, 1, 1, 0, 0, 1, 0, 0, 2, 1, 1, 1, 0, 0, 1, 0, 0, 3, 2, 2, 2, 1, 1, 2, 1, 1, 2, 1, 1, 1, 0, 0, 1,
      0, 0, 2, 1, 1, 1, 0, 0, 1, 0, 0, 3, 2, 2, 2, 1, 1, 2, 1, 1, 2, 1, 1, 1, 0, 0, 1, 0, 0, 2, 1, 1, 1, 0, 0,
      1, 0, 0, 3, 2, 2, 2, 1, 1, 2, 1, 1, 2, 1, 1, 1, 0, 0, 1, 0, 0, 2, 1, 1, 1, 0, 0, 1, 0, 0, 3, 2, 2, 2, 1,
      1, 2, 1, 1, 2, 1, 1, 1, 0, 0, 1, 0, 0, 2, 1, 1, 1, 0, 0, 1, 0, 0, 3, 2, 2, 2, 1, 1, 2, 1, 1, 2, 1, 1, 1,
      0, 0, 1, 0, 0, 2, 1, 1, 1, 0, 0, 1, 0, 0, 3, 2, 2, 2, 1, 1, 2, 1, 1, 2, 1, 1, 1, 0, 0, 1, 0, 0, 2, 1, 1,
      1, 0, 0, 1, 0, 0, 3, 2, 2, 2, 1, 1, 2, 1, 1, 2, 1, 1, 1, 0, 0, 1, 0, 0, 2, 1, 1, 1, 0, 0, 1, 0, 0
    ],
    [
      4, 3, 3, 3, 2, 2, 3, 2, 2, 3, 2, 2, 2, 1, 1, 2, 1, 1, 3, 2, 2, 2, 1, 1, 2, 1, 1, 3, 2, 2, 2, 1, 1, 2, 1,
      1, 2, 1, 1, 1, 0, 0, 1, 0, 0, 2, 1, 1, 1, 0, 0, 1, 0, 0, 3, 2, 2, 2, 1, 1, 2, 1, 1, 2, 1, 1, 1, 0, 0, 1,
      0, 0, 2, 1, 1, 1, 0, 0, 1, 0, 0, 4, 3, 3, 3, 2, 2, 3, 2, 2, 3, 2, 2, 2, 1, 1, 2, 1, 1, 3, 2, 2, 2, 1, 1,
      2, 1, 1, 3, 2, 2, 2, 1, 1, 2, 1, 1, 2, 1, 1, 1, 0, 0, 1, 0, 0, 2, 1, 1, 1, 0, 0, 1, 0, 0, 3, 2, 2, 2, 1,
      1, 2, 1, 1, 2, 1, 1, 1, 0, 0, 1, 0, 0, 2, 1, 1, 1, 0, 0, 1, 0, 0, 4, 3, 3, 3, 2, 2, 3, 2, 2, 3, 2, 2, 2,
      1, 1, 2, 1, 1, 3, 2, 2, 2, 1, 1, 2, 1, 1, 3, 2, 2, 2, 1, 1, 2, 1, 1, 2, 1, 1, 1, 0, 0, 1, 0, 0, 2, 1, 1,
      1, 0, 0, 1, 0, 0, 3, 2, 2, 2, 1, 1, 2, 1, 1, 2, 1, 1, 1, 0, 0, 1, 0, 0, 2, 1, 1, 1, 0, 0, 1, 0, 0
    ],
    [
      5, 4, 4, 4, 3, 3, 4, 3, 3, 4, 3, 3, 3, 2, 2, 3, 2, 2, 4, 3, 3, 3, 2, 2, 3, 2, 2, 4, 3, 3, 3, 2, 2, 3, 2,
      2, 3, 2, 2, 2, 1, 1, 2, 1, 1, 3, 2, 2, 2, 1, 1, 2, 1, 1, 4, 3, 3, 3, 2, 2, 3, 2, 2, 3, 2, 2, 2, 1, 1, 2,
      1, 1, 3, 2, 2, 2, 1, 1, 2, 1, 1, 4, 3, 3, 3, 2, 2, 3, 2, 2, 3, 2, 2, 2, 1, 1, 2, 1, 1, 3, 2, 2, 2, 1, 1,
      2, 1, 1, 3, 2, 2, 2, 1, 1, 2, 1, 1, 2, 1, 1, 1, 0, 0, 1, 0, 0, 2, 1, 1, 1, 0, 0, 1, 0, 0, 3, 2, 2, 2, 1,
      1, 2, 1, 1, 2, 1, 1, 1, 0, 0, 1, 0, 0, 2, 1, 1, 1, 0, 0, 1, 0, 0, 4, 3, 3, 3, 2, 2, 3, 2, 2, 3, 2, 2, 2,
      1, 1, 2, 1, 1, 3, 2, 2, 2, 1, 1, 2, 1, 1, 3, 2, 2, 2, 1, 1, 2, 1, 1, 2, 1, 1, 1, 0, 0, 1, 0, 0, 2, 1, 1,
      1, 0, 0, 1, 0, 0, 3, 2, 2, 2, 1, 1, 2, 1, 1, 2, 1, 1, 1, 0, 0, 1, 0, 0, 2, 1, 1, 1, 0, 0, 1, 0, 0
    ]
  ]

/-- Table `rs_support<1>::LUT[5][243]` (rs_support.hpp), row `k` counting target trit 1
    among the first `k+1` trits of a tryte. -/
def rs_support.LUT_1 : List (List Nat) :=
  [
    [
      0, 1, 0, 0, 1, 0, 0, 1, 0, 0, 1, 0, 0, 1, 0, 0, 1, 0, 0, 1, 0, 0, 1, 0, 0, 1, 0, 0, 1, 0, 0, 1, 0, 0, 1,
      0, 0, 1, 0, 0, 1, 0, 0, 1, 0, 0, 1, 0, 0, 1, 0, 0, 1, 0, 0, 1, 0, 0, 1, 0, 0, 1, 0, 0, 1, 0, 0, 1, 0, 0,
      1, 0, 0, 1, 0, 0, 1, 0, 0, 1, 0, 0, 1, 0, 0, 1, 0, 0, 1, 0, 0, 1, 0, 0, 1, 0, 0, 1, 0, 0, 1, 0, 0, 1, 0,
      0, 1, 0, 0, 1, 0, 0, 1, 0, 0, 1, 0, 0, 1, 0, 0, 1, 0, 0, 1, 0, 0, 1, 0, 0, 1, 0, 0, 1, 0, 0, 1, 0, 0, 1,
      0, 0, 1, 0, 0, 1, 0, 0, 1, 0, 0, 1, 0, 0, 1, 0, 0, 1, 0, 0, 1, 0, 0, 1, 0, 0, 1, 0, 0, 1, 0, 0, 1, 0, 0,
      1, 0, 0, 1, 0, 0, 1, 0, 0, 1, 0, 0, 1, 0, 0, 1, 0, 0, 1, 0, 0, 1, 0, 0, 1, 0, 0, 1, 0, 0, 1, 0, 0, 1, 0,
      0, 1, 0, 0, 1, 0, 0, 1, 0, 0, 1, 0, 0, 1, 0, 0, 1, 0, 0, 1, 0, 0, 1, 0, 0, 1, 0, 0, 1, 0, 0, 1, 0
    ],
    [
      0, 1, 0, 1, 2, 1, 0, 1, 0, 0, 1, 0, 1, 2, 1, 0, 1, 0, 0, 1, 0, 1, 2, 1, 0, 1, 0, 0, 1, 0, 1, 2, 1, 0, 1,
      0, 0, 1, 0, 1, 2, 1, 0, 1, 0, 0, 1, 0, 1, 2, 1, 0, 1, 0, 0, 1, 0, 1, 2, 1, 0, 1, 0, 0, 1, 0, 1, 2, 1, 0,
      1, 0, 0, 1, 0, 1, 2, 1, 0, 1, 0, 0, 1, 0, 1, 2, 1, 0, 1, 0, 0, 1, 0, 1, 2, 1, 0, 1, 0, 0, 1, 0, 1, 2, 1,
      0, 1, 0, 0, 1, 0, 1, 2, 1, 0, 1, 0, 0, 1, 0, 1, 2, 1, 0, 1, 0, 0, 1, 0, 1, 2, 1, 0, 1, 0, 0, 1, 0, 1, 2,
      1, 0, 1, 0, 0, 1, 0, 1, 2, 1, 0, 1, 0, 0, 1, 0, 1, 2, 1, 0, 1, 0, 0, 1, 0, 1, 2, 1, 0, 1, 0, 0, 1, 0, 1,
      2, 1, 0, 1, 0, 0, 1, 0, 1, 2, 1, 0, 1, 0, 0, 1, 0, 1, 2, 1, 0, 1, 0, 0, 1, 0, 1, 2, 1, 0, 1, 0, 0, 1, 0,
      1, 2, 1, 0, 1, 0, 0, 1, 0, 1, 2, 1, 0, 1, 0, 0, 1, 0, 1, 2, 1, 0, 1, 0, 0, 1, 0, 1, 2, 1, 0, 1, 0
    ],
    [
      0, 1, 0, 1, 2, 1, 0, 1, 0, 1, 2, 1, 2, 3, 2, 1, 2, 1, 0, 1, 0, 1, 2, 1, 0, 1, 0, 0, 1, 0, 1, 2, 1, 0, 1,
      0, 1, 2, 1, 2, 3, 2, 1, 2, 1, 0, 1, 0, 1, 2, 1, 0, 1, 0, 0, 1, 0, 1, 2, 1, 0, 1, 0, 1, 2, 1, 2, 3, 2, 1,
      2, 1, 0, 1, 0, 1, 2, 1, 0, 1, 0, 0, 1, 0, 1, 2, 1, 0, 1, 0, 1, 2, 1, 2, 3, 2, 1, 2, 1, 0, 1, 0, 1, 2, 1,
      0, 1, 0, 0, 1, 0, 1, 2, 1, 0, 1, 0, 1, 2, 1, 2, 3, 2, 1, 2, 1, 0, 1, 0, 1, 2, 1, 0, 1, 0, 0, 1, 0, 1, 2,
      1, 0, 1, 0, 1, 2, 1, 2, 3, 2, 1, 2, 1, 0, 1, 0, 1, 2, 1, 0, 1, 0, 0, 1, 0, 1, 2, 1, 0, 1, 0, 1, 2, 1, 2,
      3, 2, 1, 2, 1, 0, 1, 0, 1, 2, 1, 0, 1, 0, 0, 1, 0, 1, 2, 1, 0, 1, 0, 1, 2, 1, 2, 3, 2, 1, 2, 1, 0, 1, 0,
      1, 2, 1, 0, 1, 0, 0, 1, 0, 1, 2, 1, 0, 1, 0, 1, 2, 1, 2, 3, 2, 1, 2, 1, 0, 1, 0, 1, 2, 1, 0, 1, 0
    ],
    [
      0, 1, 0, 1, 2, 1, 0, 1, 0, 1, 2, 1, 2, 3, 2, 1, 2, 1, 0, 1, 0, 1, 2, 1, 0, 1, 0, 1, 2, 1, 2, 3, 2, 1, 2,
      1, 2, 3, 2, 3, 4, 3, 2, 3, 2, 1, 2, 1, 2, 3, 2, 1, 2, 1, 0, 1, 0, 1, 2, 1, 0, 1, 0, 1, 2, 1, 2, 3, 2, 1,
      2, 1, 0, 1, 0, 1, 2, 1, 0, 1, 0, 0, 1, 0, 1, 2, 1, 0, 1, 0, 1, 2, 1, 2, 3, 2, 1, 2, 1, 0, 1, 0, 1, 2, 1,
      0, 1, 0, 1, 2, 1, 2, 3, 2, 1, 2, 1, 2, 3, 2, 3, 4, 3, 2, 3, 2, 1, 2, 1, 2, 3, 2, 1, 2, 1, 0, 1, 0, 1, 2,
      1, 0, 1, 0, 1, 2, 1, 2, 3, 2, 1, 2, 1, 0, 1, 0, 1, 2, 1, 0, 1, 0, 0, 1, 0, 1, 2, 1, 0, 1, 0, 1, 2, 1, 2,
      3, 2, 1, 2, 1, 0, 1, 0, 1, 2, 1, 0, 1, 0, 1, 2, 1, 2, 3, 2, 1, 2, 1, 2, 3, 2, 3, 4, 3, 2, 3, 2, 1, 2, 1,
      2, 3, 2, 1, 2, 1, 0, 1, 0, 1, 2, 1, 0, 1, 0, 1, 2, 1, 2, 3, 2, 1, 2, 1, 0, 1, 0, 1, 2, 1, 0, 1, 0
    ],
    [
      0, 1, 0, 1, 2, 1, 0, 1, 0, 1, 2, 1, 2, 3, 2, 1, 2, 1, 0, 1, 0, 1, 2, 1, 0, 1, 0, 1, 2, 1, 2, 3, 2, 1, 2,
      1, 2, 3, 2, 3, 4, 3, 2, 3, 2, 1, 2, 1, 2, 3, 2, 1, 2, 1, 0, 1, 0, 1, 2, 1, 0, 1, 0, 1, 2, 1, 2, 3, 2, 1,
      2, 1, 0, 1, 0, 1, 2, 1, 0, 1, 0, 1, 2, 1, 2, 3, 2, 1, 2, 1, 2, 3, 2, 3, 4, 3, 2, 3, 2, 1, 2, 1, 2, 3, 2,
      1, 2, 1, 2, 3, 2, 3, 4, 3, 2, 3, 2, 3, 4, 3, 4, 5, 4, 3, 4, 3, 2, 3, 2, 3, 4, 3, 2, 3, 2, 1, 2, 1, 2, 3,
      2, 1, 2, 1, 2, 3, 2, 3, 4, 3, 2, 3, 2, 1, 2, 1, 2, 3, 2, 1, 2, 1, 0, 1, 0, 1, 2, 1, 0, 1, 0, 1, 2, 1, 2,
      3, 2, 1, 2, 1, 0, 1, 0, 1, 2, 1, 0, 1, 0, 1, 2, 1, 2, 3, 2, 1, 2, 1, 2, 3, 2, 3, 4, 3, 2, 3, 2, 1, 2, 1,
      2, 3, 2, 1, 2, 1, 0, 1, 0, 1, 2, 1, 0, 1, 0, 1, 2, 1, 2, 3, 2, 1, 2, 1, 0, 1, 0, 1, 2, 1, 0, 1, 0
    ]
  ]

/-- Table `rs_support<2>::LUT[5][243]` (rs_support.hpp), row `k` counting target trit 2
    among the first `k+1` trits of a tryte. -/
def rs_support.LUT_2 : List (List Nat) :=
  [
    [
      0, 0, 1, 0, 0, 1, 0, 0, 1, 0, 0, 1, 0, 0, 1, 0, 0, 1, 0, 0, 1, 0, 0, 1, 0, 0, 1, 0, 0, 1, 0, 0, 1, 0, 0,
      1, 0, 0, 1, 0, 0, 1, 0, 0, 1, 0, 0, 1, 0, 0, 1, 0, 0, 1, 0, 0, 1, 0, 0, 1, 0, 0, 1, 0, 0, 1, 0, 0, 1, 0,
      0, 1, 0, 0, 1, 0, 0, 1, 0, 0, 1, 0, 0, 1, 0, 0, 1, 0, 0, 1, 0, 0, 1, 0, 0, 1, 0, 0, 1, 0, 0, 1, 0, 0, 1,
      0, 0, 1, 0, 0, 1, 0, 0, 1, 0, 0, 1, 0, 0, 1, 0, 0, 1, 0, 0, 1, 0, 0, 1, 0, 0, 1, 0, 0, 1, 0, 0, 1, 0, 0,
      1, 0, 0, 1, 0, 0, 1, 0, 0, 1, 0, 0, 1, 0, 0, 1, 0, 0, 1, 0, 0, 1, 0, 0, 1, 0, 0, 1, 0, 0, 1, 0, 0, 1, 0,
      0, 1, 0, 0, 1, 0, 0, 1, 0, 0, 1, 0, 0, 1, 0, 0, 1, 0, 0, 1, 0, 0, 1, 0, 0, 1, 0, 0, 1, 0, 0, 1, 0, 0, 1,
      0, 0, 1, 0, 0, 1, 0, 0, 1, 0, 0, 1, 0, 0, 1, 0, 0, 1, 0, 0, 1, 0, 0, 1, 0, 0, 1, 0, 0, 1, 0, 0, 1
    ],
    [
      0, 0, 1, 0, 0, 1, 1, 1, 2, 0, 0, 1, 0, 0, 1, 1, 1, 2, 0, 0, 1, 0, 0, 1, 1, 1, 2, 0, 0, 1, 0, 0, 1, 1, 1,
      2, 0, 0, 1, 0, 0, 1, 1, 1, 2, 0, 0, 1, 0, 0, 1, 1, 1, 2, 0, 0, 1, 0, 0, 1, 1, 1, 2, 0, 0, 1, 0, 0, 1, 1,
      1, 2, 0, 0, 1, 0, 0, 1, 1, 1, 2, 0, 0, 1, 0, 0, 1, 1, 1, 2, 0, 0, 1, 0, 0, 1, 1, 1, 2, 0, 0, 1, 0, 0, 1,
      1, 1, 2, 0, 0, 1, 0, 0, 1, 1, 1, 2, 0, 0, 1, 0, 0, 1, 1, 1, 2, 0, 0, 1, 0, 0, 1, 1, 1, 2, 0, 0, 1, 0, 0,
      1, 1, 1, 2, 0, 0, 1, 0, 0, 1, 1, 1, 2, 0, 0, 1, 0, 0, 1, 1, 1, 2, 0, 0, 1, 0, 0, 1, 1, 1, 2, 0, 0, 1, 0,
      0, 1, 1, 1, 2, 0, 0, 1, 0, 0, 1, 1, 1, 2, 0, 0, 1, 0, 0, 1, 1, 1, 2, 0, 0, 1, 0, 0, 1, 1, 1, 2, 0, 0, 1,
      0, 0, 1, 1, 1, 2, 0, 0, 1, 0, 0, 1, 1, 1, 2, 0, 0, 1, 0, 0, 1, 1, 1, 2, 0, 0, 1, 0, 0, 1, 1, 1, 2
    ],
    [
      0, 0, 1, 0, 0, 1, 1, 1, 2, 0, 0, 1, 0, 0, 1, 1, 1, 2, 1, 1, 2, 1, 1, 2, 2, 2, 3, 0, 0, 1, 0, 0, 1, 1, 1,
      2, 0, 0, 1, 0, 0, 1, 1, 1, 2, 1, 1, 2, 1, 1, 2, 2, 2, 3, 0, 0, 1, 0, 0, 1, 1, 1, 2, 0, 0, 1, 0, 0, 1, 1,
      1, 2, 1, 1, 2, 1, 1, 2, 2, 2, 3, 0, 0, 1, 0, 0, 1, 1, 1, 2, 0, 0, 1, 0, 0, 1, 1, 1, 2, 1, 1, 2, 1, 1, 2,
      2, 2, 3, 0, 0, 1, 0, 0, 1, 1, 1, 2, 0, 0, 1, 0, 0, 1, 1, 1, 2, 1, 1, 2, 1, 1, 2, 2, 2, 3, 0, 0, 1, 0, 0,
      1, 1, 1, 2, 0, 0, 1, 0, 0, 1, 1, 1, 2, 1, 1, 2, 1, 1, 2, 2, 2, 3, 0, 0, 1, 0, 0, 1, 1, 1, 2, 0, 0, 1, 0,
      0, 1, 1, 1, 2, 1, 1, 2, 1, 1, 2, 2, 2, 3, 0, 0, 1, 0, 0, 1, 1, 1, 2, 0, 0, 1, 0, 0, 1, 1, 1, 2, 1, 1, 2,
      1, 1, 2, 2, 2, 3, 0, 0, 1, 0, 0, 1, 1, 1, 2, 0, 0, 1, 0, 0, 1, 1, 1, 2, 1, 1, 2, 1, 1, 2, 2, 2, 3
    ],
    [
      0, 0, 1, 0, 0, 1, 1, 1, 2, 0, 0, 1, 0, 0, 1, 1, 1, 2, 1, 1, 2, 1, 1, 2, 2, 2, 3, 0, 0, 1, 0, 0, 1, 1, 1,
      2, 0, 0, 1, 0, 0, 1, 1, 1, 2, 1, 1, 2, 1, 1, 2, 2, 2, 3, 1, 1, 2, 1, 1, 2, 2, 2, 3, 1, 1, 2, 1, 1, 2, 2,
      2, 3, 2, 2, 3, 2, 2, 3, 3, 3, 4, 0, 0, 1, 0, 0, 1, 1, 1, 2, 0, 0, 1, 0, 0, 1, 1, 1, 2, 1, 1, 2, 1, 1, 2,
      2, 2, 3, 0, 0, 1, 0, 0, 1, 1, 1, 2, 0, 0, 1, 0, 0, 1, 1, 1, 2, 1, 1, 2, 1, 1, 2, 2, 2, 3, 1, 1, 2, 1, 1,
      2, 2, 2, 3, 1, 1, 2, 1, 1, 2, 2, 2, 3, 2, 2, 3, 2, 2, 3, 3, 3, 4, 0, 0, 1, 0, 0, 1, 1, 1, 2, 0, 0, 1, 0,
      0, 1, 1, 1, 2, 1, 1, 2, 1, 1, 2, 2, 2, 3, 0, 0, 1, 0, 0, 1, 1, 1, 2, 0, 0, 1, 0, 0, 1, 1, 1, 2, 1, 1, 2,
      1, 1, 2, 2, 2, 3, 1, 1, 2, 1, 1, 2, 2, 2, 3, 1, 1, 2, 1, 1, 2, 2, 2, 3, 2, 2, 3, 2, 2, 3, 3, 3, 4
    ],
    [
      0, 0, 1, 0, 0, 1, 1, 1, 2, 0, 0, 1, 0, 0, 1, 1, 1, 2, 1, 1, 2, 1, 1, 2, 2, 2, 3, 0, 0, 1, 0, 0, 1, 1, 1,
      2, 0, 0, 1, 0, 0, 1, 1, 1, 2, 1, 1, 2, 1, 1, 2, 2, 2, 3, 1, 1, 2, 1, 1, 2, 2, 2, 3, 1, 1, 2, 1, 1, 2, 2,
      2, 3, 2, 2, 3, 2, 2, 3, 3, 3, 4, 0, 0, 1, 0, 0, 1, 1, 1, 2, 0, 0, 1, 0, 0, 1, 1, 1, 2, 1, 1, 2, 1, 1, 2,
      2, 2, 3, 0, 0, 1, 0, 0, 1, 1, 1, 2, 0, 0, 1, 0, 0, 1, 1, 1, 2, 1, 1, 2, 1, 1, 2, 2, 2, 3, 1, 1, 2, 1, 1,
      2, 2, 2, 3, 1, 1, 2, 1, 1, 2, 2, 2, 3, 2, 2, 3, 2, 2, 3, 3, 3, 4, 1, 1, 2, 1, 1, 2, 2, 2, 3, 1, 1, 2, 1,
      1, 2, 2, 2, 3, 2, 2, 3, 2, 2, 3, 3, 3, 4, 1, 1, 2, 1, 1, 2, 2, 2, 3, 1, 1, 2, 1, 1, 2, 2, 2, 3, 2, 2, 3,
      2, 2, 3, 3, 3, 4, 2, 2, 3, 2, 2, 3, 3, 3, 4, 2, 2, 3, 2, 2, 3, 3, 3, 4, 3, 3, 4, 3, 3, 4, 4, 4, 5
    ]
  ]

/-- Table `rank_support<0>::LUT[243]` (rank_support.hpp). -/
def rank_support.LUT_0 : List Nat :=
  [
    5, 4, 4, 4, 3, 3, 4, 3, 3, 4, 3, 3, 3, 2, 2, 3, 2, 2, 4, 3, 3, 3, 2, 2, 3, 2, 2, 4, 3, 3, 3, 2, 2, 3, 2,
    2, 3, 2, 2, 2, 1, 1, 2, 1, 1, 3, 2, 2, 2, 1, 1, 2, 1, 1, 4, 3, 3, 3, 2, 2, 3, 2, 2, 3, 2, 2, 2, 1, 1, 2,
    1, 1, 3, 2, 2, 2, 1, 1, 2, 1, 1, 4, 3, 3, 3, 2, 2, 3, 2, 2, 3, 2, 2, 2, 1, 1, 2, 1, 1, 3, 2, 2, 2, 1, 1,
    2, 1, 1, 3, 2, 2, 2, 1, 1, 2, 1, 1, 2, 1, 1, 1, 0, 0, 1, 0, 0, 2, 1, 1, 1, 0, 0, 1, 0, 0, 3, 2, 2, 2, 1,
    1, 2, 1, 1, 2, 1, 1, 1, 0, 0, 1, 0, 0, 2, 1, 1, 1, 0, 0, 1, 0, 0, 4, 3, 3, 3, 2, 2, 3, 2, 2, 3, 2, 2, 2,
    1, 1, 2, 1, 1, 3, 2, 2, 2, 1, 1, 2, 1, 1, 3, 2, 2, 2, 1, 1, 2, 1, 1, 2, 1, 1, 1, 0, 0, 1, 0, 0, 2, 1, 1,
    1, 0, 0, 1, 0, 0, 3, 2, 2, 2, 1, 1, 2, 1, 1, 2, 1, 1, 1, 0, 0, 1, 0, 0, 2, 1, 1, 1, 0, 0, 1, 0, 0
  ]

/-- Table `rank_support<1>::LUT[243]` (rank_support.hpp). -/
def rank_support.LUT_1 : List Nat :=
  [
    0, 1, 0, 1, 2, 1, 0, 1, 0, 1, 2, 1, 2, 3, 2, 1, 2, 1, 0, 1, 0, 1, 2, 1, 0, 1, 0, 1, 2, 1, 2, 3, 2, 1, 2,
    1, 2, 3, 2, 3, 4, 3, 2, 3, 2, 1, 2, 1, 2, 3, 2, 1, 2, 1, 0, 1, 0, 1, 2, 1, 0, 1, 0, 1, 2, 1, 2, 3, 2, 1,
    2, 1, 0, 1, 0, 1, 2, 1, 0, 1, 0, 1, 2, 1, 2, 3, 2, 1, 2, 1, 2, 3, 2, 3, 4, 3, 2, 3, 2, 1, 2, 1, 2, 3, 2,
    1, 2, 1, 2, 3, 2, 3, 4, 3, 2, 3, 2, 3, 4, 3, 4, 5, 4, 3, 4, 3, 2, 3, 2, 3, 4, 3, 2, 3, 2, 1, 2, 1, 2, 3,
    2, 1, 2, 1, 2, 3, 2, 3, 4, 3, 2, 3, 2, 1, 2, 1, 2, 3, 2, 1, 2, 1, 0, 1, 0, 1, 2, 1, 0, 1, 0, 1, 2, 1, 2,
    3, 2, 1, 2, 1, 0, 1, 0, 1, 2, 1, 0, 1, 0, 1, 2, 1, 2, 3, 2, 1, 2, 1, 2, 3, 2, 3, 4, 3, 2, 3, 2, 1, 2, 1,
    2, 3, 2, 1, 2, 1, 0, 1, 0, 1, 2, 1, 0, 1, 0, 1, 2, 1, 2, 3, 2, 1, 2, 1, 0, 1, 0, 1, 2, 1, 0, 1, 0
  ]

/-- Table `rank_support<2>::LUT[243]` (rank_support.hpp). -/
def rank_support.LUT_2 : List Nat :=
  [
    0, 0, 1, 0, 0, 1, 1, 1, 2, 0, 0, 1, 0, 0, 1, 1, 1, 2, 1, 1, 2, 1, 1, 2, 2, 2, 3, 0, 0, 1, 0, 0, 1, 1, 1,
    2, 0, 0, 1, 0, 0, 1, 1, 1, 2, 1, 1, 2, 1, 1, 2, 2, 2, 3, 1, 1, 2, 1, 1, 2, 2, 2, 3, 1, 1, 2, 1, 1, 2, 2,
    2, 3, 2, 2, 3, 2, 2, 3, 3, 3, 4, 0, 0, 1, 0, 0, 1, 1, 1, 2, 0, 0, 1, 0, 0, 1, 1, 1, 2, 1, 1, 2, 1, 1, 2,
    2, 2, 3, 0, 0, 1, 0, 0, 1, 1, 1, 2, 0, 0, 1, 0, 0, 1, 1, 1, 2, 1, 1, 2, 1, 1, 2, 2, 2, 3, 1, 1, 2, 1, 1,
    2, 2, 2, 3, 1, 1, 2, 1, 1, 2, 2, 2, 3, 2, 2, 3, 2, 2, 3, 3, 3, 4, 1, 1, 2, 1, 1, 2, 2, 2, 3, 1, 1, 2, 1,
    1, 2, 2, 2, 3, 2, 2, 3, 2, 2, 3, 3, 3, 4, 1, 1, 2, 1, 1, 2, 2, 2, 3, 1, 1, 2, 1, 1, 2, 2, 2, 3, 2, 2, 3,
    2, 2, 3, 3, 3, 4, 2, 2, 3, 2, 2, 3, 3, 3, 4, 2, 2, 3, 2, 2, 3, 3, 3, 4, 3, 3, 4, 3, 3, 4, 4, 4, 5
  ]
/-- The table `rs_support<Trit>::LUT`; the class is only instantiable for `Trit < 3`. -/
def rs_support.LUT (t : Nat) : List (List Nat) :=
  match t with
  | 0 => rs_support.LUT_0
  | 1 => rs_support.LUT_1
  | 2 => rs_support.LUT_2
  | _ => []

/-- The table `rank_support<Trit>::LUT`. -/
def rank_support.LUT (t : Nat) : List Nat :=
  match t with
  | 0 => rank_support.LUT_0
  | 1 => rank_support.LUT_1
  | 2 => rank_support.LUT_2
  | _ => []

/-- The read `LUT[k][v]` of `rs_support<t>`. -/
def rs_support.lut (t k v : Nat) : Except Err Nat :=
  match (rs_support.LUT t)[k]? with
  | some row => rd row v
  | none => Except.error Err.out_of_bounds

/-- The read `LUT[v]` of `rank_support<t>`. -/
def rank_support.lut (t v : Nat) : Except Err Nat :=
  rd (rank_support.LUT t) v

/-- Local variables of the loop of `build`: the index `i`, the running count `rank`, and
    the two vectors under construction. -/
structure build_state where
  i : Nat
  rank : Nat
  large_blocks : List Nat
  small_blocks : List Nat

/-- One iteration of the loop of `build` (rs_support.hpp lines 41-48, rank_support.hpp
    lines 39-46) for counters of `W` values, `lut` being the full-tryte count
    (`LUT[4][·]`, respectively `LUT[·]`).  The value pushed on the small blocks is the
    `uint16_t` cast of the delta. -/
def build_body (W : Nat) (lut : Nat → Except Err Nat) (trytes : List Nat) (s : build_state) :
    Except Err build_state := do
  let lbs := if s.i % TRYTES_PER_LB = 0 then s.large_blocks ++ [s.rank] else s.large_blocks
  let sbs ←
    (if s.i % TRYTES_PER_SB = 0 then
      match lbs.getLast? with
      | none => Except.error Err.out_of_bounds
      | some back =>
        if (s.rank + W - back) % W ≤ UINT16_MAX then
          Except.ok (s.small_blocks ++ [(s.rank + W - back) % W % 65536])
        else Except.error Err.assertion
    else Except.ok s.small_blocks)
  let b ← rd trytes s.i
  let c ← lut b
  pure { i := (s.i + 1) % W, rank := (s.rank + c) % W, large_blocks := lbs, small_blocks := sbs }

/-- The loop `for (i = 0; i < m_vec->m_trytes.size(); ++i)` of `build`, run for at most
    `fuel` evaluations of its condition. -/
def build_loop (W : Nat) (lut : Nat → Except Err Nat) (trytes : List Nat) :
    Nat → build_state → Except Err build_state
  | 0, _ => Except.error Err.out_of_fuel
  | fuel + 1, s =>
    if s.i < trytes.length then
      match build_body W lut trytes s with
      | Except.ok s1 => build_loop W lut trytes fuel s1
      | Except.error e => Except.error e
    else Except.ok s

/-- The loop `for (j = tryte_beg; j < tryte_pos; ++j) rank += LUT[..][m_trytes[j]]` of `rank`. -/
def rank_loop (W : Nat) (lut : Nat → Except Err Nat) (trytes : List Nat) (tryte_pos : Nat) :
    Nat → Nat → Nat → Except Err Nat
  | 0, j, rank => if j < tryte_pos then Except.error Err.out_of_fuel else Except.ok rank
  | fuel + 1, j, rank =>
    if j < tryte_pos then
      match rd trytes j with
      | Except.ok b =>
        match lut b with
        | Except.ok c => rank_loop W lut trytes tryte_pos fuel ((j + 1) % W) ((rank + c) % W)
        | Except.error e => Except.error e
      | Except.error e => Except.error e
    else Except.ok rank

/-- Fields of `rs_support<Trit>`; `m_vec = none` is the null pointer. -/
structure rs_support where
  m_vec : Option trit_vector
  m_large_blocks : List Nat
  m_small_blocks : List Nat
  m_num_target_trits : Nat

/-- The function `rs_support<t>::build(vec)`. -/
def rs_support.build (t : Nat) (vec : trit_vector) : Except Err rs_support :=
  match build_loop (2 ^ 64) (rs_support.lut t 4) vec.m_trytes (vec.m_trytes.length + 1)
      { i := 0, rank := 0, large_blocks := [], small_blocks := [] } with
  | Except.ok s =>
    Except.ok { m_vec := some vec, m_large_blocks := s.large_blocks,
                m_small_blocks := s.small_blocks, m_num_target_trits := s.rank }
  | Except.error e => Except.error e

/-- The function `rs_support<t>::get(i)`. -/
def rs_support.get (d : rs_support) (i : Nat) : Except Err Nat :=
  match d.m_vec with
  | none => Except.error Err.assertion
  | some vec => vec.get i

/-- The function `rs_support<t>::get_num_target_trits()`. -/
def rs_support.get_num_target_trits (d : rs_support) : Nat := d.m_num_target_trits

/-- The function `rs_support<t>::rank(i)`. -/
def rs_support.rank (t : Nat) (d : rs_support) (i : Nat) : Except Err Nat :=
  match d.m_vec with
  | none => Except.error Err.assertion
  | some vec =>
    if i < vec.get_num_trits then do
      let lb_pos := i / TRITS_PER_LB
      let sb_pos := i / TRITS_PER_SB
      let lb ← rd d.m_large_blocks lb_pos
      let sb ← rd d.m_small_blocks sb_pos
      let rank := (lb + sb) % 2 ^ 64
      let tryte_pos := i / TRITS_PER_BYTE
      let tryte_beg := tryte_pos / TRYTES_PER_SB * TRYTES_PER_SB % 2 ^ 64
      let rank ← rank_loop (2 ^ 64) (rs_support.lut t 4) vec.m_trytes tryte_pos
        (tryte_pos - tryte_beg) tryte_beg rank
      let tryte ← rd vec.m_trytes tryte_pos
      let k := i % TRITS_PER_BYTE
      if k ≠ 0 then do
        let c ← rs_support.lut t (k - 1) tryte
        pure ((rank + c) % 2 ^ 64)
      else pure rank
    else Except.error Err.assertion

/-- Either `while (left + 1 < right)` loop of `select` (lines 98-105 and 114-121), over the
    vector `blocks`, run for at most `fuel` iterations. -/
def select_bisect (blocks : List Nat) (n : Nat) : Nat → Nat → Nat → Except Err Nat
  | 0, left, right =>
    if (left + 1) % 2 ^ 64 < right then Except.error Err.out_of_fuel else Except.ok left
  | fuel + 1, left, right =>
    if (left + 1) % 2 ^ 64 < right then
      match rd blocks ((left + right) % 2 ^ 64 / 2) with
      | Except.ok c =>
        if n < c then select_bisect blocks n fuel left ((left + right) % 2 ^ 64 / 2)
        else select_bisect blocks n fuel ((left + right) % 2 ^ 64 / 2) right
      | Except.error e => Except.error e
    else Except.ok left

/-- The loop `for (;; ++i)` of `select` (lines 131-137); returns the final `(i, n)`. -/
def select_scan (lut : Nat → Except Err Nat) (trytes : List Nat) :
    Nat → Nat → Nat → Except Err (Nat × Nat)
  | 0, _, _ => Except.error Err.out_of_fuel
  | fuel + 1, i, n =>
    match rd trytes i with
    | Except.ok b =>
      match lut b with
      | Except.ok cnt =>
        if n ≤ cnt then Except.ok (i, n)
        else select_scan lut trytes fuel ((i + 1) % 2 ^ 64) (n - cnt)
      | Except.error e => Except.error e
    | Except.error e => Except.error e

/-- The end of `select` (lines 139-153): the position inside tryte `i`. -/
def select_resolve (t : Nat) (trytes : List Nat) (i n : Nat) : Except Err Nat := do
  let tryte ← rd trytes i
  let c4 ← rs_support.lut t 4 tryte
  if n ≤ c4 then do
    let c0 ← rs_support.lut t 0 tryte
    if n = c0 then pure (i * TRITS_PER_BYTE % 2 ^ 64) else do
    let c1 ← rs_support.lut t 1 tryte
    if n = c1 then pure ((i * TRITS_PER_BYTE + 1) % 2 ^ 64) else do
    let c2 ← rs_support.lut t 2 tryte
    if n = c2 then pure ((i * TRITS_PER_BYTE + 2) % 2 ^ 64) else do
    let c3 ← rs_support.lut t 3 tryte
    if n = c3 then pure ((i * TRITS_PER_BYTE + 3) % 2 ^ 64) else do
    let c4b ← rs_support.lut t 4 tryte
    if n = c4b then pure ((i * TRITS_PER_BYTE + 4) % 2 ^ 64)
    else Except.error Err.assertion
  else Except.error Err.assertion

/-- The function `rs_support<t>::select(n)`. -/
def rs_support.select (t : Nat) (d : rs_support) (n : Nat) : Except Err Nat :=
  match d.m_vec with
  | none => Except.error Err.assertion
  | some vec =>
    if n < d.m_num_target_trits then do
      let left ← select_bisect d.m_large_blocks n d.m_large_blocks.length 0 d.m_large_blocks.length
      let lb ← rd d.m_large_blocks left
      if lb ≤ n then do
        let n1 := n - lb
        let left2 := left * LB_PER_SB % 2 ^ 64
        let right2 := min ((left2 + LB_PER_SB) % 2 ^ 64) d.m_small_blocks.length
        let i ← select_bisect d.m_small_blocks n1 (right2 - left2) left2 right2
        let sb ← rd d.m_small_blocks i
        if sb ≤ n1 then do
          let n2 := n1 - sb
          let i2 := i * TRYTES_PER_SB % 2 ^ 64
          let r ← select_scan (rs_support.lut t 4) vec.m_trytes (vec.m_trytes.length + 1) i2
            ((n2 + 1) % 2 ^ 64)
          select_resolve t vec.m_trytes r.1 r.2
        else Except.error Err.assertion
      else Except.error Err.assertion
    else Except.error Err.assertion

/-- Fields of `rank_support<Trit>`. -/
structure rank_support where
  m_vec : Option trit_vector
  m_LBs : List Nat
  m_SBs : List Nat

/-- The function `rank_support<t>::build(vec)`. -/
def rank_support.build (t : Nat) (vec : trit_vector) : Except Err rank_support :=
  match build_loop (2 ^ 32) (rank_support.lut t) vec.m_trytes (vec.m_trytes.length + 1)
      { i := 0, rank := 0, large_blocks := [], small_blocks := [] } with
  | Except.ok s =>
    Except.ok { m_vec := some vec, m_LBs := s.large_blocks, m_SBs := s.small_blocks }
  | Except.error e => Except.error e

/-- The function `rank_support<t>::rank(i)`, with its unrolled resolution of the last tryte. -/
def rank_support.rank (t : Nat) (d : rank_support) (i : Nat) : Except Err Nat :=
  match d.m_vec with
  | none => Except.error Err.assertion
  | some vec =>
    if i < vec.get_num_trits then do
      let lb_pos := i / TRITS_PER_LB
      let sb_pos := i / TRITS_PER_SB
      let lb ← rd d.m_LBs lb_pos
      let sb ← rd d.m_SBs sb_pos
      let rank := (lb + sb) % 2 ^ 32
      let tryte_pos := i / trit_vector.TRITS_PER_BYTE
      let tryte_beg := tryte_pos / TRYTES_PER_SB * TRYTES_PER_SB % 2 ^ 32
      let rank ← rank_loop (2 ^ 32) (rank_support.lut t) vec.m_trytes tryte_pos
        (tryte_pos - tryte_beg) tryte_beg rank
      let tryte ← rd vec.m_trytes tryte_pos
      let k := i % trit_vector.TRITS_PER_BYTE
      let rank := if k > 0 ∧ tryte % 3 = t then (rank + 1) % 2 ^ 32 else rank
      let rank := if k > 1 ∧ tryte / 3 % 3 = t then (rank + 1) % 2 ^ 32 else rank
      let rank := if k > 2 ∧ tryte / 9 % 3 = t then (rank + 1) % 2 ^ 32 else rank
      let rank := if k > 3 ∧ tryte / 27 % 3 = t then (rank + 1) % 2 ^ 32 else rank
      let rank := if k > 4 ∧ tryte / 81 % 3 = t then (rank + 1) % 2 ^ 32 else rank
      pure rank
    else Except.error Err.assertion

/-- The trit decoded at slot `p` of a packed byte sequence, `(bytes[p/5] / 3^(p%5)) mod 3`;
    `none` beyond the last byte. -/
def slot (bytes : List Nat) (p : Nat) : Option Nat :=
  (bytes[p / 5]?).map (fun b => b / 3 ^ (p % 5) % 3)

/-- Naive count: the number of slots `j < i` whose decoded trit is `t`. -/
def occ (t : Nat) (bytes : List Nat) (i : Nat) : Nat :=
  (List.range i).countP (fun j => decide (slot bytes j = some t))

/-- Naive count inside one tryte: the number of `j < k` with `(v / 3^j) mod 3 = t`. -/
def tcount (t k v : Nat) : Nat :=
  (List.range k).countP (fun j => decide (v / 3 ^ j % 3 = t))

/-! ## Definitions used to state the properties -/

/-- The first `n` large-block entries: the count before each large block. -/
def lb_list (t : Nat) (bytes : List Nat) (n : Nat) : List Nat :=
  (List.range n).map (fun l => occ t bytes (65550 * l))

/-- The first `n` small-block entries: the count before each small block, relative to
    the count before the large block that contains it. -/
def sb_list (t : Nat) (bytes : List Nat) (n : Nat) : List Nat :=
  (List.range n).map (fun s => occ t bytes (50 * s) - occ t bytes (65550 * (s / 1311)))

/-- Loop invariant of `build` at the head of iteration `s.i`, for a vector whose slots
    are all below the word size. -/
def build_inv (t : Nat) (bytes : List Nat) (s : build_state) : Prop :=
  s.i ≤ bytes.length ∧ s.rank = occ t bytes (5 * s.i) ∧
    s.large_blocks = lb_list t bytes ((s.i + 13109) / 13110) ∧
    s.small_blocks = sb_list t bytes ((s.i + 9) / 10)

/-- States at the head of the loop of `build`: the initial one and those reached from a
    state at the head of the loop by one successful iteration. -/
inductive build_reach (W : Nat) (lut : Nat → Except Err Nat) (bytes : List Nat) :
    build_state → Prop where
  | init : build_reach W lut bytes { i := 0, rank := 0, large_blocks := [], small_blocks := [] }
  | step (s s1 : build_state) : build_reach W lut bytes s → s.i < bytes.length →
      build_body W lut bytes s = Except.ok s1 → build_reach W lut bytes s1

/-- Invariant of the loop of `build` that survives wrap-around of the counters: away from a
    large-block boundary the running count is the last large block plus at most five
    targets per tryte since that boundary, modulo `W`. -/
def build_wrap_inv (W : Nat) (s : build_state) : Prop :=
  s.i < W ∧ s.rank < W ∧
    (s.i % 13110 ≠ 0 → ∃ back d, s.large_blocks.getLast? = some back ∧ back < W ∧
      d ≤ 5 * (s.i % 13110) ∧ s.rank = (back + d) % W)

/-- A well-formed trit vector: every byte is a tryte (below 243), there are `⌈N/5⌉`
    bytes, the unused slots of the last byte are zero, and `N` is a `uint64_t`. -/
def well_formed (v : trit_vector) : Prop :=
  (∀ b ∈ v.m_trytes, b < 243) ∧ v.m_trytes.length = (v.m_num_trits + 4) / 5 ∧
    (∀ p, p < 5 * v.m_trytes.length → v.m_num_trits ≤ p → slot v.m_trytes p = some 0) ∧
    v.m_num_trits < 2 ^ 64

instance (v : trit_vector) : Decidable (well_formed v) := by
  unfold well_formed; infer_instance

/-- Property of the loop of `build` with `W`-valued counters over `bytes`: whatever the
    number of iterations allowed, the loop does not fail (it returns, or is still running),
    and in every state at the head of the loop whose index is a small-block boundary the
    iteration succeeds, the delta (running count minus last large block, modulo `W`) is at
    most `UINT16_MAX`, and the value pushed on the small blocks is the delta itself. -/
def build_deltas_fit (W : Nat) (lut : Nat → Except Err Nat) (bytes : List Nat) : Prop :=
  (∀ fuel, build_loop W lut bytes fuel
        { i := 0, rank := 0, large_blocks := [], small_blocks := [] } =
      Except.error Err.out_of_fuel ∨
    ∃ s, build_loop W lut bytes fuel
        { i := 0, rank := 0, large_blocks := [], small_blocks := [] } = Except.ok s) ∧
  ∀ s, build_reach W lut bytes s → s.i < bytes.length → s.i % TRYTES_PER_SB = 0 →
    ∃ s1 back, build_body W lut bytes s = Except.ok s1 ∧
      (if s.i % TRYTES_PER_LB = 0 then s.large_blocks ++ [s.rank]
        else s.large_blocks).getLast? = some back ∧
      (s.rank + W - back) % W ≤ UINT16_MAX ∧
      s1.small_blocks = s.small_blocks ++ [(s.rank + W - back) % W]

/-! ## Definitions for the later properties: ranges of slots, serialization -/

/-- Naive count over a range of slots: the number of slots `a ≤ j < b` whose decoded trit
    is `t`. -/
def occ_between (t : Nat) (bytes : List Nat) (a b : Nat) : Nat :=
  (List.range' a (b - a)).countP (fun j => decide (slot bytes j = some t))

/-- The default constructor `rs_support() = default`: null vector pointer, empty vectors,
    zero count. -/
def rs_support.fresh : rs_support :=
  { m_vec := none, m_large_blocks := [], m_small_blocks := [], m_num_target_trits := 0 }

/-- The function `rs_support<t>::set_vector(vec)`. -/
def rs_support.set_vector (d : rs_support) (vec : trit_vector) : rs_support :=
  { d with m_vec := some vec }

/-- Object representation of an unsigned integer stored in `w` bytes, as
    `reinterpret_cast<const char*>` exposes it: the `w` low-order base-256 digits, least
    significant first (the byte order of the 64-bit machines the format is native to). -/
def to_bytes : Nat → Nat → List Nat
  | 0, _ => []
  | w + 1, x => x % 256 :: to_bytes w (x / 256)

/-- The unsigned integer whose object representation is the given bytes. -/
def of_bytes : List Nat → Nat
  | [] => 0
  | b :: bs => b + 256 * of_bytes bs

/-- Object representation of the array `data()` of a vector of `w`-byte integers. -/
def array_bytes (w : Nat) : List Nat → List Nat
  | [] => []
  | x :: xs => to_bytes w x ++ array_bytes w xs

/-- The `n` integers of `w` bytes each held by the bytes of an array. -/
def array_of_bytes (w : Nat) : Nat → List Nat → List Nat
  | 0, _ => []
  | n + 1, bs => of_bytes (bs.take w) :: array_of_bytes w n (bs.drop w)

/-- The call `v.resize(n)` of a `std::vector` of integers: the first `n` elements are kept,
    new elements are zero. -/
def vector_resize (l : List Nat) (n : Nat) : List Nat :=
  l.take n ++ List.replicate (n - l.length) 0

/-- The call `os.write(src, n)` on an output stream that accepts every byte: the stream is
    the list of the bytes written so far, `src` the bytes of the object written from. -/
def ostream_write (os : List Nat) (src : List Nat) (n : Nat) : List Nat :=
  os ++ src.take n

/-- An input stream: the bytes not yet extracted and the `failbit`. -/
structure istream where
  data : List Nat
  fail : Bool

/-- The call `is.read(buf, n)`, `buf` being the bytes of the object read into: a stream
    that has failed extracts nothing; otherwise the first `n` bytes of the stream overwrite
    the first `n` bytes of `buf`, and when fewer than `n` are left those are stored and the
    stream fails.  Returns the bytes of the object after the call and the stream. -/
def istream.read (is : istream) (buf : List Nat) (n : Nat) : List Nat × istream :=
  if is.fail then (buf, is)
  else if n ≤ is.data.length then
    (is.data.take n ++ buf.drop n, { data := is.data.drop n, fail := false })
  else (is.data ++ buf.drop is.data.length, { data := [], fail := true })

/-- The function `rs_support<t>::save(os)` (lines 168-176), with `sizeof(size_t) = 8`. -/
def rs_support.save (d : rs_support) (os : List Nat) : List Nat :=
  let n_L := d.m_large_blocks.length % 2 ^ 64
  let os := ostream_write os (to_bytes 8 n_L) 8
  let os := ostream_write os (array_bytes 8 d.m_large_blocks) (8 * n_L % 2 ^ 64)
  let n_S := d.m_small_blocks.length % 2 ^ 64
  let os := ostream_write os (to_bytes 8 n_S) 8
  let os := ostream_write os (array_bytes 2 d.m_small_blocks) (2 * n_S % 2 ^ 64)
  ostream_write os (to_bytes 8 d.m_num_target_trits) 8

/-- The function `rs_support<t>::load(is)` (lines 177-187), with `sizeof(size_t) = 8`; it
    assigns the two vectors and the count and nothing else.  Returns the directory after
    the call and the stream. -/
def rs_support.load (d : rs_support) (is : istream) : rs_support × istream :=
  let r1 := is.read (to_bytes 8 0) 8
  let n_L := of_bytes r1.1
  let lbs := vector_resize d.m_large_blocks n_L
  let r2 := r1.2.read (array_bytes 8 lbs) (8 * n_L % 2 ^ 64)
  let r3 := r2.2.read (to_bytes 8 0) 8
  let n_S := of_bytes r3.1
  let sbs := vector_resize d.m_small_blocks n_S
  let r4 := r3.2.read (array_bytes 2 sbs) (2 * n_S % 2 ^ 64)
  let r5 := r4.2.read (to_bytes 8 d.m_num_target_trits) 8
  ({ m_vec := d.m_vec,
     m_large_blocks := array_of_bytes 8 n_L r2.1,
     m_small_blocks := array_of_bytes 2 n_S r4.1,
     m_num_target_trits := of_bytes r5.1 }, r5.2)

/-! ## Constants -/

theorem TRITS_PER_BYTE_eq : TRITS_PER_BYTE = 5 := rfl
theorem TRITS_PER_LB_eq : TRITS_PER_LB = 65550 := rfl
theorem TRITS_PER_SB_eq : TRITS_PER_SB = 50 := rfl
theorem TRYTES_PER_LB_eq : TRYTES_PER_LB = 13110 := rfl
theorem TRYTES_PER_SB_eq : TRYTES_PER_SB = 10 := rfl
theorem LB_PER_SB_eq : LB_PER_SB = 1311 := rfl
theorem UINT16_MAX_eq : UINT16_MAX = 65535 := rfl
theorem vec_TRITS_PER_BYTE_eq : trit_vector.TRITS_PER_BYTE = 5 := rfl

/-! ## The `Except` monad and array reads -/

theorem ok_bind {α β : Type} (a : α) (f : α → Except Err β) :
    (Except.ok a >>= f) = f a := rfl

theorem error_bind {α β : Type} (e : Err) (f : α → Except Err β) :
    ((Except.error e : Except Err α) >>= f) = Except.error e := rfl

theorem pure_eq_ok {α : Type} (a : α) : (pure a : Except Err α) = Except.ok a := rfl

theorem rd_of_getElem? {l : List Nat} {i x : Nat} (h : l[i]? = some x) :
    rd l i = Except.ok x := by
  simp [rd, h]

theorem rd_of_lt {l : List Nat} {i : Nat} (h : i < l.length) : rd l i = Except.ok l[i] := by
  simp [rd, List.getElem?_eq_getElem h]

theorem rd_map_range (f : Nat → Nat) {n i : Nat} (h : i < n) :
    rd ((List.range n).map f) i = Except.ok (f i) := by
  apply rd_of_getElem?
  simp [List.getElem?_range h]

/-! ## The count tables -/

set_option maxRecDepth 1000000 in
theorem LUT_0_eq : rs_support.LUT_0 =
    (List.range 5).map (fun k => (List.range 243).map (fun v => tcount 0 (k + 1) v)) := by
  decide

set_option maxRecDepth 1000000 in
theorem LUT_1_eq : rs_support.LUT_1 =
    (List.range 5).map (fun k => (List.range 243).map (fun v => tcount 1 (k + 1) v)) := by
  decide

set_option maxRecDepth 1000000 in
theorem LUT_2_eq : rs_support.LUT_2 =
    (List.range 5).map (fun k => (List.range 243).map (fun v => tcount 2 (k + 1) v)) := by
  decide

set_option maxRecDepth 1000000 in
theorem rank_LUT_0_eq : rank_support.LUT_0 = (List.range 243).map (fun v => tcount 0 5 v) := by
  decide

set_option maxRecDepth 1000000 in
theorem rank_LUT_1_eq : rank_support.LUT_1 = (List.range 243).map (fun v => tcount 1 5 v) := by
  decide

set_option maxRecDepth 1000000 in
theorem rank_LUT_2_eq : rank_support.LUT_2 = (List.range 243).map (fun v => tcount 2 5 v) := by
  decide

theorem LUT_eq {t : Nat} (ht : t < 3) : rs_support.LUT t =
    (List.range 5).map (fun k => (List.range 243).map (fun v => tcount t (k + 1) v)) := by
  interval_cases t
  · exact LUT_0_eq
  · exact LUT_1_eq
  · exact LUT_2_eq

theorem rank_LUT_eq {t : Nat} (ht : t < 3) :
    rank_support.LUT t = (List.range 243).map (fun v => tcount t 5 v) := by
  interval_cases t
  · exact rank_LUT_0_eq
  · exact rank_LUT_1_eq
  · exact rank_LUT_2_eq

/-- Every entry of the two-dimensional table is the naive count it stands for. -/
theorem rs_lut_eq {t k v : Nat} (ht : t < 3) (hk : k < 5) (hv : v < 243) :
    rs_support.lut t k v = Except.ok (tcount t (k + 1) v) := by
  unfold rs_support.lut
  rw [LUT_eq ht]
  simp only [List.getElem?_map, List.getElem?_range hk, Option.map_some']
  exact rd_map_range _ hv

/-- Every entry of the one-dimensional table is the full-tryte count. -/
theorem rank_lut_eq {t v : Nat} (ht : t < 3) (hv : v < 243) :
    rank_support.lut t v = Except.ok (tcount t 5 v) := by
  unfold rank_support.lut
  rw [rank_LUT_eq ht]
  exact rd_map_range _ hv

/-! ## The naive counts -/

theorem tcount_zero (t v : Nat) : tcount t 0 v = 0 := rfl

theorem tcount_succ (t k v : Nat) :
    tcount t (k + 1) v = tcount t k v + (if v / 3 ^ k % 3 = t then 1 else 0) := by
  simp [tcount, List.range_succ, List.countP_append, List.countP_singleton]

theorem occ_zero (t : Nat) (bytes : List Nat) : occ t bytes 0 = 0 := rfl

theorem occ_succ (t : Nat) (bytes : List Nat) (i : Nat) :
    occ t bytes (i + 1) = occ t bytes i + (if slot bytes i = some t then 1 else 0) := by
  simp [occ, List.range_succ, List.countP_append, List.countP_singleton]

theorem occ_le_succ (t : Nat) (bytes : List Nat) (i : Nat) :
    occ t bytes i ≤ occ t bytes (i + 1) := by
  rw [occ_succ]; omega

theorem occ_succ_le (t : Nat) (bytes : List Nat) (i : Nat) :
    occ t bytes (i + 1) ≤ occ t bytes i + 1 := by
  rw [occ_succ]; split <;> omega

theorem occ_add_le (t : Nat) (bytes : List Nat) (i d : Nat) :
    occ t bytes i ≤ occ t bytes (i + d) ∧ occ t bytes (i + d) ≤ occ t bytes i + d := by
  induction d with
  | zero => simp
  | succ d ih =>
    have h1 := occ_le_succ t bytes (i + d)
    have h2 := occ_succ_le t bytes (i + d)
    rw [← Nat.add_assoc]
    omega

theorem occ_mono (t : Nat) (bytes : List Nat) {i j : Nat} (h : i ≤ j) :
    occ t bytes i ≤ occ t bytes j := by
  obtain ⟨d, rfl⟩ := Nat.exists_eq_add_of_le h
  exact (occ_add_le t bytes i d).1

theorem occ_le_add (t : Nat) (bytes : List Nat) {i j : Nat} (h : i ≤ j) :
    occ t bytes j ≤ occ t bytes i + (j - i) := by
  obtain ⟨d, rfl⟩ := Nat.exists_eq_add_of_le h
  have := (occ_add_le t bytes i d).2
  omega

theorem occ_le (t : Nat) (bytes : List Nat) (i : Nat) : occ t bytes i ≤ i := by
  have := occ_le_add t bytes (Nat.zero_le i)
  simpa [occ_zero] using this

theorem slot_eq {bytes : List Nat} {j b k : Nat} (hb : bytes[j]? = some b) (hk : k < 5) :
    slot bytes (5 * j + k) = some (b / 3 ^ k % 3) := by
  have h1 : (5 * j + k) / 5 = j := by omega
  have h2 : (5 * j + k) % 5 = k := by omega
  simp [slot, h1, h2, hb]

theorem slot_none {bytes : List Nat} {p : Nat} (h : 5 * bytes.length ≤ p) :
    slot bytes p = none := by
  have h1 : bytes.length ≤ p / 5 := by omega
  simp [slot, List.getElem?_eq_none h1]

/-- Inside tryte `j` the count grows by the count over the trits of the byte. -/
theorem occ_tryte (t : Nat) {bytes : List Nat} {j b : Nat} (hb : bytes[j]? = some b) :
    ∀ k, k ≤ 5 → occ t bytes (5 * j + k) = occ t bytes (5 * j) + tcount t k b := by
  intro k
  induction k with
  | zero => intro _; simp [tcount_zero]
  | succ k ih =>
    intro hk
    rw [← Nat.add_assoc, occ_succ, ih (by omega), tcount_succ, slot_eq hb (by omega)]
    simp only [Option.some.injEq]
    omega

/-- Slots beyond the last byte hold no trit: the count is constant from `5 * |bytes|` on. -/
theorem occ_beyond (t : Nat) (bytes : List Nat) {p : Nat} (h : 5 * bytes.length ≤ p) :
    occ t bytes p = occ t bytes (5 * bytes.length) := by
  obtain ⟨d, rfl⟩ := Nat.exists_eq_add_of_le h
  induction d with
  | zero => rfl
  | succ d ih =>
    rw [← Nat.add_assoc, occ_succ, ih (by omega), slot_none (by omega)]
    simp

/-! ## What `build` computes -/

theorem lb_list_succ (t : Nat) (bytes : List Nat) (n : Nat) :
    lb_list t bytes (n + 1) = lb_list t bytes n ++ [occ t bytes (65550 * n)] := by
  simp [lb_list, List.range_succ]

theorem sb_list_succ (t : Nat) (bytes : List Nat) (n : Nat) :
    sb_list t bytes (n + 1) =
      sb_list t bytes n ++ [occ t bytes (50 * n) - occ t bytes (65550 * (n / 1311))] := by
  simp [sb_list, List.range_succ]

theorem build_inv_init (t : Nat) (bytes : List Nat) :
    build_inv t bytes { i := 0, rank := 0, large_blocks := [], small_blocks := [] } := by
  refine ⟨Nat.zero_le _, ?_, ?_, ?_⟩ <;> simp [occ_zero, lb_list, sb_list]

theorem build_body_inv {W t : Nat} {bytes : List Nat} {lut : Nat → Except Err Nat}
    (hW : 5 * bytes.length < W) (hb : ∀ b ∈ bytes, b < 243)
    (hlut : ∀ b, b < 243 → lut b = Except.ok (tcount t 5 b))
    (s : build_state) (hs : build_inv t bytes s) (hi : s.i < bytes.length) :
    ∃ s1, build_body W lut bytes s = Except.ok s1 ∧ build_inv t bytes s1 ∧ s1.i = s.i + 1 := by
  obtain ⟨i, r, lbs, sbs⟩ := s
  obtain ⟨_, hr, hl, hsb⟩ := hs
  simp only at hi hr hl hsb
  subst hr hl hsb
  have hget : bytes[i]? = some bytes[i] := List.getElem?_eq_getElem hi
  have hb243 : bytes[i] < 243 := hb _ (List.getElem_mem hi)
  have hrd : rd bytes i = Except.ok bytes[i] := rd_of_lt hi
  have hnext : occ t bytes (5 * (i + 1)) = occ t bytes (5 * i) + tcount t 5 bytes[i] := by
    have := occ_tryte t hget 5 (le_refl 5)
    rw [← this, Nat.mul_add]
  have hle1 : occ t bytes (5 * (i + 1)) ≤ 5 * (i + 1) := occ_le _ _ _
  -- the large blocks after the conditional push
  have hlbs : (if i % TRYTES_PER_LB = 0 then
        lb_list t bytes ((i + 13109) / 13110) ++ [occ t bytes (5 * i)]
      else lb_list t bytes ((i + 13109) / 13110)) = lb_list t bytes (i / 13110 + 1) := by
    rw [TRYTES_PER_LB_eq]
    split
    · next h =>
      have e1 : (i + 13109) / 13110 = i / 13110 := by omega
      have e2 : 65550 * (i / 13110) = 5 * i := by omega
      rw [lb_list_succ, e1, e2]
    · next h =>
      have e1 : (i + 13109) / 13110 = i / 13110 + 1 := by omega
      rw [e1]
  have hback : (lb_list t bytes (i / 13110 + 1)).getLast? =
      some (occ t bytes (65550 * (i / 13110))) := by
    rw [lb_list_succ, List.getLast?_concat]
  have hmono : occ t bytes (65550 * (i / 13110)) ≤ occ t bytes (5 * i) :=
    occ_mono _ _ (by omega)
  have hdiff : occ t bytes (5 * i) ≤ occ t bytes (65550 * (i / 13110)) +
      (5 * i - 65550 * (i / 13110)) := occ_le_add _ _ (by omega)
  have hle0 : occ t bytes (5 * i) ≤ 5 * i := occ_le _ _ _
  have hdelta : (occ t bytes (5 * i) + W - occ t bytes (65550 * (i / 13110))) % W =
      occ t bytes (5 * i) - occ t bytes (65550 * (i / 13110)) := by
    have e : occ t bytes (5 * i) + W - occ t bytes (65550 * (i / 13110)) =
        (occ t bytes (5 * i) - occ t bytes (65550 * (i / 13110))) + W := by omega
    rw [e, Nat.add_mod_right, Nat.mod_eq_of_lt (by omega)]
  refine ⟨{ i := i + 1, rank := occ t bytes (5 * (i + 1)),
            large_blocks := lb_list t bytes (i / 13110 + 1),
            small_blocks := sb_list t bytes ((i + 1 + 9) / 10) }, ?_, ?_, rfl⟩
  · unfold build_body
    simp only [hlbs, hback, hdelta, hrd, hlut _ hb243, ok_bind, pure_eq_ok]
    have hi1 : (i + 1) % W = i + 1 := Nat.mod_eq_of_lt (by omega)
    have hr1 : (occ t bytes (5 * i) + tcount t 5 bytes[i]) % W = occ t bytes (5 * (i + 1)) := by
      rw [← hnext]; exact Nat.mod_eq_of_lt (by omega)
    rw [TRYTES_PER_SB_eq, UINT16_MAX_eq]
    by_cases h10 : i % 10 = 0
    · have hsmall : occ t bytes (5 * i) - occ t bytes (65550 * (i / 13110)) ≤ 65535 := by omega
      have e1 : (i + 1 + 9) / 10 = (i + 9) / 10 + 1 := by omega
      have e2 : (i + 9) / 10 = i / 10 := by omega
      have e3 : 50 * (i / 10) = 5 * i := by omega
      have e4 : i / 10 / 1311 = i / 13110 := by omega
      simp only [h10, if_true, hsmall, ok_bind, hi1, hr1, Nat.mod_eq_of_lt
        (show occ t bytes (5 * i) - occ t bytes (65550 * (i / 13110)) < 65536 by omega)]
      rw [e1, sb_list_succ, e2, e3, e4]
    · have e1 : (i + 1 + 9) / 10 = (i + 9) / 10 := by omega
      simp only [h10, if_false, ok_bind, hi1, hr1, e1]
  · refine ⟨by simp only; omega, rfl, ?_, rfl⟩
    simp only
    have e1 : (i + 1 + 13109) / 13110 = i / 13110 + 1 := by omega
    rw [e1]

theorem build_loop_inv {W t : Nat} {bytes : List Nat} {lut : Nat → Except Err Nat}
    (hW : 5 * bytes.length < W) (hb : ∀ b ∈ bytes, b < 243)
    (hlut : ∀ b, b < 243 → lut b = Except.ok (tcount t 5 b)) :
    ∀ (fuel : Nat) (s : build_state), build_inv t bytes s → bytes.length - s.i < fuel →
      ∃ s1, build_loop W lut bytes fuel s = Except.ok s1 ∧ build_inv t bytes s1 ∧
        s1.i = bytes.length := by
  intro fuel
  induction fuel with
  | zero => intro s _ h; omega
  | succ fuel ih =>
    intro s hs hf
    unfold build_loop
    by_cases hi : s.i < bytes.length
    · obtain ⟨s1, h1, h2, h3⟩ := build_body_inv hW hb hlut s hs hi
      simp only [hi, if_true, h1]
      exact ih s1 h2 (by omega)
    · simp only [hi, if_false]
      exact ⟨s, rfl, hs, by have := hs.1; omega⟩

/-- The state in which the loop of `build` ends. -/
theorem build_loop_final {W t : Nat} {bytes : List Nat} {lut : Nat → Except Err Nat}
    (hW : 5 * bytes.length < W) (hb : ∀ b ∈ bytes, b < 243)
    (hlut : ∀ b, b < 243 → lut b = Except.ok (tcount t 5 b)) :
    build_loop W lut bytes (bytes.length + 1)
        { i := 0, rank := 0, large_blocks := [], small_blocks := [] } =
      Except.ok { i := bytes.length, rank := occ t bytes (5 * bytes.length),
                  large_blocks := lb_list t bytes ((bytes.length + 13109) / 13110),
                  small_blocks := sb_list t bytes ((bytes.length + 9) / 10) } := by
  obtain ⟨s1, h1, ⟨_, h2, h3, h4⟩, h5⟩ :=
    build_loop_inv hW hb hlut (bytes.length + 1) _ (build_inv_init t bytes) (by simp)
  rw [h1]
  obtain ⟨i, r, lbs, sbs⟩ := s1
  simp only at h2 h3 h4 h5
  subst h5
  rw [h2, h3, h4]

/-- The directory `rs_support<t>::build` returns. -/
theorem rs_build_eq {t : Nat} (ht : t < 3) {vec : trit_vector}
    (hW : 5 * vec.m_trytes.length < 2 ^ 64) (hb : ∀ b ∈ vec.m_trytes, b < 243) :
    rs_support.build t vec = Except.ok
      { m_vec := some vec,
        m_large_blocks := lb_list t vec.m_trytes ((vec.m_trytes.length + 13109) / 13110),
        m_small_blocks := sb_list t vec.m_trytes ((vec.m_trytes.length + 9) / 10),
        m_num_target_trits := occ t vec.m_trytes (5 * vec.m_trytes.length) } := by
  unfold rs_support.build
  rw [build_loop_final hW hb (fun b hb => rs_lut_eq ht (by omega) hb)]

/-- The directory `rank_support<t>::build` returns. -/
theorem rank_build_eq {t : Nat} (ht : t < 3) {vec : trit_vector}
    (hW : 5 * vec.m_trytes.length < 2 ^ 32) (hb : ∀ b ∈ vec.m_trytes, b < 243) :
    rank_support.build t vec = Except.ok
      { m_vec := some vec,
        m_LBs := lb_list t vec.m_trytes ((vec.m_trytes.length + 13109) / 13110),
        m_SBs := sb_list t vec.m_trytes ((vec.m_trytes.length + 9) / 10) } := by
  unfold rank_support.build
  rw [build_loop_final hW hb (fun b hb => rank_lut_eq ht hb)]

/-! ## What `rank` computes -/

theorem rank_loop_eq {W t : Nat} {bytes : List Nat} {lut : Nat → Except Err Nat}
    (hW : 5 * bytes.length < W) (hb : ∀ b ∈ bytes, b < 243)
    (hlut : ∀ b, b < 243 → lut b = Except.ok (tcount t 5 b)) {pos : Nat}
    (hpos : pos ≤ bytes.length) :
    ∀ (fuel j : Nat), j ≤ pos → pos - j ≤ fuel →
      rank_loop W lut bytes pos fuel j (occ t bytes (5 * j)) =
        Except.ok (occ t bytes (5 * pos)) := by
  intro fuel
  induction fuel with
  | zero =>
    intro j h1 h2
    have : j = pos := by omega
    subst this
    simp [rank_loop]
  | succ fuel ih =>
    intro j h1 h2
    unfold rank_loop
    by_cases hj : j < pos
    · have hjb : j < bytes.length := by omega
      have hget : bytes[j]? = some bytes[j] := List.getElem?_eq_getElem hjb
      have hb243 : bytes[j] < 243 := hb _ (List.getElem_mem hjb)
      have hnext : occ t bytes (5 * (j + 1)) = occ t bytes (5 * j) + tcount t 5 bytes[j] := by
        have := occ_tryte t hget 5 (le_refl 5)
        rw [← this, Nat.mul_add]
      have hle1 : occ t bytes (5 * (j + 1)) ≤ 5 * (j + 1) := occ_le _ _ _
      have hj1 : (j + 1) % W = j + 1 := Nat.mod_eq_of_lt (by omega)
      have hr1 : (occ t bytes (5 * j) + tcount t 5 bytes[j]) % W = occ t bytes (5 * (j + 1)) := by
        rw [← hnext]; exact Nat.mod_eq_of_lt (by omega)
      simp only [hj, if_true, rd_of_lt hjb, hlut _ hb243, hj1, hr1]
      exact ih (j + 1) (by omega) (by omega)
    · have : j = pos := by omega
      subst this
      simp

/-- The part of `rank` shared by both directories: the two block reads and the scan of the
    whole trytes of the small block leave the count before tryte `i / 5`. -/
theorem rank_blocks_eq {W t : Nat} {bytes : List Nat} {lut : Nat → Except Err Nat}
    (hW : 5 * bytes.length < W) (hb : ∀ b ∈ bytes, b < 243)
    (hlut : ∀ b, b < 243 → lut b = Except.ok (tcount t 5 b)) {i : Nat}
    (hi : i < 5 * bytes.length) :
    rd (lb_list t bytes ((bytes.length + 13109) / 13110)) (i / 65550) =
        Except.ok (occ t bytes (65550 * (i / 65550))) ∧
    rd (sb_list t bytes ((bytes.length + 9) / 10)) (i / 50) =
        Except.ok (occ t bytes (50 * (i / 50)) - occ t bytes (65550 * (i / 65550))) ∧
    rank_loop W lut bytes (i / 5) (i / 5 - i / 5 / 10 * 10 % W) (i / 5 / 10 * 10 % W)
        ((occ t bytes (65550 * (i / 65550)) +
          (occ t bytes (50 * (i / 50)) - occ t bytes (65550 * (i / 65550)))) % W) =
      Except.ok (occ t bytes (5 * (i / 5))) := by
  have hmono : occ t bytes (65550 * (i / 65550)) ≤ occ t bytes (50 * (i / 50)) :=
    occ_mono _ _ (by omega)
  have hle : occ t bytes (50 * (i / 50)) ≤ 50 * (i / 50) := occ_le _ _ _
  refine ⟨rd_map_range _ (by omega), ?_, ?_⟩
  · have e : i / 50 / 1311 = i / 65550 := by omega
    have := rd_map_range
      (fun s => occ t bytes (50 * s) - occ t bytes (65550 * (s / 1311)))
      (show i / 50 < (bytes.length + 9) / 10 by omega)
    simp only [e] at this
    exact this
  · have e1 : i / 5 / 10 * 10 % W = i / 5 / 10 * 10 := Nat.mod_eq_of_lt (by omega)
    have e2 : (occ t bytes (65550 * (i / 65550)) +
          (occ t bytes (50 * (i / 50)) - occ t bytes (65550 * (i / 65550)))) % W =
        occ t bytes (5 * (i / 5 / 10 * 10)) := by
      have e3 : 5 * (i / 5 / 10 * 10) = 50 * (i / 50) := by omega
      rw [e3, Nat.mod_eq_of_lt (by omega)]
      omega
    rw [e1, e2]
    exact rank_loop_eq hW hb hlut (by omega) _ _ (by omega) (le_refl _)

/-- On a directory built by `rs_support<t>::build`, `rank(i)` is the naive count. -/
theorem rs_rank_eq {t : Nat} (ht : t < 3) {vec : trit_vector}
    (hW : 5 * vec.m_trytes.length < 2 ^ 64) (hb : ∀ b ∈ vec.m_trytes, b < 243)
    (hN : vec.m_num_trits ≤ 5 * vec.m_trytes.length) {i : Nat} (hi : i < vec.m_num_trits) :
    rs_support.rank t
      { m_vec := some vec,
        m_large_blocks := lb_list t vec.m_trytes ((vec.m_trytes.length + 13109) / 13110),
        m_small_blocks := sb_list t vec.m_trytes ((vec.m_trytes.length + 9) / 10),
        m_num_target_trits := occ t vec.m_trytes (5 * vec.m_trytes.length) } i =
      Except.ok (occ t vec.m_trytes i) := by
  have hi5 : i < 5 * vec.m_trytes.length := by omega
  obtain ⟨h1, h2, h3⟩ := rank_blocks_eq (W := 2 ^ 64) hW hb
    (fun b hb => rs_lut_eq ht (by omega) hb) hi5
  have hjb : i / 5 < vec.m_trytes.length := by omega
  have hget : vec.m_trytes[i / 5]? = some vec.m_trytes[i / 5] := List.getElem?_eq_getElem hjb
  have hb243 : vec.m_trytes[i / 5] < 243 := hb _ (List.getElem_mem hjb)
  have hocc := occ_tryte t hget (i % 5) (by omega)
  have hsplit : 5 * (i / 5) + i % 5 = i := by omega
  rw [hsplit] at hocc
  have hle : occ t vec.m_trytes i ≤ i := occ_le _ _ _
  unfold rs_support.rank
  simp only [trit_vector.get_num_trits, hi, if_true, TRITS_PER_LB_eq, TRITS_PER_SB_eq,
    TRITS_PER_BYTE_eq, TRYTES_PER_SB_eq, h1, h2, h3, ok_bind, rd_of_lt hjb, pure_eq_ok]
  by_cases hk : i % 5 = 0
  · simp only [hk, ne_eq, not_true_eq_false, if_false]
    rw [hocc, hk, tcount_zero, Nat.add_zero]
  · have hk1 : i % 5 - 1 + 1 = i % 5 := by omega
    have hl := rs_lut_eq (k := i % 5 - 1) ht (by omega) hb243
    rw [hk1] at hl
    simp only [hk, ne_eq, not_false_eq_true, if_true, hl, ok_bind]
    rw [← hocc, Nat.mod_eq_of_lt (by omega)]

theorem tcount_unroll (t b : Nat) {k : Nat} (hk : k < 5) :
    tcount t k b =
      (if k > 0 ∧ b % 3 = t then 1 else 0) + (if k > 1 ∧ b / 3 % 3 = t then 1 else 0) +
      (if k > 2 ∧ b / 9 % 3 = t then 1 else 0) + (if k > 3 ∧ b / 27 % 3 = t then 1 else 0) := by
  interval_cases k <;> simp [tcount_succ, tcount_zero]

/-- On a directory built by `rank_support<t>::build`, `rank(i)` is the naive count. -/
theorem rank_rank_eq {t : Nat} (ht : t < 3) {vec : trit_vector}
    (hW : 5 * vec.m_trytes.length < 2 ^ 32) (hb : ∀ b ∈ vec.m_trytes, b < 243)
    (hN : vec.m_num_trits ≤ 5 * vec.m_trytes.length) {i : Nat} (hi : i < vec.m_num_trits) :
    rank_support.rank t
      { m_vec := some vec,
        m_LBs := lb_list t vec.m_trytes ((vec.m_trytes.length + 13109) / 13110),
        m_SBs := sb_list t vec.m_trytes ((vec.m_trytes.length + 9) / 10) } i =
      Except.ok (occ t vec.m_trytes i) := by
  have hi5 : i < 5 * vec.m_trytes.length := by omega
  obtain ⟨h1, h2, h3⟩ := rank_blocks_eq (W := 2 ^ 32) hW hb
    (fun b hb => rank_lut_eq ht hb) hi5
  have hjb : i / 5 < vec.m_trytes.length := by omega
  have hget : vec.m_trytes[i / 5]? = some vec.m_trytes[i / 5] := List.getElem?_eq_getElem hjb
  have hocc := occ_tryte t hget (i % 5) (by omega)
  have hsplit : 5 * (i / 5) + i % 5 = i := by omega
  rw [hsplit, tcount_unroll t _ (show i % 5 < 5 by omega)] at hocc
  have hle : occ t vec.m_trytes i ≤ i := occ_le _ _ _
  have hk4 : ¬ (i % 5 > 4) := by omega
  unfold rank_support.rank
  simp only [trit_vector.get_num_trits, hi, if_true, TRITS_PER_LB_eq, TRITS_PER_SB_eq,
    vec_TRITS_PER_BYTE_eq, TRYTES_PER_SB_eq, h1, h2, h3, ok_bind, rd_of_lt hjb, pure_eq_ok,
    hk4, false_and, if_false]
  rw [hocc]
  congr 1
  generalize occ t vec.m_trytes (5 * (i / 5)) = r0 at hocc ⊢
  have hlt : occ t vec.m_trytes i < 2 ^ 32 := by omega
  rw [hocc] at hlt
  split_ifs at hlt ⊢ <;> omega

/-! ## What `select` computes -/

/-- Either bisection of `select`, over a vector tabulating `f`: starting from a window
    `[left, right)` inside `[·, R)` with `f left ≤ n` and `n < f right` unless `right = R`,
    it ends on an index `l` with `f l ≤ n` and `n < f (l + 1)` unless `l + 1 = R`. -/
theorem select_bisect_spec (f : Nat → Nat) (len n R : Nat) (hlen : 2 * len < 2 ^ 64)
    (hR : R ≤ len) :
    ∀ (fuel left right : Nat), left < right → right ≤ R → f left ≤ n →
      (right < R → n < f right) → right - left ≤ fuel + 1 →
      ∃ l, select_bisect ((List.range len).map f) n fuel left right = Except.ok l ∧
        left ≤ l ∧ l < right ∧ f l ≤ n ∧ (l + 1 < R → n < f (l + 1)) := by
  intro fuel
  induction fuel with
  | zero =>
    intro left right h1 h2 h3 h4 h5
    have e : right = left + 1 := by omega
    subst e
    have hm : (left + 1) % 2 ^ 64 = left + 1 := Nat.mod_eq_of_lt (by omega)
    refine ⟨left, ?_, le_refl _, by omega, h3, h4⟩
    unfold select_bisect
    rw [hm, if_neg (by omega)]
  | succ fuel ih =>
    intro left right h1 h2 h3 h4 h5
    have hm : (left + 1) % 2 ^ 64 = left + 1 := Nat.mod_eq_of_lt (by omega)
    have hs : (left + right) % 2 ^ 64 = left + right := Nat.mod_eq_of_lt (by omega)
    unfold select_bisect
    rw [hm, hs]
    by_cases hc : left + 1 < right
    · have hc1 : left < (left + right) / 2 := by omega
      have hc2 : (left + right) / 2 < right := by omega
      have hrd := rd_map_range f (show (left + right) / 2 < len by omega)
      simp only [hc, if_true, hrd]
      by_cases hn : n < f ((left + right) / 2)
      · simp only [hn, if_true]
        obtain ⟨l, q1, q2, q3, q4, q5⟩ :=
          ih left ((left + right) / 2) hc1 (by omega) h3 (fun _ => hn) (by omega)
        exact ⟨l, q1, q2, by omega, q4, q5⟩
      · simp only [hn, if_false]
        obtain ⟨l, q1, q2, q3, q4, q5⟩ :=
          ih ((left + right) / 2) right hc2 h2 (by omega) h4 (by omega)
        exact ⟨l, q1, by omega, q3, q4, q5⟩
    · have e : right = left + 1 := by omega
      subst e
      simp only [hc, if_false]
      exact ⟨left, rfl, le_refl _, by omega, h3, h4⟩

/-- The tryte scan of `select`: from a tryte `i` with at most `n` targets before it, it
    stops on the tryte that holds occurrence `n`, with `n` reduced to its 1-based number
    inside that tryte. -/
theorem select_scan_spec {t : Nat} (ht : t < 3) {bytes : List Nat}
    (hW : 5 * bytes.length < 2 ^ 64) (hb : ∀ b ∈ bytes, b < 243) {n : Nat}
    (hn : n < occ t bytes (5 * bytes.length)) :
    ∀ (fuel i : Nat), occ t bytes (5 * i) ≤ n → bytes.length - i < fuel →
      ∃ j, select_scan (rs_support.lut t 4) bytes fuel i (n - occ t bytes (5 * i) + 1) =
          Except.ok (j, n - occ t bytes (5 * j) + 1) ∧
        i ≤ j ∧ j < bytes.length ∧ occ t bytes (5 * j) ≤ n ∧ n < occ t bytes (5 * (j + 1)) := by
  intro fuel
  induction fuel with
  | zero => intro i _ h; omega
  | succ fuel ih =>
    intro i h1 h2
    have hib : i < bytes.length := by
      by_contra hcon
      have := occ_mono t bytes (show 5 * bytes.length ≤ 5 * i by omega)
      omega
    have hget : bytes[i]? = some bytes[i] := List.getElem?_eq_getElem hib
    have hb243 : bytes[i] < 243 := hb _ (List.getElem_mem hib)
    have hnext : occ t bytes (5 * (i + 1)) = occ t bytes (5 * i) + tcount t 5 bytes[i] := by
      have := occ_tryte t hget 5 (le_refl 5)
      rw [← this, Nat.mul_add]
    unfold select_scan
    simp only [rd_of_lt hib, rs_lut_eq ht (show 4 < 5 by omega) hb243]
    by_cases hc : n - occ t bytes (5 * i) + 1 ≤ tcount t 5 bytes[i]
    · simp only [hc, if_true]
      exact ⟨i, rfl, le_refl _, hib, h1, by omega⟩
    · simp only [hc, if_false]
      have hi1 : (i + 1) % 2 ^ 64 = i + 1 := Nat.mod_eq_of_lt (by omega)
      have hle : occ t bytes (5 * (i + 1)) ≤ n := by omega
      have e : n - occ t bytes (5 * i) + 1 - tcount t 5 bytes[i] =
          n - occ t bytes (5 * (i + 1)) + 1 := by omega
      rw [hi1, e]
      obtain ⟨j, q1, q2, q3, q4, q5⟩ := ih (i + 1) hle (by omega)
      exact ⟨j, q1, by omega, q3, q4, q5⟩

theorem tcount_hit {t k b m : Nat} (h1 : m = tcount t (k + 1) b) (h0 : m ≠ tcount t k b) :
    b / 3 ^ k % 3 = t ∧ tcount t k b + 1 = m := by
  rw [tcount_succ] at h1
  split at h1
  · next h => exact ⟨h, by omega⟩
  · omega

theorem tcount_succ_le (t k b : Nat) : tcount t (k + 1) b ≤ tcount t k b + 1 := by
  rw [tcount_succ]; split <;> omega

/-- The end of `select`: inside the tryte that holds occurrence `n`, the chain of
    comparisons returns the slot of that occurrence. -/
theorem select_resolve_spec {t : Nat} (ht : t < 3) {bytes : List Nat}
    (hW : 5 * bytes.length < 2 ^ 64) (hb : ∀ b ∈ bytes, b < 243) {n i : Nat}
    (hib : i < bytes.length) (h1 : occ t bytes (5 * i) ≤ n)
    (h2 : n < occ t bytes (5 * (i + 1))) :
    ∃ p, select_resolve t bytes i (n - occ t bytes (5 * i) + 1) = Except.ok p ∧
      p < 5 * bytes.length ∧ slot bytes p = some t ∧ occ t bytes p = n := by
  have hget : bytes[i]? = some bytes[i] := List.getElem?_eq_getElem hib
  have hb243 : bytes[i] < 243 := hb _ (List.getElem_mem hib)
  have hnext : occ t bytes (5 * (i + 1)) = occ t bytes (5 * i) + tcount t 5 bytes[i] := by
    have := occ_tryte t hget 5 (le_refl 5)
    rw [← this, Nat.mul_add]
  have hm5 : n - occ t bytes (5 * i) + 1 ≤ tcount t 5 bytes[i] := by omega
  have key : ∀ k, k < 5 → n - occ t bytes (5 * i) + 1 = tcount t (k + 1) bytes[i] →
      n - occ t bytes (5 * i) + 1 ≠ tcount t k bytes[i] →
      (i * 5 + k) % 2 ^ 64 < 5 * bytes.length ∧ slot bytes ((i * 5 + k) % 2 ^ 64) = some t ∧
        occ t bytes ((i * 5 + k) % 2 ^ 64) = n := by
    intro k hk e1 e0
    obtain ⟨q1, q2⟩ := tcount_hit e1 e0
    have e : (i * 5 + k) % 2 ^ 64 = 5 * i + k := by
      rw [Nat.mod_eq_of_lt (by omega)]; omega
    rw [e]
    refine ⟨by omega, ?_, ?_⟩
    · rw [slot_eq hget hk, q1]
    · rw [occ_tryte t hget k (by omega)]; omega
  have s1 : tcount t 1 bytes[i] ≤ tcount t 0 bytes[i] + 1 := tcount_succ_le t 0 bytes[i]
  have s2 : tcount t 2 bytes[i] ≤ tcount t 1 bytes[i] + 1 := tcount_succ_le t 1 bytes[i]
  have s3 : tcount t 3 bytes[i] ≤ tcount t 2 bytes[i] + 1 := tcount_succ_le t 2 bytes[i]
  have s4 : tcount t 4 bytes[i] ≤ tcount t 3 bytes[i] + 1 := tcount_succ_le t 3 bytes[i]
  have s5 : tcount t 5 bytes[i] ≤ tcount t 4 bytes[i] + 1 := tcount_succ_le t 4 bytes[i]
  have z0 : tcount t 0 bytes[i] = 0 := tcount_zero _ _
  unfold select_resolve
  simp only [rd_of_lt hib, ok_bind, rs_lut_eq ht (show 4 < 5 by omega) hb243,
    rs_lut_eq ht (show 3 < 5 by omega) hb243, rs_lut_eq ht (show 2 < 5 by omega) hb243,
    rs_lut_eq ht (show 1 < 5 by omega) hb243, rs_lut_eq ht (show 0 < 5 by omega) hb243,
    hm5, if_true, pure_eq_ok, TRITS_PER_BYTE_eq, Nat.zero_add]
  by_cases c0 : n - occ t bytes (5 * i) + 1 = tcount t 1 bytes[i]
  · simp only [c0, if_true]
    have := key 0 (by omega) c0 (by omega)
    simpa using this
  simp only [c0, if_false]
  by_cases c1 : n - occ t bytes (5 * i) + 1 = tcount t 2 bytes[i]
  · simp only [c1, if_true]
    exact ⟨_, rfl, key 1 (by omega) c1 c0⟩
  simp only [c1, if_false]
  by_cases c2 : n - occ t bytes (5 * i) + 1 = tcount t 3 bytes[i]
  · simp only [c2, if_true]
    exact ⟨_, rfl, key 2 (by omega) c2 c1⟩
  simp only [c2, if_false]
  by_cases c3 : n - occ t bytes (5 * i) + 1 = tcount t 4 bytes[i]
  · simp only [c3, if_true]
    exact ⟨_, rfl, key 3 (by omega) c3 c2⟩
  simp only [c3, if_false]
  have c4 : n - occ t bytes (5 * i) + 1 = tcount t 5 bytes[i] := by omega
  simp only [c4, if_true]
  exact ⟨_, rfl, key 4 (by omega) c4 c3⟩

theorem lb_list_length (t : Nat) (bytes : List Nat) (n : Nat) :
    (lb_list t bytes n).length = n := by
  simp [lb_list]

theorem sb_list_length (t : Nat) (bytes : List Nat) (n : Nat) :
    (sb_list t bytes n).length = n := by
  simp [sb_list]

/-- On a directory built by `rs_support<t>::build`, `select(n)` for `n` below the target
    count returns the slot of occurrence `n`: the slot decodes to `t` and exactly `n`
    slots before it do. -/
theorem rs_select_spec {t : Nat} (ht : t < 3) {vec : trit_vector}
    (hW : 5 * vec.m_trytes.length < 2 ^ 64) (hb : ∀ b ∈ vec.m_trytes, b < 243) {n : Nat}
    (hn : n < occ t vec.m_trytes (5 * vec.m_trytes.length)) :
    ∃ p, rs_support.select t
        { m_vec := some vec,
          m_large_blocks := lb_list t vec.m_trytes ((vec.m_trytes.length + 13109) / 13110),
          m_small_blocks := sb_list t vec.m_trytes ((vec.m_trytes.length + 9) / 10),
          m_num_target_trits := occ t vec.m_trytes (5 * vec.m_trytes.length) } n =
        Except.ok p ∧
      p < 5 * vec.m_trytes.length ∧ slot vec.m_trytes p = some t ∧ occ t vec.m_trytes p = n := by
  obtain ⟨bytes, N⟩ := vec
  simp only at hW hb hn ⊢
  have hBpos : 0 < bytes.length := by
    rcases Nat.eq_zero_or_pos bytes.length with h | h
    · rw [h] at hn; simp [occ_zero] at hn
    · exact h
  have hocc5B : occ t bytes (5 * bytes.length) ≤ 5 * bytes.length := occ_le _ _ _
  -- stage 1
  obtain ⟨l, a1, _, a3, a4, a5⟩ :
      ∃ l, select_bisect (lb_list t bytes ((bytes.length + 13109) / 13110)) n
          ((bytes.length + 13109) / 13110) 0 ((bytes.length + 13109) / 13110) = Except.ok l ∧
        0 ≤ l ∧ l < (bytes.length + 13109) / 13110 ∧ occ t bytes (65550 * l) ≤ n ∧
        (l + 1 < (bytes.length + 13109) / 13110 → n < occ t bytes (65550 * (l + 1))) :=
    select_bisect_spec (fun l => occ t bytes (65550 * l)) _ n _ (by omega) (le_refl _)
      _ 0 _ (by omega) (le_refl _) (by simp [occ_zero]) (fun h => absurd h (lt_irrefl _))
      (by omega)
  have hrdl : rd (lb_list t bytes ((bytes.length + 13109) / 13110)) l =
      Except.ok (occ t bytes (65550 * l)) := rd_map_range _ a3
  -- stage 2
  have hl2 : l * LB_PER_SB % 2 ^ 64 = 1311 * l := by
    rw [LB_PER_SB_eq, Nat.mod_eq_of_lt (by omega)]; omega
  have hr2 : (1311 * l + LB_PER_SB) % 2 ^ 64 = 1311 * l + 1311 := by
    rw [LB_PER_SB_eq, Nat.mod_eq_of_lt (by omega)]
  have hf0 : occ t bytes (50 * (1311 * l)) - occ t bytes (65550 * (1311 * l / 1311)) ≤
      n - occ t bytes (65550 * l) := by
    have e1 : 50 * (1311 * l) = 65550 * l := by omega
    have e2 : 1311 * l / 1311 = l := by omega
    rw [e1, e2]; omega
  obtain ⟨s, b1, b2, b3, b4, b5⟩ :
      ∃ s, select_bisect (sb_list t bytes ((bytes.length + 9) / 10)) (n - occ t bytes (65550 * l))
          (min (1311 * l + 1311) ((bytes.length + 9) / 10) - 1311 * l) (1311 * l)
          (min (1311 * l + 1311) ((bytes.length + 9) / 10)) = Except.ok s ∧
        1311 * l ≤ s ∧ s < min (1311 * l + 1311) ((bytes.length + 9) / 10) ∧
        occ t bytes (50 * s) - occ t bytes (65550 * (s / 1311)) ≤ n - occ t bytes (65550 * l) ∧
        (s + 1 < min (1311 * l + 1311) ((bytes.length + 9) / 10) →
          n - occ t bytes (65550 * l) <
            occ t bytes (50 * (s + 1)) - occ t bytes (65550 * ((s + 1) / 1311))) :=
    select_bisect_spec (fun s => occ t bytes (50 * s) - occ t bytes (65550 * (s / 1311)))
      ((bytes.length + 9) / 10) (n - occ t bytes (65550 * l))
      (min (1311 * l + 1311) ((bytes.length + 9) / 10)) (by omega) (Nat.min_le_right _ _)
      _ (1311 * l) _ (by omega) (le_refl _) hf0 (fun h => absurd h (lt_irrefl _)) (by omega)
  have hsl : s / 1311 = l := by omega
  rw [hsl] at b4
  have hsS : s < (bytes.length + 9) / 10 := by omega
  have hrds : rd (sb_list t bytes ((bytes.length + 9) / 10)) s =
      Except.ok (occ t bytes (50 * s) - occ t bytes (65550 * l)) := by
    have := rd_map_range
      (fun s => occ t bytes (50 * s) - occ t bytes (65550 * (s / 1311))) hsS
    simp only [hsl] at this
    exact this
  have hmono : occ t bytes (65550 * l) ≤ occ t bytes (50 * s) := occ_mono _ _ (by omega)
  have hlo : occ t bytes (50 * s) ≤ n := by omega
  have hhi : n < occ t bytes (50 * (s + 1)) := by
    by_cases c : s + 1 < min (1311 * l + 1311) ((bytes.length + 9) / 10)
    · have := b5 c
      have e : (s + 1) / 1311 = l := by omega
      rw [e] at this
      omega
    · by_cases c2 : 1311 * l + 1311 < (bytes.length + 9) / 10
      · have e : 50 * (s + 1) = 65550 * (l + 1) := by omega
        rw [e]
        exact a5 (by omega)
      · have := occ_mono t bytes (show 5 * bytes.length ≤ 50 * (s + 1) by omega)
        omega
  -- stage 3
  have hi2 : s * TRYTES_PER_SB % 2 ^ 64 = s * 10 := by
    rw [TRYTES_PER_SB_eq, Nat.mod_eq_of_lt (by omega)]
  have e50 : 5 * (s * 10) = 50 * s := by omega
  have hn3 : (n - occ t bytes (65550 * l) - (occ t bytes (50 * s) - occ t bytes (65550 * l)) + 1)
      % 2 ^ 64 = n - occ t bytes (5 * (s * 10)) + 1 := by
    rw [e50, Nat.mod_eq_of_lt (by omega)]; omega
  obtain ⟨j, c1, c2, c3, c4, c5⟩ := select_scan_spec ht hW hb hn (bytes.length + 1) (s * 10)
    (by rw [e50]; exact hlo) (by omega)
  obtain ⟨p, d1, d2, d3, d4⟩ := select_resolve_spec ht hW hb c3 c4 c5
  refine ⟨p, ?_, d2, d3, d4⟩
  unfold rs_support.select
  simp only [hn, if_true, lb_list_length, sb_list_length, a1, ok_bind, hrdl, a4, hl2, hr2, b1,
    hrds, b4, hi2, hn3, c1, d1]

/-! ## The small-block deltas of `build`, for counters that may wrap around -/

theorem wrap_delta {W back d : Nat} (hb : back < W) (hd : d < W) :
    ((back + d) % W + W - back) % W = d := by
  by_cases h : back + d < W
  · rw [Nat.mod_eq_of_lt h]
    have e : back + d + W - back = d + W := by omega
    rw [e, Nat.add_mod_right, Nat.mod_eq_of_lt hd]
  · have e1 : (back + d) % W = back + d - W := by
      rw [Nat.mod_eq_sub_mod (by omega), Nat.mod_eq_of_lt (by omega)]
    have e : back + d - W + W - back = d := by omega
    rw [e1, e, Nat.mod_eq_of_lt hd]

theorem tcount_le (t k v : Nat) : tcount t k v ≤ k := by
  induction k with
  | zero => simp [tcount_zero]
  | succ k ih => have := tcount_succ_le t k v; omega

/-- One iteration of `build` from a state satisfying the wrap-around invariant: it succeeds,
    the delta of a small-block emission is at most `UINT16_MAX`, and the value stored is the
    delta itself. -/
theorem build_body_wrap {W t : Nat} {bytes : List Nat} {lut : Nat → Except Err Nat}
    (hWlo : 65546 ≤ W) (hb : ∀ b ∈ bytes, b < 243)
    (hlut : ∀ b, b < 243 → lut b = Except.ok (tcount t 5 b))
    (s : build_state) (hs : build_wrap_inv W s) (hi : s.i < bytes.length) :
    ∃ s1 back, build_body W lut bytes s = Except.ok s1 ∧ build_wrap_inv W s1 ∧
      (if s.i % TRYTES_PER_LB = 0 then s.large_blocks ++ [s.rank]
        else s.large_blocks).getLast? = some back ∧
      (s.i % TRYTES_PER_SB = 0 → (s.rank + W - back) % W ≤ UINT16_MAX ∧
        s1.small_blocks = s.small_blocks ++ [(s.rank + W - back) % W]) := by
  obtain ⟨i, r, lbs, sbs⟩ := s
  obtain ⟨hiW, hrW, hinv⟩ := hs
  simp only at hi hiW hrW hinv ⊢
  have hb243 : bytes[i] < 243 := hb _ (List.getElem_mem hi)
  have hc5 : tcount t 5 bytes[i] ≤ 5 := tcount_le _ _ _
  -- the last large block after the conditional push
  obtain ⟨back, d, hback, hbW, hd, hr⟩ :
      ∃ back d, (if i % TRYTES_PER_LB = 0 then lbs ++ [r] else lbs).getLast? = some back ∧
        back < W ∧ d ≤ 5 * (i % 13110) ∧ r = (back + d) % W := by
    rw [TRYTES_PER_LB_eq]
    by_cases h : i % 13110 = 0
    · refine ⟨r, 0, ?_, hrW, Nat.zero_le _, ?_⟩
      · simp only [h, if_true, List.getLast?_concat]
      · rw [Nat.add_zero, Nat.mod_eq_of_lt hrW]
    · obtain ⟨back, d, q1, q2, q3, q4⟩ := hinv h
      exact ⟨back, d, by simp only [h, if_false]; exact q1, q2, q3, q4⟩
  have hdelta : (r + W - back) % W = d := by
    rw [hr]; exact wrap_delta hbW (by omega)
  have hrank : (r + tcount t 5 bytes[i]) % W = (back + (d + tcount t 5 bytes[i])) % W := by
    rw [hr, Nat.add_mod, Nat.mod_mod, ← Nat.add_mod, Nat.add_assoc]
  have hWpos : 0 < W := by omega
  have hinv1 : build_wrap_inv W
      { i := (i + 1) % W, rank := (r + tcount t 5 bytes[i]) % W,
        large_blocks := (if i % TRYTES_PER_LB = 0 then lbs ++ [r] else lbs),
        small_blocks := (if i % TRYTES_PER_SB = 0 then sbs ++ [d] else sbs) } := by
    refine ⟨Nat.mod_lt _ hWpos, Nat.mod_lt _ hWpos, ?_⟩
    simp only
    intro hne
    refine ⟨back, d + tcount t 5 bytes[i], hback, hbW, ?_, hrank⟩
    by_cases hw : i + 1 < W
    · rw [Nat.mod_eq_of_lt hw] at hne ⊢
      omega
    · have e : i + 1 = W := by omega
      rw [e, Nat.mod_self] at hne
      simp at hne
  refine ⟨_, back, ?_, hinv1, hback, ?_⟩
  · unfold build_body
    simp only [hback, hdelta, rd_of_lt hi, hlut _ hb243, ok_bind, pure_eq_ok]
    rw [TRYTES_PER_SB_eq, UINT16_MAX_eq]
    by_cases h10 : i % 10 = 0
    · have hsmall : d ≤ 65535 := by omega
      simp only [h10, if_true, hsmall, ok_bind, Nat.mod_eq_of_lt (show d < 65536 by omega)]
    · simp only [h10, if_false, ok_bind]
  · intro h10
    rw [TRYTES_PER_SB_eq] at h10
    rw [hdelta, UINT16_MAX_eq]
    refine ⟨by omega, ?_⟩
    simp only [TRYTES_PER_SB_eq, h10, if_true]

theorem build_wrap_inv_init {W : Nat} (hWlo : 65546 ≤ W) :
    build_wrap_inv W { i := 0, rank := 0, large_blocks := [], small_blocks := [] } := by
  refine ⟨by simp only; omega, by simp only; omega, ?_⟩
  intro h
  simp at h

theorem build_reach_wrap_inv {W t : Nat} {bytes : List Nat} {lut : Nat → Except Err Nat}
    (hWlo : 65546 ≤ W) (hb : ∀ b ∈ bytes, b < 243)
    (hlut : ∀ b, b < 243 → lut b = Except.ok (tcount t 5 b))
    {s : build_state} (hs : build_reach W lut bytes s) : build_wrap_inv W s := by
  induction hs with
  | init => exact build_wrap_inv_init hWlo
  | step s s1 _ hi hbody ih =>
    obtain ⟨s2, _, h1, h2, _, _⟩ := build_body_wrap hWlo hb hlut s ih hi
    rw [hbody] at h1
    cases h1
    exact h2

theorem build_loop_no_assert {W t : Nat} {bytes : List Nat} {lut : Nat → Except Err Nat}
    (hWlo : 65546 ≤ W) (hb : ∀ b ∈ bytes, b < 243)
    (hlut : ∀ b, b < 243 → lut b = Except.ok (tcount t 5 b)) :
    ∀ (fuel : Nat) (s : build_state), build_wrap_inv W s →
      build_loop W lut bytes fuel s = Except.error Err.out_of_fuel ∨
        ∃ s1, build_loop W lut bytes fuel s = Except.ok s1 := by
  intro fuel
  induction fuel with
  | zero => intro s _; left; rfl
  | succ fuel ih =>
    intro s hs
    unfold build_loop
    by_cases hi : s.i < bytes.length
    · obtain ⟨s1, _, h1, h2, _, _⟩ := build_body_wrap hWlo hb hlut s hs hi
      simp only [hi, if_true, h1]
      exact ih s1 h2
    · simp only [hi, if_false]
      exact Or.inr ⟨s, rfl⟩

/-! ## Well-formed vectors -/

theorem well_formed_size {v : trit_vector} (h : well_formed v) :
    5 * v.m_trytes.length < 2 ^ 64 ∧ v.m_num_trits ≤ 5 * v.m_trytes.length := by
  obtain ⟨_, h2, _, h4⟩ := h
  omega

theorem get_eq_slot {v : trit_vector} {i : Nat} (hi : i < v.m_num_trits)
    (hN : v.m_num_trits ≤ 5 * v.m_trytes.length) :
    ∃ g, v.get i = Except.ok g ∧ slot v.m_trytes i = some g ∧ g < 3 := by
  have hjb : i / 5 < v.m_trytes.length := by omega
  refine ⟨v.m_trytes[i / 5] / 3 ^ (i % 5) % 3, ?_, ?_, Nat.mod_lt _ (by omega)⟩
  · simp [trit_vector.get, hi, List.getElem?_eq_getElem hjb]
  · simp [slot, List.getElem?_eq_getElem hjb]

theorem slot_lt_three {bytes : List Nat} {p g : Nat} (h : slot bytes p = some g) : g < 3 := by
  unfold slot at h
  cases hb : bytes[p / 5]? with
  | none => rw [hb] at h; simp at h
  | some b =>
    rw [hb] at h
    simp only [Option.map_some', Option.some.injEq] at h
    rw [← h]
    exact Nat.mod_lt _ (by omega)

theorem slot_some_of_lt {bytes : List Nat} {p : Nat} (h : p < 5 * bytes.length) :
    ∃ g, slot bytes p = some g ∧ g < 3 := by
  have hjb : p / 5 < bytes.length := by omega
  refine ⟨bytes[p / 5] / 3 ^ (p % 5) % 3, ?_, Nat.mod_lt _ (by omega)⟩
  simp [slot, List.getElem?_eq_getElem hjb]

/-- Two slots that hold the target and have the same number of targets before them are
    the same slot. -/
theorem slot_unique {t : Nat} {bytes : List Nat} {p q : Nat} (hp : slot bytes p = some t)
    (hq : slot bytes q = some t) (h : occ t bytes p = occ t bytes q) : p = q := by
  have key : ∀ a b, slot bytes a = some t → a < b → occ t bytes a < occ t bytes b := by
    intro a b ha hab
    have h1 := occ_succ t bytes a
    rw [if_pos ha] at h1
    have h2 := occ_mono t bytes (show a + 1 ≤ b by omega)
    omega
  rcases Nat.lt_trichotomy p q with h1 | h1 | h1
  · have := key p q hp h1; omega
  · exact h1
  · have := key q p hq h1; omega

/-- With zero padding, the count over all slots is the count over the `N` trits, plus the
    number of padding slots when the target is 0. -/
theorem occ_padding {t : Nat} {bytes : List Nat} {N : Nat}
    (hpad : ∀ p, p < 5 * bytes.length → N ≤ p → slot bytes p = some 0) :
    ∀ d, N + d ≤ 5 * bytes.length →
      occ t bytes (N + d) = occ t bytes N + (if t = 0 then d else 0) := by
  intro d
  induction d with
  | zero => intro _; simp
  | succ d ih =>
    intro h
    rw [← Nat.add_assoc, occ_succ, ih (by omega), hpad (N + d) (by omega) (by omega)]
    by_cases ht : t = 0
    · subst ht; simp; omega
    · have : ¬ (some 0 = some t) := by
        intro h; simp only [Option.some.injEq] at h; exact ht h.symm
      simp [ht, this]

/-- Every slot of the byte sequence decodes to exactly one of the three trits. -/
theorem occ_sum_three (bytes : List Nat) :
    ∀ p, p ≤ 5 * bytes.length → occ 0 bytes p + occ 1 bytes p + occ 2 bytes p = p := by
  intro p
  induction p with
  | zero => intro _; simp [occ_zero]
  | succ p ih =>
    intro h
    obtain ⟨g, hg, hg3⟩ := slot_some_of_lt (show p < 5 * bytes.length by omega)
    have := ih (by omega)
    rw [occ_succ, occ_succ, occ_succ, hg]
    interval_cases g <;> simp <;> omega

/-! ## Contract of the directories -/

/-- C1: for every target `t < 3`, every trit vector whose bytes are all below 243, with
    `N ≤ 5·|bytes|` and slot positions that fit `uint64_t`, and every `i < N`,
    `rs_support<t>::build` succeeds and `rank(i)` on the built directory returns the number
    of positions `j < i` whose trit `(bytes[j/5] / 3^(j%5)) mod 3` equals `t`. -/
theorem rs_rank_counts (t : Nat) (ht : t < 3) (vec : trit_vector)
    (hb : ∀ b ∈ vec.m_trytes, b < 243) (hN : vec.m_num_trits ≤ 5 * vec.m_trytes.length)
    (hW : 5 * vec.m_trytes.length < 2 ^ 64) (i : Nat) (hi : i < vec.m_num_trits) :
    ∃ d, rs_support.build t vec = Except.ok d ∧
      rs_support.rank t d i = Except.ok (occ t vec.m_trytes i) :=
  ⟨_, rs_build_eq ht hW hb, rs_rank_eq ht hW hb hN hi⟩

theorem rs_rank_counts_witness :
    (1 < 3 ∧ (∀ b ∈ [4, 3], b < 243) ∧ 7 ≤ 5 * [4, 3].length ∧
      5 * [4, 3].length < 2 ^ 64 ∧ 6 < 7) ∧
    ∃ d, rs_support.build 1 ⟨[4, 3], 7⟩ = Except.ok d ∧
      rs_support.rank 1 d 6 = Except.ok (occ 1 [4, 3] 6) :=
  ⟨⟨by decide, by decide, by decide, by decide, by decide⟩,
    rs_rank_counts 1 (by decide) ⟨[4, 3], 7⟩ (by decide) (by decide) (by decide) 6
      (by decide)⟩

/-- C2: for every target `t < 3` and every byte sequence with all bytes below 243 (and slot
    positions that fit `uint64_t`), `build` succeeds and, for every
    `n < get_num_target_trits()`, `select(n)` returns a position `p` such that the trit decoded
    at slot `p` equals `t` and exactly `n` slots `j < p` decode to `t`. -/
theorem rs_select_finds (t : Nat) (ht : t < 3) (vec : trit_vector)
    (hb : ∀ b ∈ vec.m_trytes, b < 243) (hW : 5 * vec.m_trytes.length < 2 ^ 64) :
    ∃ d, rs_support.build t vec = Except.ok d ∧
      ∀ n, n < d.get_num_target_trits →
        ∃ p, rs_support.select t d n = Except.ok p ∧ slot vec.m_trytes p = some t ∧
          occ t vec.m_trytes p = n := by
  refine ⟨_, rs_build_eq ht hW hb, ?_⟩
  intro n hn
  obtain ⟨p, h1, _, h3, h4⟩ := rs_select_spec ht hW hb hn
  exact ⟨p, h1, h3, h4⟩

theorem rs_select_finds_witness :
    (1 < 3 ∧ (∀ b ∈ [4, 3], b < 243) ∧ 5 * [4, 3].length < 2 ^ 64) ∧
    ∃ d, rs_support.build 1 ⟨[4, 3], 7⟩ = Except.ok d ∧
      ∀ n, n < d.get_num_target_trits →
        ∃ p, rs_support.select 1 d n = Except.ok p ∧ slot [4, 3] p = some 1 ∧
          occ 1 [4, 3] p = n :=
  ⟨⟨by decide, by decide, by decide⟩,
    rs_select_finds 1 (by decide) ⟨[4, 3], 7⟩ (by decide) (by decide)⟩

/-- C3: for every target `t < 3`, every well-formed trit vector and every `i < N` with
    `get(i) = t`: `rank(i)` is below `get_num_target_trits()` and `select(rank(i)) = i`. -/
theorem rs_select_rank (t : Nat) (ht : t < 3) (vec : trit_vector) (hwf : well_formed vec)
    (i : Nat) (hi : i < vec.m_num_trits) (hget : vec.get i = Except.ok t) :
    ∃ d r, rs_support.build t vec = Except.ok d ∧ d.get i = Except.ok t ∧
      rs_support.rank t d i = Except.ok r ∧ r < d.get_num_target_trits ∧
      rs_support.select t d r = Except.ok i := by
  obtain ⟨hW, hN⟩ := well_formed_size hwf
  have hb := hwf.1
  obtain ⟨g, g1, g2, _⟩ := get_eq_slot hi hN
  have hg : g = t := by
    rw [g1] at hget
    cases hget
    rfl
  subst hg
  have hs := occ_succ g vec.m_trytes i
  rw [if_pos g2] at hs
  have hm := occ_mono g vec.m_trytes (show i + 1 ≤ 5 * vec.m_trytes.length by omega)
  have hlt : occ g vec.m_trytes i < occ g vec.m_trytes (5 * vec.m_trytes.length) := by omega
  obtain ⟨p, h1, _, h3, h4⟩ := rs_select_spec ht hW hb hlt
  have hp : p = i := slot_unique h3 g2 h4
  subst hp
  exact ⟨_, _, rs_build_eq ht hW hb, g1, rs_rank_eq ht hW hb hN hi, hlt, h1⟩

theorem rs_select_rank_witness :
    (1 < 3 ∧ well_formed ⟨[4, 3], 7⟩ ∧ 6 < 7 ∧
      trit_vector.get ⟨[4, 3], 7⟩ 6 = Except.ok 1) ∧
    ∃ d r, rs_support.build 1 ⟨[4, 3], 7⟩ = Except.ok d ∧ d.get 6 = Except.ok 1 ∧
      rs_support.rank 1 d 6 = Except.ok r ∧ r < d.get_num_target_trits ∧
      rs_support.select 1 d r = Except.ok 6 :=
  ⟨⟨by decide, by decide, by decide, by rfl⟩,
    rs_select_rank 1 (by decide) ⟨[4, 3], 7⟩ (by decide) 6 (by decide) (by rfl)⟩

/-- C4, the claim fails at target 0 on the one-trit vector `[1]`: the vector is well formed,
    the directory counts four targets (the four zero padding slots), `select(0)` returns
    slot 1, which is not below `N = 1`, and `rank` and `get` fail there. -/
theorem rs_rank_select_padding_counterexample :
    well_formed ⟨[1], 1⟩ ∧
    ∃ d, rs_support.build 0 ⟨[1], 1⟩ = Except.ok d ∧ 0 < d.get_num_target_trits ∧
      rs_support.select 0 d 0 = Except.ok 1 ∧
      rs_support.rank 0 d 1 = Except.error Err.assertion ∧
      d.get 1 = Except.error Err.assertion := by
  refine ⟨by decide, ⟨some ⟨[1], 1⟩, [0], [0], 4⟩, ?_, by decide, ?_, ?_, ?_⟩
  · set_option maxRecDepth 100000 in rfl
  · set_option maxRecDepth 100000 in rfl
  · set_option maxRecDepth 100000 in rfl
  · rfl

/-- C4, amended: for every target `t < 3`, every well-formed trit vector and every
    `n < get_num_target_trits()`, `select(n)` succeeds with a position `p`; `p` is below `N`
    exactly when `n` is below the number of `t` among the `N` trits, which is the case for
    every such `n` when `t` is 1 or 2 or `N` is a multiple of 5; when `p < N`,
    `rank(p)` succeeds and equals `n` and `get(p) = t`; when `p ≥ N` (a zero padding
    slot), `rank(p)` fails its precondition. -/
theorem rs_rank_select (t : Nat) (ht : t < 3) (vec : trit_vector) (hwf : well_formed vec) :
    ∃ d, rs_support.build t vec = Except.ok d ∧
      ∀ n, n < d.get_num_target_trits →
        ∃ p, rs_support.select t d n = Except.ok p ∧
          (p < vec.m_num_trits ↔ n < occ t vec.m_trytes vec.m_num_trits) ∧
          (p < vec.m_num_trits →
            rs_support.rank t d p = Except.ok n ∧ d.get p = Except.ok t) ∧
          (¬ p < vec.m_num_trits → rs_support.rank t d p = Except.error Err.assertion) ∧
          (t ≠ 0 ∨ vec.m_num_trits % 5 = 0 → p < vec.m_num_trits) := by
  obtain ⟨hW, hN⟩ := well_formed_size hwf
  obtain ⟨hb, hlen, hpad, _⟩ := hwf
  refine ⟨_, rs_build_eq ht hW hb, ?_⟩
  intro n hn
  obtain ⟨p, h1, h2, h3, h4⟩ := rs_select_spec ht hW hb hn
  refine ⟨p, h1, ?_, ?_, ?_, ?_⟩
  · constructor
    · intro hp
      have hs := occ_succ t vec.m_trytes p
      rw [if_pos h3] at hs
      have hm := occ_mono t vec.m_trytes (show p + 1 ≤ vec.m_num_trits by omega)
      omega
    · intro hlt
      by_contra hp
      have hm := occ_mono t vec.m_trytes (show vec.m_num_trits ≤ p by omega)
      omega
  · intro hp
    refine ⟨?_, ?_⟩
    · rw [rs_rank_eq ht hW hb hN hp, h4]
    · obtain ⟨g, g1, g2, _⟩ := get_eq_slot hp hN
      rw [h3] at g2
      cases g2
      exact g1
  · intro hp
    simp [rs_support.rank, trit_vector.get_num_trits, hp]
  · intro hc
    by_contra hp
    have h0 := hpad p h2 (by omega)
    rw [h3] at h0
    simp only [Option.some.injEq] at h0
    rcases hc with hc | hc
    · exact hc h0
    · omega

theorem rs_rank_select_witness :
    (0 < 3 ∧ well_formed ⟨[1], 1⟩) ∧
    ∃ d, rs_support.build 0 ⟨[1], 1⟩ = Except.ok d ∧
      ∀ n, n < d.get_num_target_trits →
        ∃ p, rs_support.select 0 d n = Except.ok p ∧
          (p < 1 ↔ n < occ 0 [1] 1) ∧
          (p < 1 → rs_support.rank 0 d p = Except.ok n ∧ d.get p = Except.ok 0) ∧
          (¬ p < 1 → rs_support.rank 0 d p = Except.error Err.assertion) ∧
          (0 ≠ 0 ∨ 1 % 5 = 0 → p < 1) :=
  ⟨⟨by decide, by decide⟩, rs_rank_select 0 (by decide) ⟨[1], 1⟩ (by decide)⟩

/-- C5: for every target `t < 3`, every well-formed trit vector and every `i` with
    `i + 1 < N`, `rank(i + 1) - rank(i)` is 0 or 1, and it is 1 exactly when
    `get(i) = t`. -/
theorem rs_rank_step (t : Nat) (ht : t < 3) (vec : trit_vector) (hwf : well_formed vec)
    (i : Nat) (hi : i + 1 < vec.m_num_trits) :
    ∃ d r0 r1 g, rs_support.build t vec = Except.ok d ∧
      rs_support.rank t d i = Except.ok r0 ∧ rs_support.rank t d (i + 1) = Except.ok r1 ∧
      d.get i = Except.ok g ∧ r0 ≤ r1 ∧ (r1 - r0 = 0 ∨ r1 - r0 = 1) ∧
      (r1 - r0 = 1 ↔ g = t) := by
  obtain ⟨hW, hN⟩ := well_formed_size hwf
  have hb := hwf.1
  have hi0 : i < vec.m_num_trits := by omega
  obtain ⟨g, g1, g2, _⟩ := get_eq_slot hi0 hN
  have hs := occ_succ t vec.m_trytes i
  rw [g2] at hs
  refine ⟨_, _, _, g, rs_build_eq ht hW hb, rs_rank_eq ht hW hb hN hi0,
    rs_rank_eq ht hW hb hN hi, g1, ?_, ?_, ?_⟩
  · rw [hs]; omega
  · rw [hs]; split <;> omega
  · rw [hs]
    simp only [Option.some.injEq]
    split <;> omega

theorem rs_rank_step_witness :
    (1 < 3 ∧ well_formed ⟨[4, 3], 7⟩ ∧ 4 + 1 < 7) ∧
    ∃ d r0 r1 g, rs_support.build 1 ⟨[4, 3], 7⟩ = Except.ok d ∧
      rs_support.rank 1 d 4 = Except.ok r0 ∧ rs_support.rank 1 d (4 + 1) = Except.ok r1 ∧
      d.get 4 = Except.ok g ∧ r0 ≤ r1 ∧ (r1 - r0 = 0 ∨ r1 - r0 = 1) ∧
      (r1 - r0 = 1 ↔ g = 1) :=
  ⟨⟨by decide, by decide, by decide⟩,
    rs_rank_step 1 (by decide) ⟨[4, 3], 7⟩ (by decide) 4 (by decide)⟩

/-- C6: for every target `t < 3`, every well-formed trit vector and all `i ≤ j < N`,
    `rank(i) ≤ rank(j)`. -/
theorem rs_rank_monotone (t : Nat) (ht : t < 3) (vec : trit_vector) (hwf : well_formed vec)
    (i j : Nat) (hij : i ≤ j) (hj : j < vec.m_num_trits) :
    ∃ d ri rj, rs_support.build t vec = Except.ok d ∧
      rs_support.rank t d i = Except.ok ri ∧ rs_support.rank t d j = Except.ok rj ∧
      ri ≤ rj := by
  obtain ⟨hW, hN⟩ := well_formed_size hwf
  have hb := hwf.1
  exact ⟨_, _, _, rs_build_eq ht hW hb, rs_rank_eq ht hW hb hN (by omega),
    rs_rank_eq ht hW hb hN hj, occ_mono _ _ hij⟩

theorem rs_rank_monotone_witness :
    (1 < 3 ∧ well_formed ⟨[4, 3], 7⟩ ∧ 1 ≤ 6 ∧ 6 < 7) ∧
    ∃ d ri rj, rs_support.build 1 ⟨[4, 3], 7⟩ = Except.ok d ∧
      rs_support.rank 1 d 1 = Except.ok ri ∧ rs_support.rank 1 d 6 = Except.ok rj ∧
      ri ≤ rj :=
  ⟨⟨by decide, by decide, by decide, by decide⟩,
    rs_rank_monotone 1 (by decide) ⟨[4, 3], 7⟩ (by decide) 1 6 (by decide) (by decide)⟩

/-- C7, the claim fails at target 0 on the one-trit vector `[1]`: the vector is well formed
    and its only trit is 1, so no position `i < N` has `get(i) = 0` and
    `rank(N-1) + (1 if get(N-1) = 0 else 0)` is 0, but `get_num_target_trits()` is 4. -/
theorem rs_num_targets_padding_counterexample :
    well_formed ⟨[1], 1⟩ ∧
    ∃ d, rs_support.build 0 ⟨[1], 1⟩ = Except.ok d ∧ d.get_num_target_trits = 4 ∧
      d.get 0 = Except.ok 1 ∧ rs_support.rank 0 d 0 = Except.ok 0 ∧
      occ 0 [1] 1 = 0 := by
  refine ⟨by decide, ⟨some ⟨[1], 1⟩, [0], [0], 4⟩, ?_, rfl, rfl, ?_, by decide⟩
  · set_option maxRecDepth 100000 in rfl
  · set_option maxRecDepth 100000 in rfl

/-- C7, amended: for every target `t < 3` and every well-formed trit vector of `N` trits,
    `get_num_target_trits()` after build is the number of slots `p < 5·|bytes|` that decode
    to `t`; that is the number of positions `i < N` with `get(i) = t`, plus the
    `5·|bytes| - N` zero padding slots when `t = 0`; and for `N ≥ 1` the number of positions
    `i < N` with `get(i) = t` equals `rank(N-1) + (1 if get(N-1) = t else 0)`. -/
theorem rs_num_targets (t : Nat) (ht : t < 3) (vec : trit_vector) (hwf : well_formed vec) :
    ∃ d, rs_support.build t vec = Except.ok d ∧
      d.get_num_target_trits = occ t vec.m_trytes (5 * vec.m_trytes.length) ∧
      d.get_num_target_trits = occ t vec.m_trytes vec.m_num_trits +
        (if t = 0 then 5 * vec.m_trytes.length - vec.m_num_trits else 0) ∧
      (1 ≤ vec.m_num_trits →
        ∃ r g, rs_support.rank t d (vec.m_num_trits - 1) = Except.ok r ∧
          d.get (vec.m_num_trits - 1) = Except.ok g ∧
          occ t vec.m_trytes vec.m_num_trits = r + (if g = t then 1 else 0)) := by
  obtain ⟨hW, hN⟩ := well_formed_size hwf
  obtain ⟨hb, hlen, hpad, _⟩ := hwf
  refine ⟨_, rs_build_eq ht hW hb, rfl, ?_, ?_⟩
  · have := occ_padding (t := t) hpad (5 * vec.m_trytes.length - vec.m_num_trits) (by omega)
    have e : vec.m_num_trits + (5 * vec.m_trytes.length - vec.m_num_trits) =
        5 * vec.m_trytes.length := by omega
    rw [e] at this
    exact this
  · intro h1
    have hi : vec.m_num_trits - 1 < vec.m_num_trits := by omega
    obtain ⟨g, g1, g2, _⟩ := get_eq_slot hi hN
    refine ⟨_, g, rs_rank_eq ht hW hb hN hi, g1, ?_⟩
    have hs := occ_succ t vec.m_trytes (vec.m_num_trits - 1)
    have e : vec.m_num_trits - 1 + 1 = vec.m_num_trits := by omega
    rw [e, g2] at hs
    rw [hs]
    simp only [Option.some.injEq]

theorem rs_num_targets_witness :
    (0 < 3 ∧ well_formed ⟨[4, 3], 7⟩) ∧
    ∃ d, rs_support.build 0 ⟨[4, 3], 7⟩ = Except.ok d ∧
      d.get_num_target_trits = occ 0 [4, 3] (5 * [4, 3].length) ∧
      d.get_num_target_trits = occ 0 [4, 3] 7 +
        (if 0 = 0 then 5 * [4, 3].length - 7 else 0) ∧
      (1 ≤ 7 →
        ∃ r g, rs_support.rank 0 d (7 - 1) = Except.ok r ∧
          d.get (7 - 1) = Except.ok g ∧
          occ 0 [4, 3] 7 = r + (if g = 0 then 1 else 0)) :=
  ⟨⟨by decide, by decide⟩, rs_num_targets 0 (by decide) ⟨[4, 3], 7⟩ (by decide)⟩

/-- C8, the claim fails on the two-trit vector `[5]` (trits 2, 1): the three directories
    count 3, 1 and 1 targets, which sum to 5 and not to `N = 2`. -/
theorem rs_num_targets_sum_counterexample :
    well_formed ⟨[5], 2⟩ ∧
    ∃ d0 d1 d2, rs_support.build 0 ⟨[5], 2⟩ = Except.ok d0 ∧
      rs_support.build 1 ⟨[5], 2⟩ = Except.ok d1 ∧
      rs_support.build 2 ⟨[5], 2⟩ = Except.ok d2 ∧
      d0.get_num_target_trits = 3 ∧ d1.get_num_target_trits = 1 ∧
      d2.get_num_target_trits = 1 ∧
      d0.get_num_target_trits + d1.get_num_target_trits + d2.get_num_target_trits ≠ 2 := by
  refine ⟨by decide, ⟨some ⟨[5], 2⟩, [0], [0], 3⟩, ⟨some ⟨[5], 2⟩, [0], [0], 1⟩,
    ⟨some ⟨[5], 2⟩, [0], [0], 1⟩, ?_, ?_, ?_, rfl, rfl, rfl, by decide⟩
  · set_option maxRecDepth 100000 in rfl
  · set_option maxRecDepth 100000 in rfl
  · set_option maxRecDepth 100000 in rfl

/-- C8, amended: for every well-formed trit vector of `N` trits, the three directories built
    over it for targets 0, 1 and 2 satisfy
    `num_targets_0 + num_targets_1 + num_targets_2 = 5·|bytes|`, the number of slots, which
    is `N` rounded up to a multiple of 5; the sum is `N` when `N` is a multiple of 5. -/
theorem rs_num_targets_sum (vec : trit_vector) (hwf : well_formed vec) :
    ∃ d0 d1 d2, rs_support.build 0 vec = Except.ok d0 ∧
      rs_support.build 1 vec = Except.ok d1 ∧ rs_support.build 2 vec = Except.ok d2 ∧
      d0.get_num_target_trits + d1.get_num_target_trits + d2.get_num_target_trits =
        5 * vec.m_trytes.length ∧
      5 * vec.m_trytes.length = (vec.m_num_trits + 4) / 5 * 5 ∧
      (vec.m_num_trits % 5 = 0 →
        d0.get_num_target_trits + d1.get_num_target_trits + d2.get_num_target_trits =
          vec.m_num_trits) := by
  obtain ⟨hW, hN⟩ := well_formed_size hwf
  obtain ⟨hb, hlen, hpad, _⟩ := hwf
  have hsum := occ_sum_three vec.m_trytes (5 * vec.m_trytes.length) (le_refl _)
  refine ⟨_, _, _, rs_build_eq (by omega) hW hb, rs_build_eq (by omega) hW hb,
    rs_build_eq (by omega) hW hb, hsum, by omega, ?_⟩
  intro h5
  simp only [rs_support.get_num_target_trits]
  omega

theorem rs_num_targets_sum_witness :
    well_formed ⟨[4, 3], 7⟩ ∧
    ∃ d0 d1 d2, rs_support.build 0 ⟨[4, 3], 7⟩ = Except.ok d0 ∧
      rs_support.build 1 ⟨[4, 3], 7⟩ = Except.ok d1 ∧
      rs_support.build 2 ⟨[4, 3], 7⟩ = Except.ok d2 ∧
      d0.get_num_target_trits + d1.get_num_target_trits + d2.get_num_target_trits =
        5 * [4, 3].length ∧
      5 * [4, 3].length = (7 + 4) / 5 * 5 ∧
      (7 % 5 = 0 →
        d0.get_num_target_trits + d1.get_num_target_trits + d2.get_num_target_trits = 7) :=
  ⟨by decide, rs_num_targets_sum ⟨[4, 3], 7⟩ (by decide)⟩

/-- C9: for every target `t < 3`, every well-formed trit vector whose trit count fits in 32
    bits and every `i < N`, both builds succeed and `rank_support<t>::rank(i)` returns the
    same value as `rs_support<t>::rank(i)`. -/
theorem rank_support_agrees (t : Nat) (ht : t < 3) (vec : trit_vector)
    (hwf : well_formed vec) (h32 : vec.m_num_trits < 2 ^ 32) (i : Nat)
    (hi : i < vec.m_num_trits) :
    ∃ d1 d2 r, rank_support.build t vec = Except.ok d1 ∧
      rs_support.build t vec = Except.ok d2 ∧
      rank_support.rank t d1 i = Except.ok r ∧ rs_support.rank t d2 i = Except.ok r := by
  obtain ⟨hW, hN⟩ := well_formed_size hwf
  obtain ⟨hb, hlen, hpad, _⟩ := hwf
  have hW32 : 5 * vec.m_trytes.length < 2 ^ 32 := by omega
  exact ⟨_, _, _, rank_build_eq ht hW32 hb, rs_build_eq ht hW hb,
    rank_rank_eq ht hW32 hb hN hi, rs_rank_eq ht hW hb hN hi⟩

theorem rank_support_agrees_witness :
    (1 < 3 ∧ well_formed ⟨[4, 3], 7⟩ ∧ 7 < 2 ^ 32 ∧ 6 < 7) ∧
    ∃ d1 d2 r, rank_support.build 1 ⟨[4, 3], 7⟩ = Except.ok d1 ∧
      rs_support.build 1 ⟨[4, 3], 7⟩ = Except.ok d2 ∧
      rank_support.rank 1 d1 6 = Except.ok r ∧ rs_support.rank 1 d2 6 = Except.ok r :=
  ⟨⟨by decide, by decide, by decide, by decide⟩,
    rank_support_agrees 1 (by decide) ⟨[4, 3], 7⟩ (by decide) (by decide) 6 (by decide)⟩

theorem build_deltas_fit_of {W t : Nat} {bytes : List Nat} {lut : Nat → Except Err Nat}
    (hWlo : 65546 ≤ W) (hb : ∀ b ∈ bytes, b < 243)
    (hlut : ∀ b, b < 243 → lut b = Except.ok (tcount t 5 b)) :
    build_deltas_fit W lut bytes := by
  refine ⟨fun fuel => build_loop_no_assert hWlo hb hlut fuel _ (build_wrap_inv_init hWlo), ?_⟩
  intro s hs hi h10
  obtain ⟨s1, back, h1, _, h3, h4⟩ :=
    build_body_wrap hWlo hb hlut s (build_reach_wrap_inv hWlo hb hlut hs) hi
  exact ⟨s1, back, h1, h3, (h4 h10).1, (h4 h10).2⟩

/-- C10: for every target `t < 3` and every byte sequence with all bytes below 243, at every
    small-block emission during build the delta fits in 16 bits, so the assertion of build
    never fails and the stored `uint16_t` equals the delta; this holds for the loop of
    `rs_support::build` (64-bit counters) and of `rank_support::build` (32-bit counters),
    also when the counters wrap around. -/
theorem build_sb_delta_fits (t : Nat) (ht : t < 3) (bytes : List Nat)
    (hb : ∀ b ∈ bytes, b < 243) :
    build_deltas_fit (2 ^ 64) (rs_support.lut t 4) bytes ∧
      build_deltas_fit (2 ^ 32) (rank_support.lut t) bytes :=
  ⟨build_deltas_fit_of (by norm_num) hb (fun _ h => rs_lut_eq ht (by omega) h),
    build_deltas_fit_of (by norm_num) hb (fun _ h => rank_lut_eq ht h)⟩

theorem build_sb_delta_fits_witness :
    (0 < 3 ∧ ∀ b ∈ [4, 3], b < 243) ∧
    (build_deltas_fit (2 ^ 64) (rs_support.lut 0 4) [4, 3] ∧
      build_deltas_fit (2 ^ 32) (rank_support.lut 0) [4, 3]) :=
  ⟨⟨by decide, by decide⟩, build_sb_delta_fits 0 (by decide) [4, 3] (by decide)⟩

/-! ## Counts over a range of slots, entries of the built vectors -/

theorem occ_between_add (t : Nat) (bytes : List Nat) (a : Nat) :
    ∀ d, occ t bytes a + occ_between t bytes a (a + d) = occ t bytes (a + d) := by
  intro d
  induction d with
  | zero => simp [occ_between]
  | succ d ih =>
    have e : a + (d + 1) - a = d + 1 := by omega
    have e0 : a + d - a = d := by omega
    rw [occ_between, e, List.range'_1_concat, List.countP_append, List.countP_singleton,
      ← Nat.add_assoc a d 1, occ_succ, ← ih, occ_between, e0]
    simp only [decide_eq_true_eq]
    omega

/-- The count over `[a, b)` is the difference of the counts before `b` and before `a`. -/
theorem occ_between_eq (t : Nat) (bytes : List Nat) {a b : Nat} (h : a ≤ b) :
    occ_between t bytes a b = occ t bytes b - occ t bytes a := by
  obtain ⟨d, rfl⟩ := Nat.exists_eq_add_of_le h
  have := occ_between_add t bytes a d
  omega

theorem occ_between_zero (t : Nat) (bytes : List Nat) (b : Nat) :
    occ_between t bytes 0 b = occ t bytes b := by
  rw [occ_between_eq t bytes (Nat.zero_le b), occ_zero, Nat.sub_zero]

theorem lb_list_getElem? (t : Nat) (bytes : List Nat) {n l : Nat} (h : l < n) :
    (lb_list t bytes n)[l]? = some (occ t bytes (65550 * l)) := by
  simp [lb_list, List.getElem?_range h]

theorem sb_list_getElem? (t : Nat) (bytes : List Nat) {n s : Nat} (h : s < n) :
    (sb_list t bytes n)[s]? =
      some (occ t bytes (50 * s) - occ t bytes (65550 * (s / 1311))) := by
  simp [sb_list, List.getElem?_range h]

/-! ## Serialization -/

theorem to_bytes_length (w x : Nat) : (to_bytes w x).length = w := by
  induction w generalizing x with
  | zero => rfl
  | succ w ih => simp [to_bytes, ih]

theorem of_to_bytes (w : Nat) : ∀ x, x < 256 ^ w → of_bytes (to_bytes w x) = x := by
  induction w with
  | zero => intro x hx; simp at hx; subst hx; rfl
  | succ w ih =>
    intro x hx
    have h1 : x / 256 < 256 ^ w := by
      rw [Nat.div_lt_iff_lt_mul (by norm_num)]
      rw [pow_succ] at hx
      exact hx
    simp only [to_bytes, of_bytes, ih _ h1]
    omega

theorem array_bytes_length (w : Nat) (l : List Nat) :
    (array_bytes w l).length = w * l.length := by
  induction l with
  | nil => rfl
  | cons x xs ih =>
    simp only [array_bytes, List.length_append, to_bytes_length, ih, List.length_cons]
    rw [Nat.mul_succ, Nat.add_comm]

theorem array_of_bytes_array_bytes (w : Nat) (l : List Nat) (hl : ∀ x ∈ l, x < 256 ^ w) :
    array_of_bytes w l.length (array_bytes w l) = l := by
  induction l with
  | nil => rfl
  | cons x xs ih =>
    have hx : x < 256 ^ w := hl x (List.mem_cons_self _ _)
    have hxs : ∀ y ∈ xs, y < 256 ^ w := fun y hy => hl y (List.mem_cons_of_mem _ hy)
    simp only [array_bytes, List.length_cons, array_of_bytes,
      List.take_left' (to_bytes_length w x), List.drop_left' (to_bytes_length w x),
      of_to_bytes w x hx, ih hxs]

theorem vector_resize_length (l : List Nat) (n : Nat) : (vector_resize l n).length = n := by
  simp only [vector_resize, List.length_append, List.length_take, List.length_replicate]
  omega

theorem ostream_write_all (os src : List Nat) {n : Nat} (h : src.length = n) :
    ostream_write os src n = os ++ src := by
  rw [ostream_write, ← h, List.take_length]

/-- A read of exactly the bytes at the front of a good stream fills the object with them. -/
theorem istream_read_exact (a rest buf : List Nat) {n : Nat} (hn : a.length = n)
    (hbuf : buf.length ≤ n) :
    istream.read { data := a ++ rest, fail := false } buf n =
      (a, { data := rest, fail := false }) := by
  have h1 : n ≤ (a ++ rest).length := by rw [List.length_append]; omega
  simp only [istream.read, h1, if_true, List.take_left' hn, List.drop_left' hn,
    List.drop_eq_nil_of_le hbuf, List.append_nil]
  rfl

/-- What `save` writes, for a directory whose sizes and entries fit their types. -/
theorem rs_save_eq (d : rs_support) (os : List Nat)
    (hL : d.m_large_blocks.length < 2 ^ 60) (hS : d.m_small_blocks.length < 2 ^ 60) :
    rs_support.save d os = os ++ (to_bytes 8 d.m_large_blocks.length ++
      (array_bytes 8 d.m_large_blocks ++ (to_bytes 8 d.m_small_blocks.length ++
        (array_bytes 2 d.m_small_blocks ++ to_bytes 8 d.m_num_target_trits)))) := by
  have e1 : d.m_large_blocks.length % 2 ^ 64 = d.m_large_blocks.length :=
    Nat.mod_eq_of_lt (by omega)
  have e2 : d.m_small_blocks.length % 2 ^ 64 = d.m_small_blocks.length :=
    Nat.mod_eq_of_lt (by omega)
  have e3 : 8 * d.m_large_blocks.length % 2 ^ 64 = 8 * d.m_large_blocks.length :=
    Nat.mod_eq_of_lt (by omega)
  have e4 : 2 * d.m_small_blocks.length % 2 ^ 64 = 2 * d.m_small_blocks.length :=
    Nat.mod_eq_of_lt (by omega)
  simp only [rs_support.save, e1, e2, e3, e4,
    ostream_write_all _ _ (to_bytes_length 8 _),
    ostream_write_all _ _ (array_bytes_length 8 d.m_large_blocks),
    ostream_write_all _ _ (array_bytes_length 2 d.m_small_blocks), List.append_assoc]

/-- Reading back what `save` wrote restores the two vectors and the count, leaves the
    vector pointer of the receiving directory as it was, and leaves the stream good, at the
    first byte after the saved directory. -/
theorem rs_load_save (d d0 : rs_support) (rest : List Nat)
    (hL : d.m_large_blocks.length < 2 ^ 60) (hS : d.m_small_blocks.length < 2 ^ 60)
    (hLB : ∀ x ∈ d.m_large_blocks, x < 2 ^ 64) (hSB : ∀ x ∈ d.m_small_blocks, x < 2 ^ 16)
    (hM : d.m_num_target_trits < 2 ^ 64) :
    rs_support.load d0 { data := rs_support.save d [] ++ rest, fail := false } =
      ({ m_vec := d0.m_vec, m_large_blocks := d.m_large_blocks,
         m_small_blocks := d.m_small_blocks, m_num_target_trits := d.m_num_target_trits },
       { data := rest, fail := false }) := by
  have p8 : (256 : Nat) ^ 8 = 2 ^ 64 := by norm_num
  have p2 : (256 : Nat) ^ 2 = 2 ^ 16 := by norm_num
  have e3 : 8 * d.m_large_blocks.length % 2 ^ 64 = 8 * d.m_large_blocks.length :=
    Nat.mod_eq_of_lt (by omega)
  have e4 : 2 * d.m_small_blocks.length % 2 ^ 64 = 2 * d.m_small_blocks.length :=
    Nat.mod_eq_of_lt (by omega)
  have o1 : of_bytes (to_bytes 8 d.m_large_blocks.length) = d.m_large_blocks.length :=
    of_to_bytes 8 _ (by rw [p8]; omega)
  have o2 : of_bytes (to_bytes 8 d.m_small_blocks.length) = d.m_small_blocks.length :=
    of_to_bytes 8 _ (by rw [p8]; omega)
  have o3 : of_bytes (to_bytes 8 d.m_num_target_trits) = d.m_num_target_trits :=
    of_to_bytes 8 _ (by rw [p8]; exact hM)
  have a1 := array_of_bytes_array_bytes 8 d.m_large_blocks (by rw [p8]; exact hLB)
  have a2 := array_of_bytes_array_bytes 2 d.m_small_blocks (by rw [p2]; exact hSB)
  have r1 := fun rest buf hbuf => istream_read_exact (to_bytes 8 d.m_large_blocks.length)
    rest buf (n := 8) (to_bytes_length _ _) hbuf
  have r2 := fun rest buf hbuf => istream_read_exact (array_bytes 8 d.m_large_blocks)
    rest buf (n := 8 * d.m_large_blocks.length) (array_bytes_length _ _) hbuf
  have r3 := fun rest buf hbuf => istream_read_exact (to_bytes 8 d.m_small_blocks.length)
    rest buf (n := 8) (to_bytes_length _ _) hbuf
  have r4 := fun rest buf hbuf => istream_read_exact (array_bytes 2 d.m_small_blocks)
    rest buf (n := 2 * d.m_small_blocks.length) (array_bytes_length _ _) hbuf
  have r5 := fun rest buf hbuf => istream_read_exact (to_bytes 8 d.m_num_target_trits)
    rest buf (n := 8) (to_bytes_length _ _) hbuf
  have b8 : ∀ x, (to_bytes 8 x).length ≤ 8 := fun x => by rw [to_bytes_length]
  have bL : ∀ l n, (array_bytes 8 (vector_resize l n)).length ≤ 8 * n := fun l n => by
    rw [array_bytes_length, vector_resize_length]
  have bS : ∀ l n, (array_bytes 2 (vector_resize l n)).length ≤ 2 * n := fun l n => by
    rw [array_bytes_length, vector_resize_length]
  rw [rs_save_eq d [] hL hS]
  simp only [rs_support.load, List.nil_append, List.append_assoc, r1 _ _ (b8 0), o1, e3,
    r2 _ _ (bL _ _), a1, r3 _ _ (b8 0), o2, e4, r4 _ _ (bS _ _), a2, r5 _ _ (b8 _), o3]

/-! ## Failure conditions, block entries and sizes -/

/-- C11: for a directory built by `rs_support<t>::build` over a trit vector with all bytes
    below 243 and `N ≤ 5·|bytes|` (slot positions fitting `uint64_t`), `rank(i)` fails its
    assertion exactly when `i ≥ N`; for every `i < N` it returns a value, and the entries it
    reads, `large_blocks[i/65550]`, `small_blocks[i/50]`, `trytes[i/5]` and `trytes[j]` for
    every scanned `j < i/5`, exist. -/
theorem rs_rank_fails_iff (t : Nat) (ht : t < 3) (vec : trit_vector)
    (hb : ∀ b ∈ vec.m_trytes, b < 243) (hN : vec.m_num_trits ≤ 5 * vec.m_trytes.length)
    (hW : 5 * vec.m_trytes.length < 2 ^ 64) :
    ∃ d, rs_support.build t vec = Except.ok d ∧
      ∀ i, (rs_support.rank t d i = Except.error Err.assertion ↔ vec.m_num_trits ≤ i) ∧
        (i < vec.m_num_trits →
          ∃ r lb sb tr, rs_support.rank t d i = Except.ok r ∧
            d.m_large_blocks[i / TRITS_PER_LB]? = some lb ∧
            d.m_small_blocks[i / TRITS_PER_SB]? = some sb ∧
            vec.m_trytes[i / TRITS_PER_BYTE]? = some tr ∧
            ∀ j, j < i / TRITS_PER_BYTE → ∃ b, vec.m_trytes[j]? = some b) := by
  refine ⟨_, rs_build_eq ht hW hb, ?_⟩
  intro i
  have hok : i < vec.m_num_trits → _ := fun hi => rs_rank_eq ht hW hb hN hi
  refine ⟨⟨?_, ?_⟩, ?_⟩
  · intro herr
    by_contra hi
    rw [hok (by omega)] at herr
    cases herr
  · intro hi
    simp [rs_support.rank, trit_vector.get_num_trits, Nat.not_lt.mpr hi]
  · intro hi
    rw [TRITS_PER_LB_eq, TRITS_PER_SB_eq, TRITS_PER_BYTE_eq]
    have hjb : i / 5 < vec.m_trytes.length := by omega
    refine ⟨_, _, _, _, hok hi, lb_list_getElem? t _ (by omega),
      sb_list_getElem? t _ (by omega), List.getElem?_eq_getElem hjb, ?_⟩
    intro j hj
    exact ⟨_, List.getElem?_eq_getElem (show j < vec.m_trytes.length by omega)⟩

theorem rs_rank_fails_iff_witness :
    (1 < 3 ∧ (∀ b ∈ [4, 3], b < 243) ∧ 7 ≤ 5 * [4, 3].length ∧ 5 * [4, 3].length < 2 ^ 64) ∧
    ∃ d, rs_support.build 1 ⟨[4, 3], 7⟩ = Except.ok d ∧
      ∀ i, (rs_support.rank 1 d i = Except.error Err.assertion ↔ 7 ≤ i) ∧
        (i < 7 →
          ∃ r lb sb tr, rs_support.rank 1 d i = Except.ok r ∧
            d.m_large_blocks[i / TRITS_PER_LB]? = some lb ∧
            d.m_small_blocks[i / TRITS_PER_SB]? = some sb ∧
            [4, 3][i / TRITS_PER_BYTE]? = some tr ∧
            ∀ j, j < i / TRITS_PER_BYTE → ∃ b, [4, 3][j]? = some b) :=
  ⟨⟨by decide, by decide, by decide, by decide⟩,
    rs_rank_fails_iff 1 (by decide) ⟨[4, 3], 7⟩ (by decide) (by decide) (by decide)⟩

/-- C12: for a directory built by `rs_support<t>::build` over a byte sequence with all bytes
    below 243 (slot positions fitting `uint64_t`), `select(n)` fails its assertion exactly
    when `n ≥ get_num_target_trits()`; for every smaller `n` it returns a position, so that
    none of its internal assertions fires and none of its array reads is out of range (each
    of these would make the result an error). -/
theorem rs_select_fails_iff (t : Nat) (ht : t < 3) (vec : trit_vector)
    (hb : ∀ b ∈ vec.m_trytes, b < 243) (hW : 5 * vec.m_trytes.length < 2 ^ 64) :
    ∃ d, rs_support.build t vec = Except.ok d ∧
      ∀ n, ((∃ e, rs_support.select t d n = Except.error e) ↔ d.get_num_target_trits ≤ n) ∧
        (d.get_num_target_trits ≤ n →
          rs_support.select t d n = Except.error Err.assertion) ∧
        (n < d.get_num_target_trits →
          ∃ p, rs_support.select t d n = Except.ok p ∧ p < 5 * vec.m_trytes.length) := by
  refine ⟨_, rs_build_eq ht hW hb, ?_⟩
  intro n
  simp only [rs_support.get_num_target_trits]
  have hok : n < occ t vec.m_trytes (5 * vec.m_trytes.length) → _ :=
    fun hn => rs_select_spec ht hW hb hn
  have herr : occ t vec.m_trytes (5 * vec.m_trytes.length) ≤ n → rs_support.select t
      { m_vec := some vec,
        m_large_blocks := lb_list t vec.m_trytes ((vec.m_trytes.length + 13109) / 13110),
        m_small_blocks := sb_list t vec.m_trytes ((vec.m_trytes.length + 9) / 10),
        m_num_target_trits := occ t vec.m_trytes (5 * vec.m_trytes.length) } n =
      Except.error Err.assertion := by
    intro hn
    simp [rs_support.select, Nat.not_lt.mpr hn]
  refine ⟨⟨?_, ?_⟩, herr, ?_⟩
  · rintro ⟨e, he⟩
    by_contra hn
    obtain ⟨p, hp, _⟩ := hok (by omega)
    rw [hp] at he
    cases he
  · intro hn
    exact ⟨_, herr hn⟩
  · intro hn
    obtain ⟨p, hp, hp5, _⟩ := hok hn
    exact ⟨p, hp, hp5⟩

theorem rs_select_fails_iff_witness :
    (1 < 3 ∧ (∀ b ∈ [4, 3], b < 243) ∧ 5 * [4, 3].length < 2 ^ 64) ∧
    ∃ d, rs_support.build 1 ⟨[4, 3], 7⟩ = Except.ok d ∧
      ∀ n, ((∃ e, rs_support.select 1 d n = Except.error e) ↔ d.get_num_target_trits ≤ n) ∧
        (d.get_num_target_trits ≤ n →
          rs_support.select 1 d n = Except.error Err.assertion) ∧
        (n < d.get_num_target_trits →
          ∃ p, rs_support.select 1 d n = Except.ok p ∧ p < 5 * [4, 3].length) :=
  ⟨⟨by decide, by decide, by decide⟩,
    rs_select_fails_iff 1 (by decide) ⟨[4, 3], 7⟩ (by decide) (by decide)⟩

/-- C13: for every target `t < 3`, every well-formed trit vector and every `b < N`: if `b`
    is a multiple of 65550 then `rank(b) = large_blocks[b/65550]`, and if `b` is a multiple
    of 50 then `rank(b) = large_blocks[b/65550] + small_blocks[b/50]`. -/
theorem rs_rank_at_block_boundary (t : Nat) (ht : t < 3) (vec : trit_vector)
    (hwf : well_formed vec) (b : Nat) (hbN : b < vec.m_num_trits) :
    ∃ d r lb sb, rs_support.build t vec = Except.ok d ∧
      rs_support.rank t d b = Except.ok r ∧
      d.m_large_blocks[b / TRITS_PER_LB]? = some lb ∧
      d.m_small_blocks[b / TRITS_PER_SB]? = some sb ∧
      (b % TRITS_PER_LB = 0 → r = lb) ∧ (b % TRITS_PER_SB = 0 → r = lb + sb) := by
  obtain ⟨hW, hN⟩ := well_formed_size hwf
  have hb := hwf.1
  rw [TRITS_PER_LB_eq, TRITS_PER_SB_eq]
  have hmono : occ t vec.m_trytes (65550 * (b / 50 / 1311)) ≤
      occ t vec.m_trytes (50 * (b / 50)) := occ_mono _ _ (by omega)
  refine ⟨_, _, _, _, rs_build_eq ht hW hb, rs_rank_eq ht hW hb hN hbN,
    lb_list_getElem? t _ (by omega), sb_list_getElem? t _ (by omega), ?_, ?_⟩
  · intro h
    have e : 65550 * (b / 65550) = b := by omega
    rw [e]
  · intro h
    have e1 : 50 * (b / 50) = b := by omega
    have e2 : b / 50 / 1311 = b / 65550 := by omega
    rw [e1, e2] at hmono ⊢
    omega

theorem rs_rank_at_block_boundary_witness :
    (1 < 3 ∧ well_formed ⟨[4, 3, 4, 3, 4, 3, 4, 3, 4, 3, 1], 51⟩ ∧ 50 < 51) ∧
    ∃ d r lb sb,
      rs_support.build 1 ⟨[4, 3, 4, 3, 4, 3, 4, 3, 4, 3, 1], 51⟩ = Except.ok d ∧
      rs_support.rank 1 d 50 = Except.ok r ∧
      d.m_large_blocks[50 / TRITS_PER_LB]? = some lb ∧
      d.m_small_blocks[50 / TRITS_PER_SB]? = some sb ∧
      (50 % TRITS_PER_LB = 0 → r = lb) ∧ (50 % TRITS_PER_SB = 0 → r = lb + sb) :=
  ⟨⟨by decide, by decide, by decide⟩,
    rs_rank_at_block_boundary 1 (by decide) ⟨[4, 3, 4, 3, 4, 3, 4, 3, 4, 3, 1], 51⟩
      (by decide) 50 (by decide)⟩

theorem lb_list_lt (t : Nat) (bytes : List Nat) :
    ∀ x ∈ lb_list t bytes ((bytes.length + 13109) / 13110), x ≤ 5 * bytes.length := by
  intro x hx
  simp only [lb_list, List.mem_map, List.mem_range] at hx
  obtain ⟨l, hl, rfl⟩ := hx
  have := occ_le t bytes (65550 * l)
  omega

theorem sb_list_lt (t : Nat) (bytes : List Nat) (n : Nat) :
    ∀ x ∈ sb_list t bytes n, x < 2 ^ 16 := by
  intro x hx
  simp only [sb_list, List.mem_map, List.mem_range] at hx
  obtain ⟨s, _, rfl⟩ := hx
  have := occ_le_add t bytes (show 65550 * (s / 1311) ≤ 50 * s by omega)
  omega

/-- Reading back the saved directory of `build` into any directory gives the built
    directory with the vector pointer of the receiving directory. -/
theorem rs_load_save_built (t : Nat) (vec : trit_vector)
    (hW : 5 * vec.m_trytes.length < 2 ^ 64) (d0 : rs_support) :
    rs_support.load d0
      { data := rs_support.save
          { m_vec := some vec,
            m_large_blocks := lb_list t vec.m_trytes ((vec.m_trytes.length + 13109) / 13110),
            m_small_blocks := sb_list t vec.m_trytes ((vec.m_trytes.length + 9) / 10),
            m_num_target_trits := occ t vec.m_trytes (5 * vec.m_trytes.length) } [],
        fail := false } =
      ({ m_vec := d0.m_vec,
         m_large_blocks := lb_list t vec.m_trytes ((vec.m_trytes.length + 13109) / 13110),
         m_small_blocks := sb_list t vec.m_trytes ((vec.m_trytes.length + 9) / 10),
         m_num_target_trits := occ t vec.m_trytes (5 * vec.m_trytes.length) },
       { data := [], fail := false }) := by
  have hM := occ_le t vec.m_trytes (5 * vec.m_trytes.length)
  have h := rs_load_save
    { m_vec := some vec,
      m_large_blocks := lb_list t vec.m_trytes ((vec.m_trytes.length + 13109) / 13110),
      m_small_blocks := sb_list t vec.m_trytes ((vec.m_trytes.length + 9) / 10),
      m_num_target_trits := occ t vec.m_trytes (5 * vec.m_trytes.length) } d0 []
    (by simp only [lb_list_length]; omega) (by simp only [sb_list_length]; omega)
    (fun x hx => by have := lb_list_lt t vec.m_trytes x hx; omega)
    (sb_list_lt t vec.m_trytes _) (by simp only; omega)
  rw [List.append_nil] at h
  exact h

/-- C14: for every directory `d` built over a vector `V` (bytes below 243, `N ≤ 5·|bytes|`,
    slot positions fitting `uint64_t`): writing `d` with `save` and reading the written
    bytes back with `load` into a directory bound to `V` consumes exactly the written bytes
    and yields a directory with the same large blocks, small blocks and target count, still
    bound to `V`, which returns the same `rank(i)` for every `i < N` and the same
    `select(n)` for every `n < M` as `d`. -/
theorem rs_save_load_roundtrip (t : Nat) (ht : t < 3) (vec : trit_vector)
    (hb : ∀ b ∈ vec.m_trytes, b < 243) (hN : vec.m_num_trits ≤ 5 * vec.m_trytes.length)
    (hW : 5 * vec.m_trytes.length < 2 ^ 64) (d0 : rs_support) (hbound : d0.m_vec = some vec) :
    ∃ d, rs_support.build t vec = Except.ok d ∧
      (rs_support.load d0 { data := rs_support.save d [], fail := false }).2 =
        { data := [], fail := false } ∧
      (rs_support.load d0 { data := rs_support.save d [], fail := false }).1.m_vec =
        some vec ∧
      (rs_support.load d0 { data := rs_support.save d [], fail := false }).1.m_large_blocks =
        d.m_large_blocks ∧
      (rs_support.load d0 { data := rs_support.save d [], fail := false }).1.m_small_blocks =
        d.m_small_blocks ∧
      (rs_support.load d0
          { data := rs_support.save d [], fail := false }).1.m_num_target_trits =
        d.m_num_target_trits ∧
      (∀ i, i < vec.m_num_trits →
        ∃ r, rs_support.rank t d i = Except.ok r ∧
          rs_support.rank t
            (rs_support.load d0 { data := rs_support.save d [], fail := false }).1 i =
            Except.ok r) ∧
      (∀ n, n < d.m_num_target_trits →
        ∃ p, rs_support.select t d n = Except.ok p ∧
          rs_support.select t
            (rs_support.load d0 { data := rs_support.save d [], fail := false }).1 n =
            Except.ok p) := by
  refine ⟨_, rs_build_eq ht hW hb, ?_⟩
  rw [rs_load_save_built t vec hW d0, hbound]
  refine ⟨rfl, rfl, rfl, rfl, rfl, ?_, ?_⟩
  · intro i hi
    exact ⟨_, rs_rank_eq ht hW hb hN hi, rs_rank_eq ht hW hb hN hi⟩
  · intro n hn
    obtain ⟨p, hp, _⟩ := rs_select_spec ht hW hb hn
    exact ⟨p, hp, hp⟩

theorem rs_save_load_roundtrip_witness :
    (1 < 3 ∧ (∀ b ∈ [4, 3], b < 243) ∧ 7 ≤ 5 * [4, 3].length ∧ 5 * [4, 3].length < 2 ^ 64 ∧
      (rs_support.set_vector rs_support.fresh ⟨[4, 3], 7⟩).m_vec = some ⟨[4, 3], 7⟩) ∧
    ∃ d, rs_support.build 1 ⟨[4, 3], 7⟩ = Except.ok d ∧
      (rs_support.load (rs_support.set_vector rs_support.fresh ⟨[4, 3], 7⟩)
        { data := rs_support.save d [], fail := false }).2 = { data := [], fail := false } ∧
      (rs_support.load (rs_support.set_vector rs_support.fresh ⟨[4, 3], 7⟩)
        { data := rs_support.save d [], fail := false }).1.m_vec = some ⟨[4, 3], 7⟩ ∧
      (rs_support.load (rs_support.set_vector rs_support.fresh ⟨[4, 3], 7⟩)
        { data := rs_support.save d [], fail := false }).1.m_large_blocks =
          d.m_large_blocks ∧
      (rs_support.load (rs_support.set_vector rs_support.fresh ⟨[4, 3], 7⟩)
        { data := rs_support.save d [], fail := false }).1.m_small_blocks =
          d.m_small_blocks ∧
      (rs_support.load (rs_support.set_vector rs_support.fresh ⟨[4, 3], 7⟩)
        { data := rs_support.save d [], fail := false }).1.m_num_target_trits =
          d.m_num_target_trits ∧
      (∀ i, i < 7 →
        ∃ r, rs_support.rank 1 d i = Except.ok r ∧
          rs_support.rank 1
            (rs_support.load (rs_support.set_vector rs_support.fresh ⟨[4, 3], 7⟩)
              { data := rs_support.save d [], fail := false }).1 i = Except.ok r) ∧
      (∀ n, n < d.m_num_target_trits →
        ∃ p, rs_support.select 1 d n = Except.ok p ∧
          rs_support.select 1
            (rs_support.load (rs_support.set_vector rs_support.fresh ⟨[4, 3], 7⟩)
              { data := rs_support.save d [], fail := false }).1 n = Except.ok p) :=
  ⟨⟨by decide, by decide, by decide, by decide, rfl⟩,
    rs_save_load_roundtrip 1 (by decide) ⟨[4, 3], 7⟩ (by decide) (by decide) (by decide)
      (rs_support.set_vector rs_support.fresh ⟨[4, 3], 7⟩) rfl⟩

/-- C15, the claim fails on the directory built for target 1 over the one-byte vector `[4]`:
    `rank(0)` and `select(0)` succeed on it, but after `load` of its saved bytes into a
    freshly constructed directory the vector pointer is still null and `rank(0)` and
    `select(0)` fail the assertion `m_vec != nullptr`. -/
theorem rs_load_unbound_counterexample :
    ∃ d, rs_support.build 1 ⟨[4], 5⟩ = Except.ok d ∧
      rs_support.rank 1 d 0 = Except.ok 0 ∧ rs_support.select 1 d 0 = Except.ok 0 ∧
      (rs_support.load rs_support.fresh
        { data := rs_support.save d [], fail := false }).1.m_vec = none ∧
      rs_support.rank 1 (rs_support.load rs_support.fresh
        { data := rs_support.save d [], fail := false }).1 0 =
          Except.error Err.assertion ∧
      rs_support.select 1 (rs_support.load rs_support.fresh
        { data := rs_support.save d [], fail := false }).1 0 =
          Except.error Err.assertion := by
  refine ⟨⟨some ⟨[4], 5⟩, [0], [0], 2⟩, ?_, ?_, ?_, rfl, rfl, rfl⟩
  · set_option maxRecDepth 100000 in rfl
  · set_option maxRecDepth 100000 in rfl
  · set_option maxRecDepth 100000 in rfl

/-- C15, amended: `load` restores the large blocks, the small blocks and the target count
    and leaves the reference to the trit vector as it was: after `load` on a freshly
    constructed directory the reference is still null, so `rank` and `select` fail their
    assertion `m_vec != nullptr` for every argument; after a following `set_vector(V)` the
    directory is the saved one. -/
theorem rs_load_keeps_vector (t : Nat) (ht : t < 3) (vec : trit_vector)
    (hb : ∀ b ∈ vec.m_trytes, b < 243) (hW : 5 * vec.m_trytes.length < 2 ^ 64) :
    ∃ d, rs_support.build t vec = Except.ok d ∧
      (∀ (d0 : rs_support) (is : istream), (rs_support.load d0 is).1.m_vec = d0.m_vec) ∧
      (rs_support.load rs_support.fresh
        { data := rs_support.save d [], fail := false }).1.m_vec = none ∧
      (∀ i, rs_support.rank t (rs_support.load rs_support.fresh
        { data := rs_support.save d [], fail := false }).1 i =
          Except.error Err.assertion) ∧
      (∀ n, rs_support.select t (rs_support.load rs_support.fresh
        { data := rs_support.save d [], fail := false }).1 n =
          Except.error Err.assertion) ∧
      rs_support.set_vector (rs_support.load rs_support.fresh
        { data := rs_support.save d [], fail := false }).1 vec = d := by
  refine ⟨_, rs_build_eq ht hW hb, fun _ _ => rfl, ?_⟩
  rw [rs_load_save_built t vec hW rs_support.fresh]
  exact ⟨rfl, fun _ => rfl, fun _ => rfl, rfl⟩

theorem rs_load_keeps_vector_witness :
    (1 < 3 ∧ (∀ b ∈ [4, 3], b < 243) ∧ 5 * [4, 3].length < 2 ^ 64) ∧
    ∃ d, rs_support.build 1 ⟨[4, 3], 7⟩ = Except.ok d ∧
      (∀ (d0 : rs_support) (is : istream), (rs_support.load d0 is).1.m_vec = d0.m_vec) ∧
      (rs_support.load rs_support.fresh
        { data := rs_support.save d [], fail := false }).1.m_vec = none ∧
      (∀ i, rs_support.rank 1 (rs_support.load rs_support.fresh
        { data := rs_support.save d [], fail := false }).1 i =
          Except.error Err.assertion) ∧
      (∀ n, rs_support.select 1 (rs_support.load rs_support.fresh
        { data := rs_support.save d [], fail := false }).1 n =
          Except.error Err.assertion) ∧
      rs_support.set_vector (rs_support.load rs_support.fresh
        { data := rs_support.save d [], fail := false }).1 ⟨[4, 3], 7⟩ = d :=
  ⟨⟨by decide, by decide, by decide⟩,
    rs_load_keeps_vector 1 (by decide) ⟨[4, 3], 7⟩ (by decide) (by decide)⟩

/-- C16: after `rs_support<t>::build` over a byte sequence with all bytes below 243 (slot
    positions fitting `uint64_t`): for every valid index `l`, `large_blocks[l]` is the number
    of occurrences of `t` among the decoded trits `[0, l·65550)`; and for every valid index
    `s`, `small_blocks[s]` is the number of occurrences of `t` among the decoded trits
    `[⌊s/1311⌋·65550, s·50)`. -/
theorem rs_build_block_entries (t : Nat) (ht : t < 3) (vec : trit_vector)
    (hb : ∀ b ∈ vec.m_trytes, b < 243) (hW : 5 * vec.m_trytes.length < 2 ^ 64) :
    ∃ d, rs_support.build t vec = Except.ok d ∧
      (∀ l, l < d.m_large_blocks.length →
        d.m_large_blocks[l]? = some (occ_between t vec.m_trytes 0 (l * TRITS_PER_LB))) ∧
      (∀ s, s < d.m_small_blocks.length →
        d.m_small_blocks[s]? =
          some (occ_between t vec.m_trytes (s / LB_PER_SB * TRITS_PER_LB)
            (s * TRITS_PER_SB))) := by
  refine ⟨_, rs_build_eq ht hW hb, ?_, ?_⟩
  · intro l hl
    simp only [lb_list_length] at hl
    rw [lb_list_getElem? t _ hl, occ_between_zero, TRITS_PER_LB_eq, Nat.mul_comm]
  · intro s hs
    simp only [sb_list_length] at hs
    rw [sb_list_getElem? t _ hs, TRITS_PER_LB_eq, TRITS_PER_SB_eq, LB_PER_SB_eq,
      occ_between_eq t _ (show s / 1311 * 65550 ≤ s * 50 by omega), Nat.mul_comm 50 s,
      Nat.mul_comm 65550 (s / 1311)]

theorem rs_build_block_entries_witness :
    (1 < 3 ∧ (∀ b ∈ [4, 3, 4, 3, 4, 3, 4, 3, 4, 3, 1], b < 243) ∧
      5 * [4, 3, 4, 3, 4, 3, 4, 3, 4, 3, 1].length < 2 ^ 64) ∧
    ∃ d, rs_support.build 1 ⟨[4, 3, 4, 3, 4, 3, 4, 3, 4, 3, 1], 51⟩ = Except.ok d ∧
      (∀ l, l < d.m_large_blocks.length →
        d.m_large_blocks[l]? =
          some (occ_between 1 [4, 3, 4, 3, 4, 3, 4, 3, 4, 3, 1] 0 (l * TRITS_PER_LB))) ∧
      (∀ s, s < d.m_small_blocks.length →
        d.m_small_blocks[s]? =
          some (occ_between 1 [4, 3, 4, 3, 4, 3, 4, 3, 4, 3, 1]
            (s / LB_PER_SB * TRITS_PER_LB) (s * TRITS_PER_SB))) :=
  ⟨⟨by decide, by decide, by decide⟩,
    rs_build_block_entries 1 (by decide) ⟨[4, 3, 4, 3, 4, 3, 4, 3, 4, 3, 1], 51⟩
      (by decide) (by decide)⟩

/-- C17: for every target `t < 3`, every `k < 5` and every `v < 243`, the table entry
    `rs_support<t>::LUT[k][v]` is the number of `j` in `[0, k+1)` with
    `⌊v / 3^j⌋ mod 3 = t`, and the entry `rank_support<t>::LUT[v]` is that number for
    `k = 4`; the tables have 5 rows of 243 entries, respectively 243 entries. -/
theorem lut_entries (t k v : Nat) (ht : t < 3) (hk : k < 5) (hv : v < 243) :
    rs_support.lut t k v = Except.ok (tcount t (k + 1) v) ∧
      rank_support.lut t v = Except.ok (tcount t (4 + 1) v) ∧
      (rs_support.LUT t).map List.length = [243, 243, 243, 243, 243] ∧
      (rank_support.LUT t).length = 243 := by
  refine ⟨rs_lut_eq ht hk hv, rank_lut_eq ht hv, ?_, ?_⟩
  · have e : (List.length ∘ fun k => (List.range 243).map (fun v => tcount t (k + 1) v)) =
        fun _ => 243 := by
      funext k
      simp only [Function.comp, List.length_map, List.length_range]
    rw [LUT_eq ht, List.map_map, e]
    rfl
  · rw [rank_LUT_eq ht, List.length_map, List.length_range]

theorem lut_entries_witness :
    (2 < 3 ∧ 3 < 5 ∧ 242 < 243) ∧
    (rs_support.lut 2 3 242 = Except.ok (tcount 2 (3 + 1) 242) ∧
      rank_support.lut 2 242 = Except.ok (tcount 2 (4 + 1) 242) ∧
      (rs_support.LUT 2).map List.length = [243, 243, 243, 243, 243] ∧
      (rank_support.LUT 2).length = 243) :=
  ⟨⟨by decide, by decide, by decide⟩, lut_entries 2 3 242 (by decide) (by decide) (by decide)⟩

/-- C18, the claim fails at target 1 on the one-byte vector `[4]` (trits 1, 1, 0, 0, 0):
    the total count is 2 while the last (and only) large-block entry is 0. -/
theorem rs_total_vs_last_block_counterexample :
    ∃ d, rs_support.build 1 ⟨[4], 5⟩ = Except.ok d ∧ d.get_num_target_trits = 2 ∧
      d.m_large_blocks = [0] ∧ d.m_large_blocks.getLast? = some 0 := by
  refine ⟨⟨some ⟨[4], 5⟩, [0], [0], 2⟩, ?_, rfl, rfl, rfl⟩
  set_option maxRecDepth 100000 in rfl

/-- C18, amended: after build over a non-empty byte sequence (all bytes below 243), the
    large-block array is non-empty and the total count `get_num_target_trits()` is its last
    entry plus the number of targets among the slots of the last large block, from slot
    `(|LB| - 1)·65550` to the last slot; so the last entry is at most the total, and equals
    it only when the last large block holds no target. -/
theorem rs_total_vs_last_block (t : Nat) (ht : t < 3) (vec : trit_vector)
    (hb : ∀ b ∈ vec.m_trytes, b < 243) (hW : 5 * vec.m_trytes.length < 2 ^ 64)
    (hne : 0 < vec.m_trytes.length) :
    ∃ d last, rs_support.build t vec = Except.ok d ∧
      d.m_large_blocks.getLast? = some last ∧
      d.get_num_target_trits = last +
        occ_between t vec.m_trytes ((d.m_large_blocks.length - 1) * TRITS_PER_LB)
          (5 * vec.m_trytes.length) ∧
      last ≤ d.get_num_target_trits := by
  have hlen : (vec.m_trytes.length + 13109) / 13110 - 1 < (vec.m_trytes.length + 13109) / 13110 := by
    omega
  have hle : ((vec.m_trytes.length + 13109) / 13110 - 1) * 65550 ≤ 5 * vec.m_trytes.length := by
    omega
  have hmono := occ_mono t vec.m_trytes hle
  refine ⟨_, occ t vec.m_trytes (((vec.m_trytes.length + 13109) / 13110 - 1) * 65550),
    rs_build_eq ht hW hb, ?_, ?_, ?_⟩
  · rw [List.getLast?_eq_getElem?, lb_list_length, lb_list_getElem? t _ hlen, Nat.mul_comm]
  · simp only [rs_support.get_num_target_trits, lb_list_length, TRITS_PER_LB_eq]
    rw [occ_between_eq t _ hle]
    omega
  · exact hmono

theorem rs_total_vs_last_block_witness :
    (1 < 3 ∧ (∀ b ∈ [4, 3], b < 243) ∧ 5 * [4, 3].length < 2 ^ 64 ∧ 0 < [4, 3].length) ∧
    ∃ d last, rs_support.build 1 ⟨[4, 3], 7⟩ = Except.ok d ∧
      d.m_large_blocks.getLast? = some last ∧
      d.get_num_target_trits = last +
        occ_between 1 [4, 3] ((d.m_large_blocks.length - 1) * TRITS_PER_LB)
          (5 * [4, 3].length) ∧
      last ≤ d.get_num_target_trits :=
  ⟨⟨by decide, by decide, by decide, by decide⟩,
    rs_total_vs_last_block 1 (by decide) ⟨[4, 3], 7⟩ (by decide) (by decide) (by decide)⟩

/-- C19: after `rs_support<t>::build` over a byte sequence of `B` bytes, all below 243 (slot
    positions fitting `uint64_t`), `get_num_target_trits()` is the number of slots
    `p < 5·B` whose decoded trit equals `t`; hence, for every `N ≤ 5·B` such that the slots
    from `N` on are zero, it is the count of `t` among the first `N` trits for `t` in
    `{1, 2}` and that count plus `5·B - N` for `t = 0`. -/
theorem rs_total_over_padded (t : Nat) (ht : t < 3) (vec : trit_vector)
    (hb : ∀ b ∈ vec.m_trytes, b < 243) (hW : 5 * vec.m_trytes.length < 2 ^ 64) :
    ∃ d, rs_support.build t vec = Except.ok d ∧
      d.get_num_target_trits = occ_between t vec.m_trytes 0 (5 * vec.m_trytes.length) ∧
      ∀ N, N ≤ 5 * vec.m_trytes.length →
        (∀ p, p < 5 * vec.m_trytes.length → N ≤ p → slot vec.m_trytes p = some 0) →
        d.get_num_target_trits = occ_between t vec.m_trytes 0 N +
          (if t = 0 then 5 * vec.m_trytes.length - N else 0) := by
  refine ⟨_, rs_build_eq ht hW hb, ?_, ?_⟩
  · rw [occ_between_zero]
    rfl
  · intro N hN hpad
    have := occ_padding (t := t) hpad (5 * vec.m_trytes.length - N) (by omega)
    have e : N + (5 * vec.m_trytes.length - N) = 5 * vec.m_trytes.length := by omega
    rw [e] at this
    rw [occ_between_zero]
    exact this

theorem rs_total_over_padded_witness :
    (0 < 3 ∧ (∀ b ∈ [4, 3], b < 243) ∧ 5 * [4, 3].length < 2 ^ 64) ∧
    ∃ d, rs_support.build 0 ⟨[4, 3], 7⟩ = Except.ok d ∧
      d.get_num_target_trits = occ_between 0 [4, 3] 0 (5 * [4, 3].length) ∧
      ∀ N, N ≤ 5 * [4, 3].length →
        (∀ p, p < 5 * [4, 3].length → N ≤ p → slot [4, 3] p = some 0) →
        d.get_num_target_trits = occ_between 0 [4, 3] 0 N +
          (if 0 = 0 then 5 * [4, 3].length - N else 0) :=
  ⟨⟨by decide, by decide, by decide⟩,
    rs_total_over_padded 0 (by decide) ⟨[4, 3], 7⟩ (by decide) (by decide)⟩

/-- C20, the claim fails on the one-byte vector `[4]`: `B = 1`, so the claim asks for
    `⌈1/13110⌉ + 1 = 2` large-block and `⌈1/10⌉ + 1 = 2` small-block entries, but build
    leaves one entry in each array. -/
theorem rs_block_counts_counterexample :
    ∃ d, rs_support.build 1 ⟨[4], 5⟩ = Except.ok d ∧
      d.m_large_blocks.length = 1 ∧ d.m_small_blocks.length = 1 ∧
      ([4].length + TRYTES_PER_LB - 1) / TRYTES_PER_LB + 1 = 2 ∧
      ([4].length + TRYTES_PER_SB - 1) / TRYTES_PER_SB + 1 = 2 := by
  refine ⟨⟨some ⟨[4], 5⟩, [0], [0], 2⟩, ?_, rfl, rfl, by decide, by decide⟩
  set_option maxRecDepth 100000 in rfl

/-- C20, amended: after build over a byte sequence of `B` bytes (all below 243), the
    large-block array holds `⌈B/13110⌉` entries and the small-block array holds `⌈B/10⌉`
    entries, one per block that contains a byte, with no boundary element after them (both
    arrays are empty for `B = 0`). -/
theorem rs_block_counts (t : Nat) (ht : t < 3) (vec : trit_vector)
    (hb : ∀ b ∈ vec.m_trytes, b < 243) (hW : 5 * vec.m_trytes.length < 2 ^ 64) :
    ∃ d, rs_support.build t vec = Except.ok d ∧
      d.m_large_blocks.length =
        (vec.m_trytes.length + TRYTES_PER_LB - 1) / TRYTES_PER_LB ∧
      d.m_small_blocks.length =
        (vec.m_trytes.length + TRYTES_PER_SB - 1) / TRYTES_PER_SB := by
  refine ⟨_, rs_build_eq ht hW hb, ?_, ?_⟩
  · simp only [lb_list_length, TRYTES_PER_LB_eq]
    omega
  · simp only [sb_list_length, TRYTES_PER_SB_eq]
    omega

theorem rs_block_counts_witness :
    (1 < 3 ∧ (∀ b ∈ [4, 3, 4, 3, 4, 3, 4, 3, 4, 3, 1], b < 243) ∧
      5 * [4, 3, 4, 3, 4, 3, 4, 3, 4, 3, 1].length < 2 ^ 64) ∧
    ∃ d, rs_support.build 1 ⟨[4, 3, 4, 3, 4, 3, 4, 3, 4, 3, 1], 51⟩ = Except.ok d ∧
      d.m_large_blocks.length =
        ([4, 3, 4, 3, 4, 3, 4, 3, 4, 3, 1].length + TRYTES_PER_LB - 1) / TRYTES_PER_LB ∧
      d.m_small_blocks.length =
        ([4, 3, 4, 3, 4, 3, 4, 3, 4, 3, 1].length + TRYTES_PER_SB - 1) / TRYTES_PER_SB :=
  ⟨⟨by decide, by decide, by decide⟩,
    rs_block_counts 1 (by decide) ⟨[4, 3, 4, 3, 4, 3, 4, 3, 4, 3, 1], 51⟩
      (by decide) (by decide)⟩

/-! ## The stages of `select` -/

/-- Either bisection of `select` over a vector tabulating a function `f` that is
    non-decreasing on the window: whatever the iteration budget, as long as it covers the
    window, the loop ends on the largest index of the window whose entry is at most `n`. -/
theorem select_bisect_largest (f : Nat → Nat) (len n R : Nat) (hlen : 2 * len < 2 ^ 64)
    (hR : R ≤ len) (left : Nat) (h1 : left < R) (h3 : f left ≤ n)
    (hmono : ∀ a b, left ≤ a → a ≤ b → b < R → f a ≤ f b) :
    ∃ l, left ≤ l ∧ l < R ∧ f l ≤ n ∧ (l + 1 < R → n < f (l + 1)) ∧
      (∀ k, left ≤ k → k < R → f k ≤ n → k ≤ l) ∧
      ∀ fuel, R - left ≤ fuel + 1 →
        select_bisect ((List.range len).map f) n fuel left R = Except.ok l := by
  have hspec := fun fuel (hf : R - left ≤ fuel + 1) =>
    select_bisect_spec f len n R hlen hR fuel left R h1 (le_refl _) h3
      (fun h => absurd h (lt_irrefl _)) hf
  have hmax : ∀ l, left ≤ l → (l + 1 < R → n < f (l + 1)) →
      ∀ k, left ≤ k → k < R → f k ≤ n → k ≤ l := by
    intro l hl hup k _ hkR hk
    by_contra hcon
    have h2 := hmono (l + 1) k (by omega) (by omega) hkR
    have h4 := hup (by omega)
    omega
  obtain ⟨l, _, q2, q3, q4, q5⟩ := hspec (R - left) (by omega)
  refine ⟨l, q2, q3, q4, q5, hmax l q2 q5, ?_⟩
  intro fuel hf
  obtain ⟨l2, p1, p2, p3, p4, p5⟩ := hspec fuel hf
  have e1 : l2 ≤ l := hmax l q2 q5 l2 p2 p3 p4
  have e2 : l ≤ l2 := hmax l2 p2 p5 l q2 q3 q4
  have e : l2 = l := by omega
  rw [← e]
  exact p1

/-- The tryte scan of `select` within a budget of `fuel` trytes: if occurrence `n` lies
    among the `fuel` trytes from `i` on, the scan stops on one of them. -/
theorem select_scan_bounded {t : Nat} (ht : t < 3) {bytes : List Nat}
    (hW : 5 * bytes.length < 2 ^ 64) (hb : ∀ b ∈ bytes, b < 243) {n : Nat}
    (hn : n < occ t bytes (5 * bytes.length)) :
    ∀ (fuel i : Nat), occ t bytes (5 * i) ≤ n → n < occ t bytes (5 * (i + fuel)) →
      ∃ j, select_scan (rs_support.lut t 4) bytes fuel i (n - occ t bytes (5 * i) + 1) =
          Except.ok (j, n - occ t bytes (5 * j) + 1) ∧
        i ≤ j ∧ j < i + fuel ∧ j < bytes.length ∧ occ t bytes (5 * j) ≤ n ∧
        n < occ t bytes (5 * (j + 1)) := by
  intro fuel
  induction fuel with
  | zero => intro i h1 h2; simp only [Nat.add_zero] at h2; omega
  | succ fuel ih =>
    intro i h1 h2
    have hib : i < bytes.length := by
      by_contra hcon
      have := occ_mono t bytes (show 5 * bytes.length ≤ 5 * i by omega)
      omega
    have hget : bytes[i]? = some bytes[i] := List.getElem?_eq_getElem hib
    have hb243 : bytes[i] < 243 := hb _ (List.getElem_mem hib)
    have hnext : occ t bytes (5 * (i + 1)) = occ t bytes (5 * i) + tcount t 5 bytes[i] := by
      have := occ_tryte t hget 5 (le_refl 5)
      rw [← this, Nat.mul_add]
    unfold select_scan
    simp only [rd_of_lt hib, rs_lut_eq ht (show 4 < 5 by omega) hb243]
    by_cases hc : n - occ t bytes (5 * i) + 1 ≤ tcount t 5 bytes[i]
    · simp only [hc, if_true]
      exact ⟨i, rfl, le_refl _, by omega, hib, h1, by omega⟩
    · simp only [hc, if_false]
      have hi1 : (i + 1) % 2 ^ 64 = i + 1 := Nat.mod_eq_of_lt (by omega)
      have hle : occ t bytes (5 * (i + 1)) ≤ n := by omega
      have e : n - occ t bytes (5 * i) + 1 - tcount t 5 bytes[i] =
          n - occ t bytes (5 * (i + 1)) + 1 := by omega
      have e2 : i + (fuel + 1) = i + 1 + fuel := by omega
      rw [hi1, e]
      rw [e2] at h2
      obtain ⟨j, q1, q2, q3, q4, q5, q6⟩ := ih (i + 1) hle h2
      exact ⟨j, q1, by omega, by omega, q4, q5, q6⟩

theorem lb_list_entry {t : Nat} {bytes : List Nat} {n k x : Nat}
    (h : (lb_list t bytes n)[k]? = some x) : k < n ∧ x = occ t bytes (65550 * k) := by
  by_cases hk : k < n
  · rw [lb_list_getElem? t bytes hk] at h
    simp only [Option.some.injEq] at h
    exact ⟨hk, h.symm⟩
  · rw [List.getElem?_eq_none (by rw [lb_list_length]; omega)] at h
    cases h

theorem sb_list_entry {t : Nat} {bytes : List Nat} {n k x : Nat}
    (h : (sb_list t bytes n)[k]? = some x) :
    k < n ∧ x = occ t bytes (50 * k) - occ t bytes (65550 * (k / 1311)) := by
  by_cases hk : k < n
  · rw [sb_list_getElem? t bytes hk] at h
    simp only [Option.some.injEq] at h
    exact ⟨hk, h.symm⟩
  · rw [List.getElem?_eq_none (by rw [sb_list_length]; omega)] at h
    cases h

/-- The three stages of `select(n)` on the vectors `build` leaves, for `n` below the total:
    the large block `l`, the small block `s` and the tryte `j` on which they end, with the
    iteration budgets under which they end there. -/
theorem rs_select_stages {t : Nat} (ht : t < 3) {bytes : List Nat}
    (hW : 5 * bytes.length < 2 ^ 64) (hb : ∀ b ∈ bytes, b < 243) {n : Nat}
    (hn : n < occ t bytes (5 * bytes.length)) :
    ∃ l s j,
      l < (bytes.length + 13109) / 13110 ∧ occ t bytes (65550 * l) ≤ n ∧
      (∀ k, k < (bytes.length + 13109) / 13110 → occ t bytes (65550 * k) ≤ n → k ≤ l) ∧
      (∀ fuel, (bytes.length + 13109) / 13110 ≤ fuel + 1 →
        select_bisect (lb_list t bytes ((bytes.length + 13109) / 13110)) n fuel 0
          ((bytes.length + 13109) / 13110) = Except.ok l) ∧
      1311 * l ≤ s ∧ s < min (1311 * l + 1311) ((bytes.length + 9) / 10) ∧
      occ t bytes (50 * s) - occ t bytes (65550 * (s / 1311)) ≤ n - occ t bytes (65550 * l) ∧
      (∀ k, 1311 * l ≤ k → k < min (1311 * l + 1311) ((bytes.length + 9) / 10) →
        occ t bytes (50 * k) - occ t bytes (65550 * (k / 1311)) ≤
          n - occ t bytes (65550 * l) → k ≤ s) ∧
      (∀ fuel, min (1311 * l + 1311) ((bytes.length + 9) / 10) - 1311 * l ≤ fuel + 1 →
        select_bisect (sb_list t bytes ((bytes.length + 9) / 10))
          (n - occ t bytes (65550 * l)) fuel (1311 * l)
          (min (1311 * l + 1311) ((bytes.length + 9) / 10)) = Except.ok s) ∧
      occ t bytes (50 * s) ≤ n ∧ n < occ t bytes (50 * (s + 1)) ∧
      s * 10 ≤ j ∧ j < s * 10 + 10 ∧ j < bytes.length ∧
      occ t bytes (5 * j) ≤ n ∧ n < occ t bytes (5 * (j + 1)) ∧
      (∀ fuel, (10 ≤ fuel ∨ bytes.length - s * 10 < fuel) →
        select_scan (rs_support.lut t 4) bytes fuel (s * 10) (n - occ t bytes (50 * s) + 1) =
          Except.ok (j, n - occ t bytes (5 * j) + 1)) := by
  have hBpos : 0 < bytes.length := by
    rcases Nat.eq_zero_or_pos bytes.length with h | h
    · rw [h] at hn; simp [occ_zero] at hn
    · exact h
  have hocc5B : occ t bytes (5 * bytes.length) ≤ 5 * bytes.length := occ_le _ _ _
  -- stage 1
  obtain ⟨l, _, a2, a3, a4, a5, a6⟩ :=
    select_bisect_largest (fun l => occ t bytes (65550 * l))
      ((bytes.length + 13109) / 13110) n ((bytes.length + 13109) / 13110) (by omega)
      (le_refl _) 0 (by omega) (by simp [occ_zero])
      (fun a b _ hab _ => occ_mono t bytes (by omega))
  -- stage 2
  have hf0 : occ t bytes (50 * (1311 * l)) - occ t bytes (65550 * (1311 * l / 1311)) ≤
      n - occ t bytes (65550 * l) := by
    have e1 : 50 * (1311 * l) = 65550 * l := by omega
    have e2 : 1311 * l / 1311 = l := by omega
    rw [e1, e2]; omega
  obtain ⟨s, b1, b2, b3, b4, b5, b6⟩ :=
    select_bisect_largest
      (fun s => occ t bytes (50 * s) - occ t bytes (65550 * (s / 1311)))
      ((bytes.length + 9) / 10) (n - occ t bytes (65550 * l))
      (min (1311 * l + 1311) ((bytes.length + 9) / 10)) (by omega) (Nat.min_le_right _ _)
      (1311 * l) (by omega) hf0
      (fun a b ha hab hb => by
        have e1 : a / 1311 = l := by omega
        have e2 : b / 1311 = l := by omega
        have := occ_mono t bytes (show 50 * a ≤ 50 * b by omega)
        simp only [e1, e2]
        omega)
  have hsl : s / 1311 = l := by omega
  have hmono : occ t bytes (65550 * l) ≤ occ t bytes (50 * s) := occ_mono _ _ (by omega)
  have hlo : occ t bytes (50 * s) ≤ n := by rw [hsl] at b3; omega
  have hhi : n < occ t bytes (50 * (s + 1)) := by
    by_cases c : s + 1 < min (1311 * l + 1311) ((bytes.length + 9) / 10)
    · have := b4 c
      have e : (s + 1) / 1311 = l := by omega
      rw [e] at this
      omega
    · by_cases c2 : 1311 * l + 1311 < (bytes.length + 9) / 10
      · have e : 50 * (s + 1) = 65550 * (l + 1) := by omega
        rw [e]
        exact a4 (by omega)
      · have := occ_mono t bytes (show 5 * bytes.length ≤ 50 * (s + 1) by omega)
        omega
  -- stage 3
  have e50 : 5 * (s * 10) = 50 * s := by omega
  have hlo5 : occ t bytes (5 * (s * 10)) ≤ n := by rw [e50]; exact hlo
  obtain ⟨j, c1, c2, c3, c4, c5, c6⟩ := select_scan_bounded ht hW hb hn 10 (s * 10) hlo5
    (by
      have e : 5 * (s * 10 + 10) = 50 * (s + 1) := by omega
      rw [e]; exact hhi)
  refine ⟨l, s, j, a2, a3, fun k hk => a5 k (Nat.zero_le _) hk, fun fuel hf => a6 fuel (by omega),
    b1, b2, b3, b5, b6, hlo, hhi, c2, c3, c4, c5, c6, ?_⟩
  intro fuel hf
  have huniq : ∀ j2, occ t bytes (5 * j2) ≤ n → n < occ t bytes (5 * (j2 + 1)) → j2 = j := by
    intro j2 p1 p2
    rcases Nat.lt_trichotomy j2 j with h | h | h
    · have := occ_mono t bytes (show 5 * (j2 + 1) ≤ 5 * j by omega); omega
    · exact h
    · have := occ_mono t bytes (show 5 * (j + 1) ≤ 5 * j2 by omega); omega
  rw [← e50]
  rcases hf with hf | hf
  · obtain ⟨j2, q1, _, _, _, q5, q6⟩ := select_scan_bounded ht hW hb hn fuel (s * 10) hlo5
      (by
        have := occ_mono t bytes (show 50 * (s + 1) ≤ 5 * (s * 10 + fuel) by omega)
        omega)
    rw [← huniq j2 q5 q6]
    exact q1
  · obtain ⟨j2, q1, _, _, q5, q6⟩ := select_scan_spec ht hW hb hn fuel (s * 10) hlo5 hf
    rw [← huniq j2 q5 q6]
    exact q1

/-! ## Order of the block entries, stages of `select` -/

/-- C21: after build over any non-empty byte sequence with all bytes below 243 (slot
    positions fitting `uint64_t`): `LB[0] = 0`, `LB` is non-decreasing over its whole
    length, `SB[1311·l] = 0` for every large block `l`, and `SB` is non-decreasing within
    each span of 1311 consecutive entries `[1311·l, 1311·(l+1))` that share large block
    `l`. -/
theorem rs_blocks_monotone (t : Nat) (ht : t < 3) (vec : trit_vector)
    (hb : ∀ b ∈ vec.m_trytes, b < 243) (hW : 5 * vec.m_trytes.length < 2 ^ 64)
    (hne : 0 < vec.m_trytes.length) :
    ∃ d, rs_support.build t vec = Except.ok d ∧
      d.m_large_blocks[0]? = some 0 ∧
      (∀ (i j x y : Nat), i ≤ j → d.m_large_blocks[i]? = some x → d.m_large_blocks[j]? = some y →
        x ≤ y) ∧
      (∀ l, LB_PER_SB * l < d.m_small_blocks.length →
        d.m_small_blocks[LB_PER_SB * l]? = some 0) ∧
      (∀ (i j x y : Nat), i ≤ j → i / LB_PER_SB = j / LB_PER_SB →
        d.m_small_blocks[i]? = some x → d.m_small_blocks[j]? = some y → x ≤ y) := by
  refine ⟨_, rs_build_eq ht hW hb, ?_, ?_, ?_, ?_⟩
  · rw [lb_list_getElem? t _ (show 0 < (vec.m_trytes.length + 13109) / 13110 by omega)]
    simp [occ_zero]
  · intro i j x y hij hx hy
    obtain ⟨_, rfl⟩ := lb_list_entry hx
    obtain ⟨_, rfl⟩ := lb_list_entry hy
    exact occ_mono _ _ (by omega)
  · intro l hl
    rw [LB_PER_SB_eq] at hl ⊢
    simp only [sb_list_length] at hl
    have e1 : 50 * (1311 * l) = 65550 * l := by omega
    have e2 : 1311 * l / 1311 = l := by omega
    rw [sb_list_getElem? t _ hl, e1, e2, Nat.sub_self]
  · intro i j x y hij hspan hx hy
    rw [LB_PER_SB_eq] at hspan
    obtain ⟨_, rfl⟩ := sb_list_entry hx
    obtain ⟨_, rfl⟩ := sb_list_entry hy
    have := occ_mono t vec.m_trytes (show 50 * i ≤ 50 * j by omega)
    rw [hspan]
    omega

theorem rs_blocks_monotone_witness :
    (1 < 3 ∧ (∀ b ∈ [4, 3, 4, 3, 4, 3, 4, 3, 4, 3, 1], b < 243) ∧
      5 * [4, 3, 4, 3, 4, 3, 4, 3, 4, 3, 1].length < 2 ^ 64 ∧
      0 < [4, 3, 4, 3, 4, 3, 4, 3, 4, 3, 1].length) ∧
    ∃ d, rs_support.build 1 ⟨[4, 3, 4, 3, 4, 3, 4, 3, 4, 3, 1], 51⟩ = Except.ok d ∧
      d.m_large_blocks[0]? = some 0 ∧
      (∀ (i j x y : Nat), i ≤ j → d.m_large_blocks[i]? = some x → d.m_large_blocks[j]? = some y →
        x ≤ y) ∧
      (∀ l, LB_PER_SB * l < d.m_small_blocks.length →
        d.m_small_blocks[LB_PER_SB * l]? = some 0) ∧
      (∀ (i j x y : Nat), i ≤ j → i / LB_PER_SB = j / LB_PER_SB →
        d.m_small_blocks[i]? = some x → d.m_small_blocks[j]? = some y → x ≤ y) :=
  ⟨⟨by decide, by decide, by decide, by decide⟩,
    rs_blocks_monotone 1 (by decide) ⟨[4, 3, 4, 3, 4, 3, 4, 3, 4, 3, 1], 51⟩
      (by decide) (by decide) (by decide)⟩

/-- C22: in `select(n)` with `n < M` on a built directory (bytes below 243, slot positions
    fitting `uint64_t`), the first bisection, run as `select` runs it, terminates with `left`
    the largest index `l < |LB|` with `LB[l] ≤ n`, and the second bisection terminates with
    the largest index `s` in `[1311·l, min(|SB|, 1311·(l+1)))` with `SB[s] ≤ n - LB[l]`;
    a larger iteration budget gives the same indices. -/
theorem rs_select_bisections (t : Nat) (ht : t < 3) (vec : trit_vector)
    (hb : ∀ b ∈ vec.m_trytes, b < 243) (hW : 5 * vec.m_trytes.length < 2 ^ 64) :
    ∃ d, rs_support.build t vec = Except.ok d ∧
      ∀ n, n < d.get_num_target_trits →
        ∃ l lb s sb,
          select_bisect d.m_large_blocks n d.m_large_blocks.length 0
            d.m_large_blocks.length = Except.ok l ∧
          l < d.m_large_blocks.length ∧ d.m_large_blocks[l]? = some lb ∧ lb ≤ n ∧
          (∀ k x, d.m_large_blocks[k]? = some x → x ≤ n → k ≤ l) ∧
          select_bisect d.m_small_blocks (n - lb)
            (min ((l * LB_PER_SB % 2 ^ 64 + LB_PER_SB) % 2 ^ 64) d.m_small_blocks.length -
              l * LB_PER_SB % 2 ^ 64)
            (l * LB_PER_SB % 2 ^ 64)
            (min ((l * LB_PER_SB % 2 ^ 64 + LB_PER_SB) % 2 ^ 64) d.m_small_blocks.length) =
            Except.ok s ∧
          LB_PER_SB * l ≤ s ∧ s < min d.m_small_blocks.length (LB_PER_SB * (l + 1)) ∧
          d.m_small_blocks[s]? = some sb ∧ sb ≤ n - lb ∧
          (∀ k x, LB_PER_SB * l ≤ k →
            k < min d.m_small_blocks.length (LB_PER_SB * (l + 1)) →
            d.m_small_blocks[k]? = some x → x ≤ n - lb → k ≤ s) ∧
          (∀ fuel, d.m_large_blocks.length ≤ fuel →
            select_bisect d.m_large_blocks n fuel 0 d.m_large_blocks.length = Except.ok l) ∧
          (∀ fuel,
            min ((l * LB_PER_SB % 2 ^ 64 + LB_PER_SB) % 2 ^ 64) d.m_small_blocks.length -
              l * LB_PER_SB % 2 ^ 64 ≤ fuel →
            select_bisect d.m_small_blocks (n - lb) fuel (l * LB_PER_SB % 2 ^ 64)
              (min ((l * LB_PER_SB % 2 ^ 64 + LB_PER_SB) % 2 ^ 64)
                d.m_small_blocks.length) = Except.ok s) := by
  refine ⟨_, rs_build_eq ht hW hb, ?_⟩
  intro n hn
  obtain ⟨l, s, j, a1, a2, a3, a4, b1, b2, b3, b4, b5, _⟩ := rs_select_stages ht hW hb hn
  have hl2 : l * LB_PER_SB % 2 ^ 64 = 1311 * l := by
    rw [LB_PER_SB_eq, Nat.mod_eq_of_lt (by omega)]; omega
  have hr2 : (1311 * l + LB_PER_SB) % 2 ^ 64 = 1311 * l + 1311 := by
    rw [LB_PER_SB_eq, Nat.mod_eq_of_lt (by omega)]
  have hsl : s / 1311 = l := by omega
  have hsS : s < (vec.m_trytes.length + 9) / 10 := by omega
  have s1 := a4 ((vec.m_trytes.length + 13109) / 13110) (by omega)
  have s2 := b5 (min (1311 * l + 1311) ((vec.m_trytes.length + 9) / 10) - 1311 * l) (by omega)
  refine ⟨l, occ t vec.m_trytes (65550 * l), s,
    occ t vec.m_trytes (50 * s) - occ t vec.m_trytes (65550 * l),
    ?_, ?_, lb_list_getElem? t _ a1, a2, ?_, ?_, ?_, ?_, ?_, ?_, ?_, ?_, ?_⟩
  · simp only [lb_list_length]; exact s1
  · simp only [lb_list_length]; exact a1
  · intro k x hk hx
    obtain ⟨hk1, rfl⟩ := lb_list_entry hk
    exact a3 k hk1 hx
  · simp only [sb_list_length, hl2, hr2]; exact s2
  · rw [LB_PER_SB_eq]; exact b1
  · simp only [sb_list_length, LB_PER_SB_eq]; omega
  · rw [sb_list_getElem? t _ hsS, hsl]
  · rw [hsl] at b3; exact b3
  · intro k x hk1 hk2 hk hx
    simp only [sb_list_length, LB_PER_SB_eq] at hk1 hk2
    obtain ⟨_, rfl⟩ := sb_list_entry hk
    exact b4 k hk1 (by omega) hx
  · intro fuel hf
    simp only [lb_list_length] at hf ⊢
    exact a4 fuel (by omega)
  · intro fuel hf
    simp only [sb_list_length, hl2, hr2] at hf ⊢
    exact b5 fuel (by omega)

theorem rs_select_bisections_witness :
    (1 < 3 ∧ (∀ b ∈ [4, 3, 4, 3, 4, 3, 4, 3, 4, 3, 1], b < 243) ∧
      5 * [4, 3, 4, 3, 4, 3, 4, 3, 4, 3, 1].length < 2 ^ 64) ∧
    ∃ d, rs_support.build 1 ⟨[4, 3, 4, 3, 4, 3, 4, 3, 4, 3, 1], 51⟩ = Except.ok d ∧
      ∀ n, n < d.get_num_target_trits →
        ∃ l lb s sb,
          select_bisect d.m_large_blocks n d.m_large_blocks.length 0
            d.m_large_blocks.length = Except.ok l ∧
          l < d.m_large_blocks.length ∧ d.m_large_blocks[l]? = some lb ∧ lb ≤ n ∧
          (∀ k x, d.m_large_blocks[k]? = some x → x ≤ n → k ≤ l) ∧
          select_bisect d.m_small_blocks (n - lb)
            (min ((l * LB_PER_SB % 2 ^ 64 + LB_PER_SB) % 2 ^ 64) d.m_small_blocks.length -
              l * LB_PER_SB % 2 ^ 64)
            (l * LB_PER_SB % 2 ^ 64)
            (min ((l * LB_PER_SB % 2 ^ 64 + LB_PER_SB) % 2 ^ 64) d.m_small_blocks.length) =
            Except.ok s ∧
          LB_PER_SB * l ≤ s ∧ s < min d.m_small_blocks.length (LB_PER_SB * (l + 1)) ∧
          d.m_small_blocks[s]? = some sb ∧ sb ≤ n - lb ∧
          (∀ k x, LB_PER_SB * l ≤ k →
            k < min d.m_small_blocks.length (LB_PER_SB * (l + 1)) →
            d.m_small_blocks[k]? = some x → x ≤ n - lb → k ≤ s) ∧
          (∀ fuel, d.m_large_blocks.length ≤ fuel →
            select_bisect d.m_large_blocks n fuel 0 d.m_large_blocks.length = Except.ok l) ∧
          (∀ fuel,
            min ((l * LB_PER_SB % 2 ^ 64 + LB_PER_SB) % 2 ^ 64) d.m_small_blocks.length -
              l * LB_PER_SB % 2 ^ 64 ≤ fuel →
            select_bisect d.m_small_blocks (n - lb) fuel (l * LB_PER_SB % 2 ^ 64)
              (min ((l * LB_PER_SB % 2 ^ 64 + LB_PER_SB) % 2 ^ 64)
                d.m_small_blocks.length) = Except.ok s) :=
  ⟨⟨by decide, by decide, by decide⟩,
    rs_select_bisections 1 (by decide) ⟨[4, 3, 4, 3, 4, 3, 4, 3, 4, 3, 1], 51⟩
      (by decide) (by decide)⟩

/-- C23: in `select(n)` with `n < M` on a directory built over bytes all below 243 (slot
    positions fitting `uint64_t`), the stage-3 loop `for (;; ++i)`, started as `select`
    starts it at the first tryte of the small block `s` chosen by stage 2, terminates within
    `TRYTES_PER_SB = 10` iterations: it stops on a tryte `j` of small block `s`
    (`10·s ≤ j < 10·s + 10`) with `j < |bytes|`, so every tryte it examines is one of the
    at most ten trytes `10·s .. j`; and `select` returns what the final comparisons return
    on that tryte. -/
theorem rs_select_scan_bounded (t : Nat) (ht : t < 3) (vec : trit_vector)
    (hb : ∀ b ∈ vec.m_trytes, b < 243) (hW : 5 * vec.m_trytes.length < 2 ^ 64) :
    ∃ d, rs_support.build t vec = Except.ok d ∧
      ∀ n, n < d.get_num_target_trits →
        ∃ l lb s sb j m,
          select_bisect d.m_large_blocks n d.m_large_blocks.length 0
            d.m_large_blocks.length = Except.ok l ∧
          d.m_large_blocks[l]? = some lb ∧
          select_bisect d.m_small_blocks (n - lb)
            (min ((l * LB_PER_SB % 2 ^ 64 + LB_PER_SB) % 2 ^ 64) d.m_small_blocks.length -
              l * LB_PER_SB % 2 ^ 64)
            (l * LB_PER_SB % 2 ^ 64)
            (min ((l * LB_PER_SB % 2 ^ 64 + LB_PER_SB) % 2 ^ 64) d.m_small_blocks.length) =
            Except.ok s ∧
          d.m_small_blocks[s]? = some sb ∧
          select_scan (rs_support.lut t 4) vec.m_trytes (vec.m_trytes.length + 1)
            (s * TRYTES_PER_SB % 2 ^ 64) ((n - lb - sb + 1) % 2 ^ 64) = Except.ok (j, m) ∧
          select_scan (rs_support.lut t 4) vec.m_trytes TRYTES_PER_SB
            (s * TRYTES_PER_SB % 2 ^ 64) ((n - lb - sb + 1) % 2 ^ 64) = Except.ok (j, m) ∧
          s * TRYTES_PER_SB ≤ j ∧ j < s * TRYTES_PER_SB + TRYTES_PER_SB ∧
          j < vec.m_trytes.length ∧
          rs_support.select t d n = select_resolve t vec.m_trytes j m := by
  refine ⟨_, rs_build_eq ht hW hb, ?_⟩
  intro n hn
  have hn0 := hn
  simp only [rs_support.get_num_target_trits] at hn0
  have hocc5B : occ t vec.m_trytes (5 * vec.m_trytes.length) ≤ 5 * vec.m_trytes.length :=
    occ_le _ _ _
  obtain ⟨l, s, j, a1, a2, a3, a4, b1, b2, b3, b4, b5, hlo, hhi, c1, c2, c3, c4, c5, c6⟩ :=
    rs_select_stages ht hW hb hn
  have hl2 : l * LB_PER_SB % 2 ^ 64 = 1311 * l := by
    rw [LB_PER_SB_eq, Nat.mod_eq_of_lt (by omega)]; omega
  have hr2 : (1311 * l + LB_PER_SB) % 2 ^ 64 = 1311 * l + 1311 := by
    rw [LB_PER_SB_eq, Nat.mod_eq_of_lt (by omega)]
  have hsl : s / 1311 = l := by omega
  have hsS : s < (vec.m_trytes.length + 9) / 10 := by omega
  have hmono : occ t vec.m_trytes (65550 * l) ≤ occ t vec.m_trytes (50 * s) :=
    occ_mono _ _ (by omega)
  have hi2 : s * TRYTES_PER_SB % 2 ^ 64 = s * 10 := by
    rw [TRYTES_PER_SB_eq, Nat.mod_eq_of_lt (by omega)]
  have hn3 : (n - occ t vec.m_trytes (65550 * l) -
      (occ t vec.m_trytes (50 * s) - occ t vec.m_trytes (65550 * l)) + 1) % 2 ^ 64 =
      n - occ t vec.m_trytes (50 * s) + 1 := by
    rw [Nat.mod_eq_of_lt (by omega)]; omega
  have hrdl : rd (lb_list t vec.m_trytes ((vec.m_trytes.length + 13109) / 13110)) l =
      Except.ok (occ t vec.m_trytes (65550 * l)) := rd_map_range _ a1
  have hrds : rd (sb_list t vec.m_trytes ((vec.m_trytes.length + 9) / 10)) s =
      Except.ok (occ t vec.m_trytes (50 * s) - occ t vec.m_trytes (65550 * l)) := by
    have := rd_map_range
      (fun s => occ t vec.m_trytes (50 * s) - occ t vec.m_trytes (65550 * (s / 1311))) hsS
    simp only [hsl] at this
    exact this
  have hsb : occ t vec.m_trytes (50 * s) - occ t vec.m_trytes (65550 * l) ≤
      n - occ t vec.m_trytes (65550 * l) := by rw [hsl] at b3; exact b3
  have s1 := a4 ((vec.m_trytes.length + 13109) / 13110) (by omega)
  have s2 := b5 (min (1311 * l + 1311) ((vec.m_trytes.length + 9) / 10) - 1311 * l) (by omega)
  have s3 := c6 (vec.m_trytes.length + 1) (Or.inr (by omega))
  have s4 := c6 10 (Or.inl (le_refl _))
  refine ⟨l, occ t vec.m_trytes (65550 * l), s,
    occ t vec.m_trytes (50 * s) - occ t vec.m_trytes (65550 * l), j,
    n - occ t vec.m_trytes (5 * j) + 1, ?_, lb_list_getElem? t _ a1, ?_, ?_, ?_, ?_, ?_, ?_, c3,
    ?_⟩
  · simp only [lb_list_length]; exact s1
  · simp only [sb_list_length, hl2, hr2]; exact s2
  · rw [sb_list_getElem? t _ hsS, hsl]
  · rw [hi2, hn3]; exact s3
  · rw [hi2, hn3, TRYTES_PER_SB_eq]; exact s4
  · rw [TRYTES_PER_SB_eq]; exact c1
  · rw [TRYTES_PER_SB_eq]; exact c2
  · unfold rs_support.select
    simp only [hn0, if_true, lb_list_length, sb_list_length, s1, ok_bind, hrdl, a2, hl2, hr2,
      s2, hrds, hsb, hi2, hn3, s3]

theorem rs_select_scan_bounded_witness :
    (1 < 3 ∧ (∀ b ∈ [4, 3, 4, 3, 4, 3, 4, 3, 4, 3, 1], b < 243) ∧
      5 * [4, 3, 4, 3, 4, 3, 4, 3, 4, 3, 1].length < 2 ^ 64) ∧
    ∃ d, rs_support.build 1 ⟨[4, 3, 4, 3, 4, 3, 4, 3, 4, 3, 1], 51⟩ = Except.ok d ∧
      ∀ n, n < d.get_num_target_trits →
        ∃ l lb s sb j m,
          select_bisect d.m_large_blocks n d.m_large_blocks.length 0
            d.m_large_blocks.length = Except.ok l ∧
          d.m_large_blocks[l]? = some lb ∧
          select_bisect d.m_small_blocks (n - lb)
            (min ((l * LB_PER_SB % 2 ^ 64 + LB_PER_SB) % 2 ^ 64) d.m_small_blocks.length -
              l * LB_PER_SB % 2 ^ 64)
            (l * LB_PER_SB % 2 ^ 64)
            (min ((l * LB_PER_SB % 2 ^ 64 + LB_PER_SB) % 2 ^ 64) d.m_small_blocks.length) =
            Except.ok s ∧
          d.m_small_blocks[s]? = some sb ∧
          select_scan (rs_support.lut 1 4) [4, 3, 4, 3, 4, 3, 4, 3, 4, 3, 1]
            ([4, 3, 4, 3, 4, 3, 4, 3, 4, 3, 1].length + 1)
            (s * TRYTES_PER_SB % 2 ^ 64) ((n - lb - sb + 1) % 2 ^ 64) = Except.ok (j, m) ∧
          select_scan (rs_support.lut 1 4) [4, 3, 4, 3, 4, 3, 4, 3, 4, 3, 1] TRYTES_PER_SB
            (s * TRYTES_PER_SB % 2 ^ 64) ((n - lb - sb + 1) % 2 ^ 64) = Except.ok (j, m) ∧
          s * TRYTES_PER_SB ≤ j ∧ j < s * TRYTES_PER_SB + TRYTES_PER_SB ∧
          j < [4, 3, 4, 3, 4, 3, 4, 3, 4, 3, 1].length ∧
          rs_support.select 1 d n = select_resolve 1 [4, 3, 4, 3, 4, 3, 4, 3, 4, 3, 1] j m :=
  ⟨⟨by decide, by decide, by decide⟩,
    rs_select_scan_bounded 1 (by decide) ⟨[4, 3, 4, 3, 4, 3, 4, 3, 4, 3, 1], 51⟩
      (by decide) (by decide)⟩

end succinctrits
